import Mathlib

/-!
Verification development for the Patito compiler back-end
(repository `Fausto420/Compiladores`, directory `compilador/`).

The Python modules are shallowly embedded: each Python function becomes a
Lean function over explicit state, raised exceptions become `Except` errors,
and Python dicts become insertion-ordered association lists.  Machine
integers are modelled as `Nat`/`Int` (no overflow is relevant: the compiler
only counts and indexes) and Python floats as exact rationals tagged with a
FLOAT marker (only the tag and zero-test of a float matter to the
properties below, never rounding).

Where the snapshot of the repository is internally inconsistent — its
`semantics.py` is a stale iteration: `expression_to_quads.py` imports
`assert_return` from it, which it does not define, and reads the
`virtual_address` attribute of `VariableInfo`, which its dataclass does not
declare — the missing pieces are modelled from the specification and are
marked `Modelled from the spec:` in their doc comments.  Everything else is
translated directly from the source files.
-/

namespace Patito

/-! ## semantics.py — types and errors -/

/-- Type names are the Python strings INT, FLOAT, BOOL, VOID. -/
abbrev TypeName := String

def INT : TypeName := "INT"
def FLOAT : TypeName := "FLOAT"
def BOOL : TypeName := "BOOL"
def VOID : TypeName := "VOID"

/-- Exception classes raised by the compiler modules.  `semanticError`
stands for the base class `SemanticError` raised directly (as
`expression_to_quads.py` does), `valueError` and `runtimeError` and
`keyError` and `indexError` and `zeroDivisionError` and `typeError` mirror
the corresponding Python built-ins. -/
inductive PyErr where
  | duplicateFunction (msg : String)
  | duplicateVariable (msg : String)
  | duplicateParameter (msg : String)
  | unknownFunction (msg : String)
  | unknownVariable (msg : String)
  | invalidType (msg : String)
  | semanticError (msg : String)
  | valueError (msg : String)
  | runtimeError (msg : String)
  | keyError (msg : String)
  | indexError (msg : String)
  | zeroDivisionError (msg : String)
  | typeError (msg : String)
  | attributeError (msg : String)
deriving DecidableEq, Repr

/-! ## Python dict helpers

Python dicts preserve insertion order; they are embedded as association
lists where assignment updates an existing key in place and otherwise
appends at the end. -/

def dictGet {α : Type} (d : List (String × α)) (k : String) : Option α :=
  match d with
  | [] => none
  | (k0, v) :: rest => if k0 = k then some v else dictGet rest k

def dictContains {α : Type} (d : List (String × α)) (k : String) : Bool :=
  (dictGet d k).isSome

def dictSet {α : Type} (d : List (String × α)) (k : String) (v : α) :
    List (String × α) :=
  match d with
  | [] => [(k, v)]
  | (k0, v0) :: rest =>
      if k0 = k then (k0, v) :: rest else (k0, v0) :: dictSet rest k v

def dictKeys {α : Type} (d : List (String × α)) : List String :=
  d.map (·.1)

/-! ## semantics.py — semantic cube -/

/-- OPERATOR_ALIASES.get: maps the surface symbols to normalized names. -/
def OPERATOR_ALIASES_get (op : String) : Option String :=
  if op = "+" then some "PLUS"
  else if op = "-" then some "MINUS"
  else if op = "*" then some "STAR"
  else if op = "/" then some "SLASH"
  else if op = ">" then some "GREATER"
  else if op = "<" then some "LESS"
  else if op = "!=" then some "NOTEQUAL"
  else if op = "==" then some "EQUAL"
  else none

/-- Normalizes an operator: alias lookup with the operator itself as
default (`OPERATOR_ALIASES.get(operator, operator)`). -/
def normalize_operator (op : String) : String :=
  (OPERATOR_ALIASES_get op).getD op

/-- Table of an arithmetic operator of the cube whose INT,INT row yields
INT and whose rows containing FLOAT yield FLOAT (PLUS, MINUS, STAR). -/
def cubeAdditiveTable (lt rt : TypeName) : Option TypeName :=
  if lt = INT ∧ rt = INT then some INT
  else if lt = INT ∧ rt = FLOAT then some FLOAT
  else if lt = FLOAT ∧ rt = INT then some FLOAT
  else if lt = FLOAT ∧ rt = FLOAT then some FLOAT
  else none

/-- Table of the SLASH operator: every INT/FLOAT pair yields FLOAT. -/
def cubeSlashTable (lt rt : TypeName) : Option TypeName :=
  if lt = INT ∧ rt = INT then some FLOAT
  else if lt = INT ∧ rt = FLOAT then some FLOAT
  else if lt = FLOAT ∧ rt = INT then some FLOAT
  else if lt = FLOAT ∧ rt = FLOAT then some FLOAT
  else none

/-- Table of a relational operator: every INT/FLOAT pair yields BOOL. -/
def cubeRelationalTable (lt rt : TypeName) : Option TypeName :=
  if lt = INT ∧ rt = INT then some BOOL
  else if lt = INT ∧ rt = FLOAT then some BOOL
  else if lt = FLOAT ∧ rt = INT then some BOOL
  else if lt = FLOAT ∧ rt = FLOAT then some BOOL
  else none

/-- SEMANTIC_CUBE.get: the per-operator tables of `semantics.py`. -/
def SEMANTIC_CUBE_get (op : String) :
    Option (TypeName → TypeName → Option TypeName) :=
  if op = "PLUS" then some cubeAdditiveTable
  else if op = "MINUS" then some cubeAdditiveTable
  else if op = "STAR" then some cubeAdditiveTable
  else if op = "SLASH" then some cubeSlashTable
  else if op = "GREATER" then some cubeRelationalTable
  else if op = "LESS" then some cubeRelationalTable
  else if op = "NOTEQUAL" then some cubeRelationalTable
  else if op = "EQUAL" then some cubeRelationalTable
  else none

/-- `result_type` of `semantics.py`: type of `left (operator) right`
according to the semantic cube; `InvalidTypeError` when the operator is
not in the cube or the pair of types is not in its table. -/
def result_type (operator : String) (left_type right_type : TypeName) :
    Except PyErr TypeName :=
  match SEMANTIC_CUBE_get (normalize_operator operator) with
  | none =>
      .error (.invalidType
        ("Operador no soportado en el cubo semantico: " ++ operator))
  | some operator_table =>
      match operator_table left_type right_type with
      | some t => .ok t
      | none =>
          .error (.invalidType
            ("Tipos incompatibles para " ++ operator ++ ": " ++ left_type ++
              " " ++ operator ++ " " ++ right_type))

/-- Modelled from the spec: the semantics module actually imported by
`expression_to_quads.py` is a later iteration than the stale
`semantics.py` kept in the snapshot (the latter lacks `assert_return`,
which `expression_to_quads.py` imports).  The generator passes its token
names MAS/MENOS/POR/ENTRE and MAYOR/MENOR/DIFERENTE/IGUAL as operators —
the same names the virtual machine dispatches on — so, per the spec note
that opcode naming varies across iterations but must cover the closed
operator set, the pipeline cube resolves those names to the corresponding
tables; all other inputs behave as in `result_type`. -/
def pipelineAliases (op : String) : String :=
  if op = "MAS" then "PLUS"
  else if op = "MENOS" then "MINUS"
  else if op = "POR" then "STAR"
  else if op = "ENTRE" then "SLASH"
  else if op = "MAYOR" then "GREATER"
  else if op = "MENOR" then "LESS"
  else if op = "DIFERENTE" then "NOTEQUAL"
  else if op = "IGUAL" then "EQUAL"
  else op

/-- Modelled from the spec: `result_type` as seen by the quadruple
generator (see `pipelineAliases`). -/
def result_type_pipeline (operator : String) (lt rt : TypeName) :
    Except PyErr TypeName :=
  result_type (pipelineAliases operator) lt rt

/-- `assert_assign` of `semantics.py`: INT accepts INT, FLOAT accepts INT
and FLOAT, everything else is `InvalidTypeError` (the class this
repository uses for incompatible assignments). -/
def assert_assign (left_type right_type : TypeName)
    (context : String := "assignment") : Except PyErr Unit :=
  if left_type = INT then
    if right_type = INT then .ok ()
    else .error (.invalidType
      ("Tipos incompatibles en " ++ context ++ ": INT = " ++ right_type))
  else if left_type = FLOAT then
    if right_type = INT ∨ right_type = FLOAT then .ok ()
    else .error (.invalidType
      ("Tipos incomopatibles en " ++ context ++ ": FLOAT = " ++ right_type))
  else
    .error (.invalidType
      ("Tipo de Left-hand side no asignable: " ++ left_type))

/-- `ensure_bool` of `semantics.py`. -/
def ensure_bool (expression_type : TypeName)
    (context : String := "condition") : Except PyErr Unit :=
  if expression_type ≠ BOOL then
    .error (.invalidType
      ("Expected BOOL in " ++ context ++ ", got " ++ expression_type))
  else .ok ()

/-! ## semantics.py — variable tables and function directory -/

/-- Entry of a variable table.  The first four fields are the dataclass
fields of `semantics.py`.  The `virtual_address` field is
Modelled from the spec: the `VariableInfo` dataclass of the stale
`semantics.py` does not declare it, yet `virtual_memory.py` and
`expression_to_quads.py` read and write `variable_info.virtual_address`
on every entry; the spec data model gives every variable entry a
`virtual_address ∈ Nat ∪ none` filled by the allocator. -/
structure VariableInfo where
  name : String
  var_type : TypeName
  is_parameter : Bool := false
  parameter_position : Option Nat := none
  virtual_address : Option Nat := none
deriving DecidableEq, Repr

/-- Variable table of a scope: insertion-ordered mapping from names to
`VariableInfo`. -/
structure VariableTable where
  «variables» : List (String × VariableInfo) := []
deriving DecidableEq, Repr

/-- `VariableTable.add_variable`: rejects duplicates in the same scope and
types other than INT and FLOAT, then stores a fresh `VariableInfo`. -/
def VariableTable.add_variable (t : VariableTable) (variable_name : String)
    (variable_type : TypeName) (is_parameter : Bool := false)
    (parameter_position : Option Nat := none) :
    Except PyErr VariableTable :=
  if dictContains t.variables variable_name then
    .error (.duplicateVariable
      ("Variable " ++ variable_name ++ " ya fue declarada en este scope."))
  else if ¬ (variable_type = INT ∨ variable_type = FLOAT) then
    .error (.invalidType
      ("Tipo de variable no soportado: " ++ variable_type))
  else
    .ok ⟨dictSet t.variables variable_name
      ⟨variable_name, variable_type, is_parameter, parameter_position, none⟩⟩

/-- `VariableTable.get_variable`. -/
def VariableTable.get_variable (t : VariableTable) (variable_name : String) :
    Except PyErr VariableInfo :=
  match dictGet t.variables variable_name with
  | some info => .ok info
  | none => .error (.unknownVariable
      ("Variable " ++ variable_name ++ " no encontrada en este scope."))

/-- `VariableTable.contains_variable`. -/
def VariableTable.contains_variable (t : VariableTable) (n : String) : Bool :=
  dictContains t.variables n

/-- Entry of the function directory. -/
structure FunctionInfo where
  name : String
  return_type : TypeName := VOID
  parameter_list : List VariableInfo := []
  local_variables : VariableTable := {}
deriving DecidableEq, Repr

/-- `FunctionInfo.add_parameter`: appends to the ordered parameter list and
registers the parameter in the local variable table as well. -/
def FunctionInfo.add_parameter (f : FunctionInfo) (parameter_name : String)
    (parameter_type : TypeName) : Except PyErr FunctionInfo :=
  if f.parameter_list.any (fun p => p.name = parameter_name) then
    .error (.duplicateParameter
      ("Parametro " ++ parameter_name ++ " ya fue declarado en la funcion " ++
        f.name ++ "."))
  else
    let parameter_position := f.parameter_list.length
    let parameter_info : VariableInfo :=
      ⟨parameter_name, parameter_type, true, some parameter_position, none⟩
    match f.local_variables.add_variable parameter_name parameter_type
        true (some parameter_position) with
    | .error e => .error e
    | .ok locals =>
        .ok { f with
          parameter_list := f.parameter_list ++ [parameter_info],
          local_variables := locals }

/-- `FunctionInfo.add_local_variable`. -/
def FunctionInfo.add_local_variable (f : FunctionInfo)
    (variable_name : String) (variable_type : TypeName) :
    Except PyErr FunctionInfo :=
  match f.local_variables.add_variable variable_name variable_type
      false none with
  | .error e => .error e
  | .ok locals => .ok { f with local_variables := locals }

/-- Directory of the functions of a whole Patito program. -/
structure FunctionDirectory where
  global_variables : VariableTable := {}
  functions : List (String × FunctionInfo) := []
deriving DecidableEq, Repr

/-- `FunctionDirectory.add_function` exactly as in the snapshot
`semantics.py`: rejects duplicate names with `DuplicateFunctionError` and
— a leftover of an earlier iteration, contradicted by the typed functions
declared in the demos and tests of this very repository — rejects every
return type other than VOID with `InvalidTypeError`. -/
def FunctionDirectory.add_function (d : FunctionDirectory)
    (function_name : String) (return_type : TypeName := VOID) :
    Except PyErr FunctionDirectory :=
  if dictContains d.functions function_name then
    .error (.duplicateFunction
      ("Funcion " ++ function_name ++ " ya fue declarada."))
  else if return_type ≠ VOID then
    .error (.invalidType
      ("Por ahora solo se permiten funciones VOID. Intento de usar tipo: " ++
        return_type))
  else
    .ok { d with
      functions :=
        dictSet d.functions function_name
          ⟨function_name, return_type, [], {}⟩ }

/-- Modelled from the spec: `add_function(name, return_type)` of the
operative semantics module — the later iteration missing from the
snapshot — fails only with `DuplicateFunction`; INT, FLOAT and VOID
return types are all registered (the repository demos declare
INT- and FLOAT-returning functions and the quadruple generator and
virtual machine implement calls to them). -/
def FunctionDirectory.add_function_spec (d : FunctionDirectory)
    (function_name : String) (return_type : TypeName := VOID) :
    Except PyErr FunctionDirectory :=
  if dictContains d.functions function_name then
    .error (.duplicateFunction
      ("Funcion " ++ function_name ++ " ya fue declarada."))
  else
    .ok { d with
      functions :=
        dictSet d.functions function_name
          ⟨function_name, return_type, [], {}⟩ }

/-- `FunctionDirectory.get_function`. -/
def FunctionDirectory.get_function (d : FunctionDirectory)
    (function_name : String) : Except PyErr FunctionInfo :=
  match dictGet d.functions function_name with
  | some info => .ok info
  | none => .error (.unknownFunction
      ("Funcion " ++ function_name ++ " no ha sido declarada."))

/-- `FunctionDirectory.add_parameter_to_function`. -/
def FunctionDirectory.add_parameter_to_function (d : FunctionDirectory)
    (function_name parameter_name : String) (parameter_type : TypeName) :
    Except PyErr FunctionDirectory :=
  match d.get_function function_name with
  | .error e => .error e
  | .ok f =>
      match f.add_parameter parameter_name parameter_type with
      | .error e => .error e
      | .ok f2 =>
          .ok { d with functions := dictSet d.functions function_name f2 }

/-- `FunctionDirectory.add_local_variable_to_function`. -/
def FunctionDirectory.add_local_variable_to_function (d : FunctionDirectory)
    (function_name variable_name : String) (variable_type : TypeName) :
    Except PyErr FunctionDirectory :=
  match d.get_function function_name with
  | .error e => .error e
  | .ok f =>
      match f.add_local_variable variable_name variable_type with
      | .error e => .error e
      | .ok f2 =>
          .ok { d with functions := dictSet d.functions function_name f2 }

/-- `FunctionDirectory.add_global_variable`. -/
def FunctionDirectory.add_global_variable (d : FunctionDirectory)
    (variable_name : String) (variable_type : TypeName) :
    Except PyErr FunctionDirectory :=
  match d.global_variables.add_variable variable_name variable_type with
  | .error e => .error e
  | .ok g => .ok { d with global_variables := g }

/-- `FunctionDirectory.lookup_variable`: locals of the current function
first (when one is given), then globals, otherwise `UnknownVariableError`. -/
def FunctionDirectory.lookup_variable (d : FunctionDirectory)
    (variable_name : String) (current_function_name : Option String) :
    Except PyErr VariableInfo :=
  match current_function_name with
  | some fn =>
      match d.get_function fn with
      | .error e => .error e
      | .ok f =>
          if f.local_variables.contains_variable variable_name then
            f.local_variables.get_variable variable_name
          else if d.global_variables.contains_variable variable_name then
            d.global_variables.get_variable variable_name
          else
            .error (.unknownVariable
              ("Variable " ++ variable_name ++ " no existe ni en la funcion ni en el scope global."))
  | none =>
      if d.global_variables.contains_variable variable_name then
        d.global_variables.get_variable variable_name
      else
        .error (.unknownVariable
          ("Variable " ++ variable_name ++ " no existe ni en la funcion ni en el scope global."))

/-- Modelled from the spec: `assert_return` is imported by
`expression_to_quads.py` from the semantics module but missing from the
snapshot `semantics.py`.  Per spec section 4.1: a VOID function requires
a bare `return` (no value), a typed function requires a value assignable
to its return type per `assert_assign`; a bare `return` in a typed
function is the MissingReturnValue failure. -/
def assert_return (function_directory : FunctionDirectory)
    (current_function_name : String) (expression_type : Option TypeName) :
    Except PyErr Unit :=
  match function_directory.get_function current_function_name with
  | .error e => .error e
  | .ok f =>
      if f.return_type = VOID then
        match expression_type with
        | none => .ok ()
        | some t => .error (.invalidType
            ("La funcion VOID " ++ current_function_name ++
              " no puede regresar un valor de tipo " ++ t))
      else
        match expression_type with
        | none => .error (.invalidType
            ("La funcion " ++ current_function_name ++
              " debe regresar un valor (MissingReturnValue)."))
        | some t => assert_assign f.return_type t "return"

/-! ## virtual_memory.py — virtual addresses -/

def GLOBAL_INT_START : Nat := 1000
def GLOBAL_FLOAT_START : Nat := 2000
def GLOBAL_BOOL_START : Nat := 3000
def LOCAL_INT_START : Nat := 4000
def LOCAL_FLOAT_START : Nat := 5000
def LOCAL_BOOL_START : Nat := 6000
def TEMP_INT_START : Nat := 7000
def TEMP_FLOAT_START : Nat := 8000
def TEMP_BOOL_START : Nat := 9000
def CONST_INT_START : Nat := 10000
def CONST_FLOAT_START : Nat := 11000
def CONST_STRING_START : Nat := 12000

/-- Counters of the virtual memory segments: next free address of each
segment and type. -/
structure MemoryCounters where
  global_int : Nat := GLOBAL_INT_START
  global_float : Nat := GLOBAL_FLOAT_START
  global_bool : Nat := GLOBAL_BOOL_START
  local_int : Nat := LOCAL_INT_START
  local_float : Nat := LOCAL_FLOAT_START
  local_bool : Nat := LOCAL_BOOL_START
  temp_int : Nat := TEMP_INT_START
  temp_float : Nat := TEMP_FLOAT_START
  temp_bool : Nat := TEMP_BOOL_START
  const_int : Nat := CONST_INT_START
  const_float : Nat := CONST_FLOAT_START
  const_string : Nat := CONST_STRING_START
deriving DecidableEq, Repr

/-- Constant table: maps a pair (literal lexeme, type) to its virtual
address.  The underscore-prefixed Python field is called `table` here. -/
structure ConstantTable where
  table : List ((String × TypeName) × Nat) := []
deriving DecidableEq, Repr

/-- Lookup in the constant table (a Python dict keyed by pairs). -/
def constGet (t : List ((String × TypeName) × Nat))
    (k : String × TypeName) : Option Nat :=
  match t with
  | [] => none
  | (k0, v) :: rest => if k0 = k then some v else constGet rest k

/-- `ConstantTable.get_or_create`: address of the literal, interning it on
first encounter; INT constants draw from the const-int counter, FLOAT
from the const-float counter, any other constant type from the
const-string counter.  Returns the address together with the updated
table and counters (the Python version mutates both in place). -/
def ConstantTable.get_or_create (ct : ConstantTable) (literal_value : String)
    (const_type : TypeName) (counters : MemoryCounters) :
    Nat × ConstantTable × MemoryCounters :=
  let key := (literal_value, const_type)
  match constGet ct.table key with
  | some address => (address, ct, counters)
  | none =>
      let (address, counters2) :=
        if const_type = INT then
          (counters.const_int, { counters with const_int := counters.const_int + 1 })
        else if const_type = FLOAT then
          (counters.const_float, { counters with const_float := counters.const_float + 1 })
        else
          (counters.const_string, { counters with const_string := counters.const_string + 1 })
      (address, ⟨ct.table ++ [(key, address)]⟩, counters2)

/-- Virtual memory allocator: counters, constant table and the registry of
return addresses of typed functions. -/
structure VirtualMemory where
  counters : MemoryCounters := {}
  constant_table : ConstantTable := {}
  function_return_addresses : List (String × Nat) := []
deriving DecidableEq, Repr

/-- `VirtualMemory.allocate_global`: current global counter for the type,
advanced by one; ValueError for unsupported types. -/
def VirtualMemory.allocate_global (vm : VirtualMemory)
    (variable_type : TypeName) : Except PyErr (Nat × VirtualMemory) :=
  if variable_type = INT then
    .ok (vm.counters.global_int,
      { vm with counters := { vm.counters with global_int := vm.counters.global_int + 1 } })
  else if variable_type = FLOAT then
    .ok (vm.counters.global_float,
      { vm with counters := { vm.counters with global_float := vm.counters.global_float + 1 } })
  else if variable_type = BOOL then
    .ok (vm.counters.global_bool,
      { vm with counters := { vm.counters with global_bool := vm.counters.global_bool + 1 } })
  else
    .error (.valueError ("Tipo no soportado para variable global: " ++ variable_type))

/-- `VirtualMemory.allocate_local`. -/
def VirtualMemory.allocate_local (vm : VirtualMemory)
    (variable_type : TypeName) : Except PyErr (Nat × VirtualMemory) :=
  if variable_type = INT then
    .ok (vm.counters.local_int,
      { vm with counters := { vm.counters with local_int := vm.counters.local_int + 1 } })
  else if variable_type = FLOAT then
    .ok (vm.counters.local_float,
      { vm with counters := { vm.counters with local_float := vm.counters.local_float + 1 } })
  else if variable_type = BOOL then
    .ok (vm.counters.local_bool,
      { vm with counters := { vm.counters with local_bool := vm.counters.local_bool + 1 } })
  else
    .error (.valueError ("Tipo no soportado para variable local: " ++ variable_type))

/-- `VirtualMemory.allocate_temporary`. -/
def VirtualMemory.allocate_temporary (vm : VirtualMemory)
    (temp_type : TypeName) : Except PyErr (Nat × VirtualMemory) :=
  if temp_type = INT then
    .ok (vm.counters.temp_int,
      { vm with counters := { vm.counters with temp_int := vm.counters.temp_int + 1 } })
  else if temp_type = FLOAT then
    .ok (vm.counters.temp_float,
      { vm with counters := { vm.counters with temp_float := vm.counters.temp_float + 1 } })
  else if temp_type = BOOL then
    .ok (vm.counters.temp_bool,
      { vm with counters := { vm.counters with temp_bool := vm.counters.temp_bool + 1 } })
  else
    .error (.valueError ("Tipo no soportado para temporal: " ++ temp_type))

/-- `VirtualMemory.allocate_constant`: delegates to the constant table. -/
def VirtualMemory.allocate_constant (vm : VirtualMemory)
    (literal_value : String) (const_type : TypeName) : Nat × VirtualMemory :=
  let (address, ct2, counters2) :=
    vm.constant_table.get_or_create literal_value const_type vm.counters
  (address, { vm with counters := counters2, constant_table := ct2 })

/-- `VirtualMemory.allocate_function_return`: reserves (idempotently) a
global-typed slot for the return value of a typed function; VOID and
non-numeric return types are ValueError. -/
def VirtualMemory.allocate_function_return (vm : VirtualMemory)
    (function_name : String) (return_type : TypeName) :
    Except PyErr (Nat × VirtualMemory) :=
  if return_type = VOID then
    .error (.valueError
      ("No se puede asignar direccion de retorno a una funcion VOID: " ++ function_name))
  else
    match dictGet vm.function_return_addresses function_name with
    | some address => .ok (address, vm)
    | none =>
        if return_type = INT then
          .ok (vm.counters.global_int,
            { vm with
              counters := { vm.counters with global_int := vm.counters.global_int + 1 },
              function_return_addresses :=
                dictSet vm.function_return_addresses function_name vm.counters.global_int })
        else if return_type = FLOAT then
          .ok (vm.counters.global_float,
            { vm with
              counters := { vm.counters with global_float := vm.counters.global_float + 1 },
              function_return_addresses :=
                dictSet vm.function_return_addresses function_name vm.counters.global_float })
        else
          .error (.valueError
            ("Tipo de retorno no soportado para funcion " ++ function_name ++ ": " ++ return_type))

/-- `VirtualMemory.get_function_return_address`: KeyError when no return
slot was reserved. -/
def VirtualMemory.get_function_return_address (vm : VirtualMemory)
    (function_name : String) : Except PyErr Nat :=
  match dictGet vm.function_return_addresses function_name with
  | some address => .ok address
  | none => .error (.keyError
      ("No se encontro direccion de retorno para la funcion " ++ function_name))

/-- First pass of `assign_variable_addresses`: gives every global variable
entry without an address a fresh global address of its type. -/
def assignGlobalsPass :
    List (String × VariableInfo) → VirtualMemory →
    Except PyErr (List (String × VariableInfo) × VirtualMemory)
  | [], vm => .ok ([], vm)
  | (n, vi) :: rest, vm =>
      match (if vi.virtual_address = none then
              match vm.allocate_global vi.var_type with
              | .error e => .error e
              | .ok (addr, vm2) =>
                  .ok ({ vi with virtual_address := some addr }, vm2)
             else .ok (vi, vm) : Except PyErr (VariableInfo × VirtualMemory)) with
      | .error e => .error e
      | .ok (vi2, vm2) =>
          match assignGlobalsPass rest vm2 with
          | .error e => .error e
          | .ok (rest2, vm3) => .ok ((n, vi2) :: rest2, vm3)

/-- Per-function local pass of `assign_variable_addresses`: gives every
local variable entry (parameters included) without an address a fresh
local address of its type. -/
def assignLocalsPass :
    List (String × VariableInfo) → VirtualMemory →
    Except PyErr (List (String × VariableInfo) × VirtualMemory)
  | [], vm => .ok ([], vm)
  | (n, vi) :: rest, vm =>
      match (if vi.virtual_address = none then
              match vm.allocate_local vi.var_type with
              | .error e => .error e
              | .ok (addr, vm2) =>
                  .ok ({ vi with virtual_address := some addr }, vm2)
             else .ok (vi, vm) : Except PyErr (VariableInfo × VirtualMemory)) with
      | .error e => .error e
      | .ok (vi2, vm2) =>
          match assignLocalsPass rest vm2 with
          | .error e => .error e
          | .ok (rest2, vm3) => .ok ((n, vi2) :: rest2, vm3)

/-- Parameter synchronisation step of `assign_variable_addresses`: each
entry of `parameter_list` receives the address of its local-table copy
(when one exists). -/
def syncParameters (params : List VariableInfo)
    (locals : List (String × VariableInfo)) : List VariableInfo :=
  params.map (fun p =>
    match dictGet locals p.name with
    | some local_copy => { p with virtual_address := local_copy.virtual_address }
    | none => p)

/-- Per-function step of `assign_variable_addresses`: locals, parameter
synchronisation, then the return slot of a typed function. -/
def assignFunctionPass :
    List (String × FunctionInfo) → VirtualMemory →
    Except PyErr (List (String × FunctionInfo) × VirtualMemory)
  | [], vm => .ok ([], vm)
  | (n, f) :: rest, vm =>
      match assignLocalsPass f.local_variables.variables vm with
      | .error e => .error e
      | .ok (locals2, vm2) =>
          let params2 := syncParameters f.parameter_list locals2
          let f2 : FunctionInfo :=
            { f with parameter_list := params2, local_variables := ⟨locals2⟩ }
          match (if f.return_type ≠ VOID then
                  match vm2.allocate_function_return f.name f.return_type with
                  | .error e => .error e
                  | .ok (_, vm3) => .ok vm3
                 else .ok vm2 : Except PyErr VirtualMemory) with
          | .error e => .error e
          | .ok vm4 =>
              match assignFunctionPass rest vm4 with
              | .error e => .error e
              | .ok (rest2, vm5) => .ok ((n, f2) :: rest2, vm5)

/-- `assign_variable_addresses` of `virtual_memory.py`: globals, then for
every function its locals (parameters included) and parameter
synchronisation, then the return slot of every typed function. -/
def assign_variable_addresses (function_directory : FunctionDirectory)
    (virtual_memory : VirtualMemory) :
    Except PyErr (FunctionDirectory × VirtualMemory) :=
  match assignGlobalsPass function_directory.global_variables.variables
      virtual_memory with
  | .error e => .error e
  | .ok (globals2, vm2) =>
      match assignFunctionPass function_directory.functions vm2 with
      | .error e => .error e
      | .ok (functions2, vm3) =>
          .ok (⟨⟨globals2⟩, functions2⟩, vm3)
/-! ## intermediate_code_structures.py -/

/-- Value stored in a quadruple operand slot (a Python `Any` that in
practice holds an integer — an address, a parameter position or a jump
index — or a string such as a function name). -/
inductive QVal where
  | num (n : Nat)
  | str (s : String)
deriving DecidableEq, Repr

/-- Quadruple (operador, operando izq, operando der, resultado). -/
structure Quadruple where
  operator : String
  left_operand : Option QVal := none
  right_operand : Option QVal := none
  result : Option QVal := none
deriving DecidableEq, Repr

/-- `QuadrupleQueue.enqueue`: appends and returns the index of the new
quadruple. -/
def enqueue (items : List Quadruple) (quad : Quadruple) :
    List Quadruple × Nat :=
  (items ++ [quad], items.length)

/-- `QuadrupleQueue.update_result`: in-place mutation of the `result`
field of the quadruple at `index` (the only mutation the queue allows). -/
def update_result (items : List Quadruple) (index : Nat)
    (new_result : QVal) : List Quadruple :=
  match items.get? index with
  | some q => items.set index { q with result := some new_result }
  | none => items

/-- `IntermediateCodeContext`: the three stacks and the quadruple queue.
Stacks grow at the head. -/
structure IntermediateCodeContext where
  operator_stack : List String := []
  operand_stack : List Nat := []
  type_stack : List TypeName := []
  quadruples : List Quadruple := []
deriving DecidableEq, Repr

/-! ## execution_memory.py -/

/-- Runtime value: a Python int, float, bool or str.  Floats are exact
rationals; only their FLOAT tag and zero test matter to the verified
properties. -/
inductive PyVal where
  | int (n : Int)
  | float (q : Rat)
  | bool (b : Bool)
  | str (s : String)
deriving DecidableEq, Repr

/-- Default value of each storage type (TYPE_STORAGE_MAP). -/
def storageDefault (data_type : String) : PyVal :=
  if data_type = "INT" then .int 0
  else if data_type = "FLOAT" then .float 0
  else if data_type = "BOOL" then .bool false
  else .str ""

/-- Activation record (call frame) of one function invocation. -/
structure ActivationRecord where
  function_name : String
  local_base : Option Nat := none
  temp_base : Option Nat := none
  local_ints : List PyVal := []
  local_floats : List PyVal := []
  local_bools : List PyVal := []
  temp_ints : List PyVal := []
  temp_floats : List PyVal := []
  temp_bools : List PyVal := []
deriving DecidableEq, Repr

/-- Execution memory: GLOBAL and CONSTANT segments owned by the memory,
LOCAL and TEMP segments owned by the activation record on top of the call
stack.  The top of the call stack is the head of the list (Python keeps
it at the end of its list). -/
structure ExecutionMemory where
  global_ints : List PyVal := []
  global_floats : List PyVal := []
  global_bools : List PyVal := []
  const_ints : List PyVal := []
  const_floats : List PyVal := []
  const_strings : List PyVal := []
  call_stack : List ActivationRecord := []
deriving DecidableEq, Repr

/-- `ExecutionMemory.__init__` with `_initialize_main_frame`: empty
segments and the main frame already on the call stack. -/
def ExecutionMemory.init : ExecutionMemory :=
  { call_stack := [{ function_name := "__main__" }] }

/-- `ExecutionMemory.decode_address`: range comparison against the fixed
segment boundaries; ValueError outside every range. -/
def ExecutionMemory.decode_address (virtual_address : Nat) :
    Except PyErr (String × String × Nat) :=
  if GLOBAL_INT_START ≤ virtual_address ∧ virtual_address < GLOBAL_FLOAT_START then
    .ok ("GLOBAL", "INT", virtual_address - GLOBAL_INT_START)
  else if GLOBAL_FLOAT_START ≤ virtual_address ∧ virtual_address < GLOBAL_BOOL_START then
    .ok ("GLOBAL", "FLOAT", virtual_address - GLOBAL_FLOAT_START)
  else if GLOBAL_BOOL_START ≤ virtual_address ∧ virtual_address < LOCAL_INT_START then
    .ok ("GLOBAL", "BOOL", virtual_address - GLOBAL_BOOL_START)
  else if LOCAL_INT_START ≤ virtual_address ∧ virtual_address < LOCAL_FLOAT_START then
    .ok ("LOCAL", "INT", virtual_address - LOCAL_INT_START)
  else if LOCAL_FLOAT_START ≤ virtual_address ∧ virtual_address < LOCAL_BOOL_START then
    .ok ("LOCAL", "FLOAT", virtual_address - LOCAL_FLOAT_START)
  else if LOCAL_BOOL_START ≤ virtual_address ∧ virtual_address < TEMP_INT_START then
    .ok ("LOCAL", "BOOL", virtual_address - LOCAL_BOOL_START)
  else if TEMP_INT_START ≤ virtual_address ∧ virtual_address < TEMP_FLOAT_START then
    .ok ("TEMP", "INT", virtual_address - TEMP_INT_START)
  else if TEMP_FLOAT_START ≤ virtual_address ∧ virtual_address < TEMP_BOOL_START then
    .ok ("TEMP", "FLOAT", virtual_address - TEMP_FLOAT_START)
  else if TEMP_BOOL_START ≤ virtual_address ∧ virtual_address < CONST_INT_START then
    .ok ("TEMP", "BOOL", virtual_address - TEMP_BOOL_START)
  else if CONST_INT_START ≤ virtual_address ∧ virtual_address < CONST_FLOAT_START then
    .ok ("CONSTANT", "INT", virtual_address - CONST_INT_START)
  else if CONST_FLOAT_START ≤ virtual_address ∧ virtual_address < CONST_STRING_START then
    .ok ("CONSTANT", "FLOAT", virtual_address - CONST_FLOAT_START)
  else if CONST_STRING_START ≤ virtual_address ∧ virtual_address < CONST_STRING_START + 1000 then
    .ok ("CONSTANT", "STRING", virtual_address - CONST_STRING_START)
  else
    .error (.valueError
      ("Direccion virtual " ++ toString virtual_address ++ " fuera de los rangos validos"))

/-- Identifies one of the twelve storage lists: the six owned by the
memory and the six owned by the top activation record. -/
inductive StorageRef where
  | gInts | gFloats | gBools | cInts | cFloats | cStrings
  | fLocalInts | fLocalFloats | fLocalBools
  | fTempInts | fTempFloats | fTempBools
deriving DecidableEq, Repr

/-- `_get_storage_list_and_adjusted_offset`, split for purity into the
choice of list (this function) and the accessors below.  GLOBAL and
CONSTANT use the offset directly; LOCAL and TEMP subtract the base offset
of the current frame (when the frame records a base).  Combinations whose
storage list does not exist in the Python object (for example GLOBAL
STRING) fail like the `getattr` they would perform. -/
def ExecutionMemory.resolveStorage (m : ExecutionMemory)
    (segment data_type : String) (original_offset : Nat) :
    Except PyErr (StorageRef × Int) :=
  if ¬ (data_type = "INT" ∨ data_type = "FLOAT" ∨ data_type = "BOOL" ∨ data_type = "STRING") then
    .error (.valueError ("Tipo de dato invalido: " ++ data_type))
  else if segment = "GLOBAL" then
    if data_type = "INT" then .ok (.gInts, original_offset)
    else if data_type = "FLOAT" then .ok (.gFloats, original_offset)
    else if data_type = "BOOL" then .ok (.gBools, original_offset)
    else .error (.attributeError "global_strings")
  else if segment = "CONSTANT" then
    if data_type = "INT" then .ok (.cInts, original_offset)
    else if data_type = "FLOAT" then .ok (.cFloats, original_offset)
    else if data_type = "STRING" then .ok (.cStrings, original_offset)
    else .error (.attributeError "const_bools")
  else if segment = "LOCAL" ∨ segment = "TEMP" then
    match m.call_stack with
    | [] => .error (.runtimeError "No hay activation record en el call stack")
    | current_frame :: _ =>
        let base_virtual_addr : Option Nat :=
          if segment = "LOCAL" then current_frame.local_base
          else current_frame.temp_base
        let adjusted_offset : Int :=
          match base_virtual_addr with
          | none => original_offset
          | some base =>
              let segment_start : Nat :=
                if segment = "LOCAL" then LOCAL_INT_START else TEMP_INT_START
              let base_offset : Int := (base : Int) - (segment_start : Int)
              (original_offset : Int) - base_offset
        if segment = "LOCAL" then
          if data_type = "INT" then .ok (.fLocalInts, adjusted_offset)
          else if data_type = "FLOAT" then .ok (.fLocalFloats, adjusted_offset)
          else if data_type = "BOOL" then .ok (.fLocalBools, adjusted_offset)
          else .error (.attributeError "local_strings")
        else
          if data_type = "INT" then .ok (.fTempInts, adjusted_offset)
          else if data_type = "FLOAT" then .ok (.fTempFloats, adjusted_offset)
          else if data_type = "BOOL" then .ok (.fTempBools, adjusted_offset)
          else .error (.attributeError "temp_strings")
  else
    .error (.valueError ("Segmento invalido: " ++ segment))

/-- Contents of the storage list named by a `StorageRef` (frame lists read
the top frame; an empty call stack yields the empty list, a case
`resolveStorage` already rules out). -/
def ExecutionMemory.refList (m : ExecutionMemory) (ref : StorageRef) :
    List PyVal :=
  match ref with
  | .gInts => m.global_ints
  | .gFloats => m.global_floats
  | .gBools => m.global_bools
  | .cInts => m.const_ints
  | .cFloats => m.const_floats
  | .cStrings => m.const_strings
  | _ =>
      match m.call_stack with
      | [] => []
      | fr :: _ =>
          match ref with
          | .fLocalInts => fr.local_ints
          | .fLocalFloats => fr.local_floats
          | .fLocalBools => fr.local_bools
          | .fTempInts => fr.temp_ints
          | .fTempFloats => fr.temp_floats
          | _ => fr.temp_bools

/-- Replaces the storage list named by a `StorageRef` (frame lists update
the top frame). -/
def ExecutionMemory.refListSet (m : ExecutionMemory) (ref : StorageRef)
    (l : List PyVal) : ExecutionMemory :=
  match ref with
  | .gInts => { m with global_ints := l }
  | .gFloats => { m with global_floats := l }
  | .gBools => { m with global_bools := l }
  | .cInts => { m with const_ints := l }
  | .cFloats => { m with const_floats := l }
  | .cStrings => { m with const_strings := l }
  | _ =>
      match m.call_stack with
      | [] => m
      | fr :: rest =>
          let fr2 :=
            match ref with
            | .fLocalInts => { fr with local_ints := l }
            | .fLocalFloats => { fr with local_floats := l }
            | .fLocalBools => { fr with local_bools := l }
            | .fTempInts => { fr with temp_ints := l }
            | .fTempFloats => { fr with temp_floats := l }
            | _ => { fr with temp_bools := l }
          { m with call_stack := fr2 :: rest }

/-- `_ensure_capacity`: extends the list with the default value until the
offset is a valid index. -/
def ensure_capacity (l : List PyVal) (offset : Nat) (default : PyVal) :
    List PyVal :=
  l ++ List.replicate (offset + 1 - l.length) default

/-- `ExecutionMemory.read`: decode, select the storage list, then bounds
check — reading an address whose list does not yet cover its offset is an
IndexError. -/
def ExecutionMemory.read (m : ExecutionMemory) (virtual_address : Nat) :
    Except PyErr PyVal :=
  match ExecutionMemory.decode_address virtual_address with
  | .error e => .error e
  | .ok (segment, data_type, offset) =>
      match m.resolveStorage segment data_type offset with
      | .error e => .error e
      | .ok (ref, adjusted_offset) =>
          let l := m.refList ref
          if adjusted_offset < 0 ∨ (l.length : Int) ≤ adjusted_offset then
            .error (.indexError
              ("Intento de leer direccion " ++ toString virtual_address ++
                " que no ha sido inicializada."))
          else
            match l.get? adjusted_offset.toNat with
            | some v => .ok v
            | none => .error (.indexError "unreachable")

/-- `ExecutionMemory.write`: decode, select the storage list, extend it as
needed, then store.  (A negative adjusted offset cannot be produced by a
compiled program; Python would index from the end of the list there, this
model rejects it.) -/
def ExecutionMemory.write (m : ExecutionMemory) (virtual_address : Nat)
    (value : PyVal) : Except PyErr ExecutionMemory :=
  match ExecutionMemory.decode_address virtual_address with
  | .error e => .error e
  | .ok (segment, data_type, offset) =>
      match m.resolveStorage segment data_type offset with
      | .error e => .error e
      | .ok (ref, adjusted_offset) =>
          if adjusted_offset < 0 then
            .error (.indexError "negative adjusted offset")
          else
            let l := ensure_capacity (m.refList ref) adjusted_offset.toNat
              (storageDefault data_type)
            .ok (m.refListSet ref (l.set adjusted_offset.toNat value))

/-- Decimal digit run accumulator (the characters 0 to 9 have codes 48
to 57). -/
def parseDigitsAux : List Char → Nat → Option Nat
  | [], acc => some acc
  | c :: rest, acc =>
      if 48 ≤ c.toNat ∧ c.toNat ≤ 57 then
        parseDigitsAux rest (acc * 10 + (c.toNat - 48))
      else none

/-- Decimal reading of a non-empty digit list. -/
def parseNatChars (cs : List Char) : Option Nat :=
  match cs with
  | [] => none
  | _ => parseDigitsAux cs 0

/-- Signed decimal reading of a character list (Python `int`). -/
def parseIntChars (cs : List Char) : Option Int :=
  match cs with
  | c :: rest =>
      if c = Char.ofNat 45 then (parseNatChars rest).map (fun n => -(n : Int))
      else (parseNatChars cs).map (fun n => (n : Int))
  | [] => none

/-- Python `int(lexeme)` on the numeric lexemes the scanner produces. -/
def pyParseInt (s : String) : Except PyErr Int :=
  match parseIntChars s.data with
  | some n => .ok n
  | none => .error (.valueError ("invalid literal for int: " ++ s))

/-- Python `float(lexeme)` on the float lexemes the scanner produces
(digits, one optional point, digits), as an exact rational. -/
def pyParseFloat (s : String) : Except PyErr Rat :=
  let whole := s.data.takeWhile (fun c => c ≠ Char.ofNat 46)
  let rest := s.data.dropWhile (fun c => c ≠ Char.ofNat 46)
  match rest with
  | [] =>
      match parseIntChars whole with
      | some n => .ok (n : Rat)
      | none => .error (.valueError ("could not convert string to float: " ++ s))
  | _ :: frac =>
      match parseIntChars whole, parseNatChars frac with
      | some n, some fn =>
          .ok ((n : Rat) + (fn : Rat) / ((10 : Rat) ^ frac.length))
      | _, _ => .error (.valueError ("could not convert string to float: " ++ s))

/-- Python `lexeme.strip(chr(34))`: removes the surrounding quotes of a
string literal. -/
def stripQuotes (s : String) : String :=
  String.mk (((s.data.dropWhile (· = Char.ofNat 34)).reverse.dropWhile
    (· = Char.ofNat 34)).reverse)

/-- `ExecutionMemory.load_constants`: coerces every interned lexeme to its
declared type and writes it at its address. -/
def ExecutionMemory.load_constants (m : ExecutionMemory)
    (table : List ((String × TypeName) × Nat)) :
    Except PyErr ExecutionMemory :=
  match table with
  | [] => .ok m
  | ((literal_value, const_type), virtual_address) :: rest =>
      match (if const_type = INT then
              (pyParseInt literal_value).map PyVal.int
             else if const_type = FLOAT then
              (pyParseFloat literal_value).map PyVal.float
             else .ok (.str (stripQuotes literal_value)) :
             Except PyErr PyVal) with
      | .error e => .error e
      | .ok value =>
          match m.write virtual_address value with
          | .error e => .error e
          | .ok m2 => m2.load_constants rest

/-- `ExecutionMemory.prepare_frame` (called by ERA): builds a frame but
does not push it. -/
def ExecutionMemory.prepare_frame (function_name : String)
    (local_base_address temp_base_address : Nat) : ActivationRecord :=
  { function_name := function_name,
    local_base := some local_base_address,
    temp_base := some temp_base_address }

/-- `ExecutionMemory.push_frame` (called by GOSUB). -/
def ExecutionMemory.push_frame (m : ExecutionMemory)
    (frame : ActivationRecord) : ExecutionMemory :=
  { m with call_stack := frame :: m.call_stack }

/-- `ExecutionMemory.pop_frame`: fails whenever at most one frame remains
— the main frame may never be popped. -/
def ExecutionMemory.pop_frame (m : ExecutionMemory) :
    Except PyErr (ActivationRecord × ExecutionMemory) :=
  if m.call_stack.length ≤ 1 then
    .error (.runtimeError
      "No se puede hacer pop del frame principal del programa")
  else
    match m.call_stack with
    | [] => .error (.runtimeError "unreachable")
    | fr :: rest => .ok (fr, { m with call_stack := rest })
/-! ## virtual_machine.py -/

/-- Truthiness of a runtime value (Python `not value` on the GOTOF
condition): 0, 0.0, False and the empty string are falsy. -/
def pyTruthy (v : PyVal) : Bool :=
  match v with
  | .int n => n ≠ 0
  | .float q => q ≠ 0
  | .bool b => b
  | .str s => s ≠ ""

/-- Python `value == 0` (the division guard): ints, floats and bools
compare numerically with zero, strings never equal it. -/
def pyEqZero (v : PyVal) : Bool :=
  match v with
  | .int n => n = 0
  | .float q => q = 0
  | .bool b => b = false
  | .str _ => false

/-- Numeric view of a value (Python bools are ints). -/
def pyNum (v : PyVal) : Option Rat :=
  match v with
  | .int n => some (n : Rat)
  | .float q => some q
  | .bool b => some (if b then 1 else 0)
  | .str _ => none

/-- Integer view of a non-float numeric value. -/
def pyIntOf (v : PyVal) : Option Int :=
  match v with
  | .int n => some n
  | .bool b => some (if b then 1 else 0)
  | _ => none

/-- Whether the value carries the float tag. -/
def PyVal.isFloat (v : PyVal) : Bool :=
  match v with
  | .float _ => true
  | _ => false

/-- Python `+`, `-` and `*` on the values a Patito program stores:
int-like pairs give an int, a pair with a float gives a float, string
pairs concatenate under `+`, everything else is a TypeError. -/
def pyArith (op : String) (a b : PyVal) : Except PyErr PyVal :=
  match a, b with
  | .str x, .str y =>
      if op = "MAS" then .ok (.str (x ++ y))
      else .error (.typeError "unsupported operand type")
  | _, _ =>
      match pyIntOf a, pyIntOf b with
      | some x, some y =>
          if op = "MAS" then .ok (.int (x + y))
          else if op = "MENOS" then .ok (.int (x - y))
          else .ok (.int (x * y))
      | _, _ =>
          match pyNum a, pyNum b with
          | some x, some y =>
              if op = "MAS" then .ok (.float (x + y))
              else if op = "MENOS" then .ok (.float (x - y))
              else .ok (.float (x * y))
          | _, _ => .error (.typeError "unsupported operand type")

/-- Python `/`: the result is always a float. -/
def pyDivide (a b : PyVal) : Except PyErr PyVal :=
  match pyNum a, pyNum b with
  | some x, some y => .ok (.float (x / y))
  | _, _ => .error (.typeError "unsupported operand type")

/-- Python comparisons for the four relational quadruples: numeric pairs
compare numerically, string pairs lexicographically; equality across
kinds is False, order across kinds is a TypeError. -/
def pyCompare (op : String) (a b : PyVal) : Except PyErr Bool :=
  match pyNum a, pyNum b with
  | some x, some y =>
      if op = "MAYOR" then .ok (x > y)
      else if op = "MENOR" then .ok (x < y)
      else if op = "IGUAL" then .ok (x = y)
      else .ok (x ≠ y)
  | _, _ =>
      match a, b with
      | .str x, .str y =>
          if op = "MAYOR" then .ok (y < x)
          else if op = "MENOR" then .ok (x < y)
          else if op = "IGUAL" then .ok (x = y)
          else .ok (x ≠ y)
      | _, _ =>
          if op = "IGUAL" then .ok false
          else if op = "DIFERENTE" then .ok true
          else .error (.typeError "not supported between instances")

/-- Python `-value` for UMINUS. -/
def pyNeg (v : PyVal) : Except PyErr PyVal :=
  match v with
  | .int n => .ok (.int (-n))
  | .float q => .ok (.float (-q))
  | .bool b => .ok (.int (-(if b then (1 : Int) else 0)))
  | .str _ => .error (.typeError "bad operand type for unary minus")

/-- Python `str(value)`.  Integer and bool and string renderings are
exact; the decimal rendering of a float is abstracted as numerator `.`
denominator when it is not integral (no verified property inspects a
printed float). -/
def pyStrOf (v : PyVal) : String :=
  match v with
  | .int n => toString n
  | .float q => if q.den = 1 then toString q.num ++ ".0"
                else toString q.num ++ "." ++ toString q.den
  | .bool b => if b then "True" else "False"
  | .str s => s

/-- State of the virtual machine (the quadruple list and the function
directory are fixed and passed separately). -/
structure VMState where
  memory : ExecutionMemory
  ip : Nat := 0
  output : List String := []
  halted : Bool := false
  return_address_stack : List Nat := []
  pending_frame : Option ActivationRecord := none
deriving DecidableEq, Repr

/-- `_execute_arithmetic`: MAS, MENOS, POR compute and store; ENTRE
raises ZeroDivisionError when the divisor equals zero and otherwise
stores the float quotient.  The instruction pointer advances by one. -/
def execute_arithmetic (s : VMState) (quad : Quadruple) :
    Except PyErr VMState :=
  match quad.left_operand, quad.right_operand, quad.result with
  | some (.num la), some (.num ra), some (.num res) =>
      match s.memory.read la with
      | .error e => .error e
      | .ok left_value =>
          match s.memory.read ra with
          | .error e => .error e
          | .ok right_value =>
              match (if quad.operator = "ENTRE" then
                      if pyEqZero right_value then
                        .error (.zeroDivisionError "Division entre cero")
                      else pyDivide left_value right_value
                     else pyArith quad.operator left_value right_value :
                     Except PyErr PyVal) with
              | .error e => .error e
              | .ok result =>
                  match s.memory.write res result with
                  | .error e => .error e
                  | .ok m2 => .ok { s with memory := m2, ip := s.ip + 1 }
  | _, _, _ => .error (.typeError "quadruple operand is not an address")

/-- `_execute_relational`: compares and stores 1 or 0. -/
def execute_relational (s : VMState) (quad : Quadruple) :
    Except PyErr VMState :=
  match quad.left_operand, quad.right_operand, quad.result with
  | some (.num la), some (.num ra), some (.num res) =>
      match s.memory.read la with
      | .error e => .error e
      | .ok left_value =>
          match s.memory.read ra with
          | .error e => .error e
          | .ok right_value =>
              match pyCompare quad.operator left_value right_value with
              | .error e => .error e
              | .ok result =>
                  match s.memory.write res (.int (if result then 1 else 0)) with
                  | .error e => .error e
                  | .ok m2 => .ok { s with memory := m2, ip := s.ip + 1 }
  | _, _, _ => .error (.typeError "quadruple operand is not an address")

/-- `_execute_assign`. -/
def execute_assign (s : VMState) (quad : Quadruple) : Except PyErr VMState :=
  match quad.left_operand, quad.result with
  | some (.num la), some (.num res) =>
      match s.memory.read la with
      | .error e => .error e
      | .ok value =>
          match s.memory.write res value with
          | .error e => .error e
          | .ok m2 => .ok { s with memory := m2, ip := s.ip + 1 }
  | _, _ => .error (.typeError "quadruple operand is not an address")

/-- `_execute_print`: appends the rendered value to the output channel. -/
def execute_print (s : VMState) (quad : Quadruple) : Except PyErr VMState :=
  match quad.left_operand with
  | some (.num la) =>
      match s.memory.read la with
      | .error e => .error e
      | .ok value =>
          .ok { s with output := s.output ++ [pyStrOf value], ip := s.ip + 1 }
  | _ => .error (.typeError "quadruple operand is not an address")

/-- `_execute_goto`.  (An unpatched None target would crash the Python
loop guard on its next comparison; the model rejects it at the jump.) -/
def execute_goto (s : VMState) (quad : Quadruple) : Except PyErr VMState :=
  match quad.result with
  | some (.num n) => .ok { s with ip := n }
  | _ => .error (.typeError "jump target is not an int")

/-- `_execute_gotof`. -/
def execute_gotof (s : VMState) (quad : Quadruple) : Except PyErr VMState :=
  match quad.left_operand with
  | some (.num la) =>
      match s.memory.read la with
      | .error e => .error e
      | .ok condition =>
          if ¬ pyTruthy condition then
            match quad.result with
            | some (.num n) => .ok { s with ip := n }
            | _ => .error (.typeError "jump target is not an int")
          else .ok { s with ip := s.ip + 1 }
  | _ => .error (.typeError "quadruple operand is not an address")

/-- `_execute_uminus`. -/
def execute_uminus (s : VMState) (quad : Quadruple) : Except PyErr VMState :=
  match quad.left_operand, quad.result with
  | some (.num la), some (.num res) =>
      match s.memory.read la with
      | .error e => .error e
      | .ok value =>
          match pyNeg value with
          | .error e => .error e
          | .ok nv =>
              match s.memory.write res nv with
              | .error e => .error e
              | .ok m2 => .ok { s with memory := m2, ip := s.ip + 1 }
  | _, _ => .error (.typeError "quadruple operand is not an address")

/-- Forward scan of `_execute_beginfunc`: starting at `next_ip` with the
given nesting depth, the position just after the ENDFUNC of
`function_name`; `remaining` counts the quadruples left to scan. -/
def findEndfunc (quads : List Quadruple) (function_name : String) :
    Nat → Nat → Nat → Option Nat
  | 0, _, _ => none
  | remaining + 1, next_ip, depth =>
      match quads.get? next_ip with
      | none => none
      | some next_quad =>
          if next_quad.operator = "BEGINFUNC" then
            findEndfunc quads function_name remaining (next_ip + 1) (depth + 1)
          else if next_quad.operator = "ENDFUNC" ∧
              next_quad.left_operand = some (.str function_name) then
            if depth = 1 then some (next_ip + 1)
            else findEndfunc quads function_name remaining (next_ip + 1) (depth - 1)
          else
            findEndfunc quads function_name remaining (next_ip + 1) depth

/-- `_execute_beginfunc`: inside a call (more than one frame) just
advance; in straight-line execution skip past the matching ENDFUNC. -/
def execute_beginfunc (quads : List Quadruple) (s : VMState)
    (quad : Quadruple) : Except PyErr VMState :=
  if s.memory.call_stack.length > 1 then
    .ok { s with ip := s.ip + 1 }
  else
    match quad.left_operand with
    | some (.str function_name) =>
        match findEndfunc quads function_name
            (quads.length - (s.ip + 1)) (s.ip + 1) 1 with
        | some new_ip => .ok { s with ip := new_ip }
        | none => .error (.runtimeError
            ("No se encontro ENDFUNC para funcion " ++ function_name))
    | _ => .error (.typeError "BEGINFUNC without function name")

/-- `_execute_endfunc`: pop the frame; halt when no return address
remains, else jump back. -/
def execute_endfunc (s : VMState) : Except PyErr VMState :=
  match s.memory.pop_frame with
  | .error e => .error e
  | .ok (_, m2) =>
      match s.return_address_stack with
      | [] => .ok { s with memory := m2, halted := true }
      | return_address :: rest =>
          .ok { s with
                memory := m2, ip := return_address,
                return_address_stack := rest }

/-- `_compute_function_base_addresses`: least LOCAL virtual address of the
function (0 when it has none); the TEMP base is always 0.  Any lookup
failure yields (0, 0) like the bare `except`. -/
def compute_function_base_addresses
    (function_directory : Option FunctionDirectory) (function_name : String) :
    Nat × Nat :=
  match function_directory with
  | none => (0, 0)
  | some fd =>
      match fd.get_function function_name with
      | .error _ => (0, 0)
      | .ok function_info =>
          let local_addresses :=
            (function_info.local_variables.variables.filterMap
              (fun p => p.2.virtual_address)).filter
              (fun a => LOCAL_INT_START ≤ a ∧ a < TEMP_INT_START)
          match local_addresses with
          | [] => (0, 0)
          | a :: rest => (rest.foldl min a, 0)

/-- `_execute_era`: prepare the pending frame with the base addresses of
the callee. -/
def execute_era (function_directory : Option FunctionDirectory)
    (s : VMState) (quad : Quadruple) : Except PyErr VMState :=
  match quad.left_operand with
  | some (.str function_name) =>
      let (local_base, temp_base) :=
        compute_function_base_addresses function_directory function_name
      .ok { s with
        pending_frame :=
          some (ExecutionMemory.prepare_frame function_name local_base temp_base),
        ip := s.ip + 1 }
  | _ => .error (.typeError "ERA without function name")

/-- `_execute_param`: read the argument in the caller context and store it
in the pending frame local list of its type at position minus one. -/
def execute_param (s : VMState) (quad : Quadruple) : Except PyErr VMState :=
  match s.pending_frame with
  | none => .error (.runtimeError "PARAM ejecutado sin un ERA previo")
  | some pending =>
      match quad.left_operand, quad.result with
      | some (.num arg_address), some (.num param_position) =>
          match s.memory.read arg_address with
          | .error e => .error e
          | .ok arg_value =>
              match ExecutionMemory.decode_address arg_address with
              | .error e => .error e
              | .ok (_, data_type, _) =>
                  let param_offset := param_position - 1
                  let store (l : List PyVal) : List PyVal :=
                    (ensure_capacity l param_offset
                      (storageDefault data_type)).set param_offset arg_value
                  if data_type = "INT" then
                    let p2 := { pending with local_ints := store pending.local_ints }
                    .ok { s with pending_frame := some p2, ip := s.ip + 1 }
                  else if data_type = "FLOAT" then
                    let p2 := { pending with local_floats := store pending.local_floats }
                    .ok { s with pending_frame := some p2, ip := s.ip + 1 }
                  else if data_type = "BOOL" then
                    let p2 := { pending with local_bools := store pending.local_bools }
                    .ok { s with pending_frame := some p2, ip := s.ip + 1 }
                  else
                    .error (.valueError
                      ("Tipo de parametro no soportado: " ++ data_type))
      | _, _ => .error (.typeError "PARAM operand is not an address")

/-- `_execute_gosub`: push the return address, activate the pending
frame, jump to the callee start. -/
def execute_gosub (s : VMState) (quad : Quadruple) : Except PyErr VMState :=
  match s.pending_frame with
  | none => .error (.runtimeError "GOSUB ejecutado sin un ERA previo")
  | some pending =>
      match quad.result with
      | some (.num target_quad_index) =>
          .ok { s with
            memory := s.memory.push_frame pending,
            pending_frame := none,
            return_address_stack := (s.ip + 1) :: s.return_address_stack,
            ip := target_quad_index }
      | _ => .error (.typeError "jump target is not an int")

/-- `execute_quadruple`: dispatch on the operator. -/
def execute_quadruple (quads : List Quadruple)
    (function_directory : Option FunctionDirectory) (s : VMState)
    (quad : Quadruple) : Except PyErr VMState :=
  if quad.operator = "MAS" ∨ quad.operator = "MENOS" ∨
      quad.operator = "POR" ∨ quad.operator = "ENTRE" then
    execute_arithmetic s quad
  else if quad.operator = "MAYOR" ∨ quad.operator = "MENOR" ∨
      quad.operator = "IGUAL" ∨ quad.operator = "DIFERENTE" then
    execute_relational s quad
  else if quad.operator = "ASSIGN" then execute_assign s quad
  else if quad.operator = "PRINT" then execute_print s quad
  else if quad.operator = "GOTO" then execute_goto s quad
  else if quad.operator = "GOTOF" then execute_gotof s quad
  else if quad.operator = "UMINUS" then execute_uminus s quad
  else if quad.operator = "BEGINFUNC" then execute_beginfunc quads s quad
  else if quad.operator = "ENDFUNC" then execute_endfunc s
  else if quad.operator = "ERA" then execute_era function_directory s quad
  else if quad.operator = "PARAM" then execute_param s quad
  else if quad.operator = "GOSUB" then execute_gosub s quad
  else .error (.valueError ("Operador no soportado: " ++ quad.operator))

/-- `VirtualMachine.run` as a fuel-indexed loop: one `execute_quadruple`
per unit of fuel while the instruction pointer is in range and the halt
flag is clear; with fuel exhausted the current state is returned. -/
def runLoop (quads : List Quadruple)
    (function_directory : Option FunctionDirectory) :
    Nat → VMState → Except PyErr VMState
  | 0, s => .ok s
  | fuel + 1, s =>
      if h : s.ip < quads.length ∧ s.halted = false then
        match execute_quadruple quads function_directory s
            (quads.get ⟨s.ip, h.1⟩) with
        | .error e => .error e
        | .ok s2 => runLoop quads function_directory fuel s2
      else .ok s
/-! ## expression_to_quads.py — parse-tree shapes

The generator walks Lark trees; the shapes it consumes are embedded as
inductives that mirror the grammar rules named in its doc strings
(`expresion: exp_simple cola_relacional?`, `exp_simple: termino ((MAS |
MENOS) termino)*`, `termino: factor ((POR | ENTRE) factor)*`, `factor:
signo? primario`, `primario: paren expresion | constante | ID
sufijo_llamada?`, and the statement rules).  Operator and sign tokens stay
the strings of their token types. -/

/-- constante: CTE_INT | CTE_FLOAT, carrying the lexeme. -/
inductive Constante where
  | int (lexeme : String)
  | float (lexeme : String)
deriving DecidableEq, Repr

mutual
inductive Expresion where
  | simple (e : ExpSimple)
  | rel (l : ExpSimple) (op : String) (r : ExpSimple)
deriving DecidableEq, Repr
inductive ExpSimple where
  | mk (first : Termino) (rest : ExpTail)
deriving DecidableEq, Repr
inductive ExpTail where
  | nil
  | cons (op : String) (t : Termino) (rest : ExpTail)
deriving DecidableEq, Repr
inductive Termino where
  | mk (first : Factor) (rest : TermTail)
deriving DecidableEq, Repr
inductive TermTail where
  | nil
  | cons (op : String) (f : Factor) (rest : TermTail)
deriving DecidableEq, Repr
inductive Factor where
  | prim (p : Primario)
  | signed (sign : String) (p : Primario)
  | paren (e : Expresion)
deriving DecidableEq, Repr
inductive Primario where
  | paren (e : Expresion)
  | const (c : Constante)
  | ident (name : String)
  | call (name : String) (args : Args)
deriving DecidableEq, Repr
inductive Args where
  | nil
  | cons (e : Expresion) (rest : Args)
deriving DecidableEq, Repr
end

/-- Argument of `imprime`: a string literal token or an expression. -/
inductive PrintArg where
  | str (lexeme : String)
  | expr (e : Expresion)
deriving DecidableEq, Repr

mutual
inductive Estatuto where
  | asignacion (id : String) (e : Expresion)
  | condicion (cond : Expresion) (thenB : Cuerpo) (elseB : OptCuerpo)
  | ciclo (cond : Expresion) (body : Cuerpo)
  | llamada (name : String) (args : Args)
  | imprime (args : List PrintArg)
  | retorno (e : Option Expresion)
  | bloque (body : Estatutos)
deriving DecidableEq, Repr
inductive Estatutos where
  | nil
  | cons (s : Estatuto) (rest : Estatutos)
deriving DecidableEq, Repr
inductive Cuerpo where
  | mk (body : Estatutos)
deriving DecidableEq, Repr
inductive OptCuerpo where
  | none
  | some (c : Cuerpo)
deriving DecidableEq, Repr
end

/-- func_decl: return type, name, parameters, local declarations, body. -/
structure FuncDecl where
  return_type : TypeName := VOID
  name : String
  params : List (String × TypeName) := []
  locals : List (List String × TypeName) := []
  body : Estatutos
deriving DecidableEq, Repr

/-- programa: global declarations, functions, main body. -/
structure Programa where
  globals : List (List String × TypeName) := []
  funcs : List FuncDecl := []
  main : Estatutos
deriving DecidableEq, Repr

/-! ## expression_to_quads.py — the generator -/

/-- Resultado de evaluar una subexpresion: virtual address and type. -/
structure ExpressionResult where
  address : Nat
  result_type : TypeName
deriving DecidableEq, Repr

/-- Mutable state of `ExpressionQuadrupleGenerator` (the function
directory is read-only and passed separately). -/
structure GenState where
  context : IntermediateCodeContext := {}
  virtual_memory : VirtualMemory := {}
  current_function_name : Option String := none
  function_start_indices : List (String × Nat) := []
  pending_return_gotos : List (String × List Nat) := []
  pending_gosub_fixups : List (String × List Nat) := []
deriving DecidableEq, Repr

/-- Quadruple count of the queue (`len(self.context.quadruples)`). -/
def GenState.qlen (s : GenState) : Nat := s.context.quadruples.length

/-- `_emit_binary_operation`: the push-then-immediately-pop pair of the
Python code is collapsed (the pops retrieve exactly the values just
pushed), leaving its net effect: consult the cube, allocate a temporary
of the result type, enqueue `(op, left, right, temp)` and push the
result onto the operand and type stacks. -/
def emit_binary_operation (operator_name : String)
    (left right : ExpressionResult) (s : GenState) :
    Except PyErr (ExpressionResult × GenState) :=
  match result_type_pipeline operator_name left.result_type right.result_type with
  | .error e => .error e
  | .ok result_t =>
      match s.virtual_memory.allocate_temporary result_t with
      | .error e => .error e
      | .ok (temp_address, vm2) =>
          let c := s.context
          let c2 : IntermediateCodeContext :=
            { c with
              quadruples := c.quadruples ++
                [⟨operator_name, some (.num left.address),
                  some (.num right.address), some (.num temp_address)⟩],
              operand_stack := temp_address :: c.operand_stack,
              type_stack := result_t :: c.type_stack }
          .ok (⟨temp_address, result_t⟩,
            { s with context := c2, virtual_memory := vm2 })

/-- `_generate_constante`: interns the literal and returns its address. -/
def gen_constante (c : Constante) (s : GenState) :
    ExpressionResult × GenState :=
  match c with
  | .int lexeme =>
      let (address, vm2) := s.virtual_memory.allocate_constant lexeme INT
      (⟨address, INT⟩, { s with virtual_memory := vm2 })
  | .float lexeme =>
      let (address, vm2) := s.virtual_memory.allocate_constant lexeme FLOAT
      (⟨address, FLOAT⟩, { s with virtual_memory := vm2 })

/-- ERA / PARAM / GOSUB protocol of `_emit_function_activation`; a GOSUB
whose callee start is still unknown is recorded for backpatching. -/
def emit_function_activation (function_info : FunctionInfo)
    (argument_results : List ExpressionResult) (s : GenState) : GenState :=
  let function_name := function_info.name
  let era_quad : Quadruple := ⟨"ERA", some (.str function_name), none, none⟩
  let param_quads := (argument_results.zip
      (List.range argument_results.length)).map
    (fun p =>
      (⟨"PARAM", some (.num p.1.address), none,
        some (.num (p.2 + 1))⟩ : Quadruple))
  let start_index := dictGet s.function_start_indices function_name
  let quads1 := s.context.quadruples ++ [era_quad] ++ param_quads
  let gosub_index := quads1.length
  let gosub_quad : Quadruple :=
    ⟨"GOSUB", some (.str function_name), none,
      (start_index).map (fun n => .num n)⟩
  let s2 := { s with context :=
    { s.context with quadruples := quads1 ++ [gosub_quad] } }
  match start_index with
  | some _ => s2
  | none =>
      let fixups :=
        dictSet s2.pending_gosub_fixups function_name
          ((dictGet s2.pending_gosub_fixups function_name).getD [] ++
            [gosub_index])
      { s2 with pending_gosub_fixups := fixups }

/-- Element-wise argument validation of `_prepare_function_call`
(`assert_assign` of each parameter type against each argument type,
positions numbered from 1). -/
def checkArguments (function_name : String) :
    List ExpressionResult → List VariableInfo → Nat → Except PyErr Unit
  | [], _, _ => .ok ()
  | _, [], _ => .ok ()
  | arg :: args, param :: params, position =>
      match assert_assign param.var_type arg.result_type
          ("argumento " ++ toString position ++ " de " ++ function_name) with
      | .error e => .error e
      | .ok _ => checkArguments function_name args params (position + 1)

mutual

/-- `_generate_expresion`: exp_simple with an optional relational tail;
the comparison result must be BOOL. -/
def gen_expresion (fd : FunctionDirectory) :
    Expresion → GenState → Except PyErr (ExpressionResult × GenState)
  | .simple e, s => gen_exp_simple fd e s
  | .rel l op r, s =>
      match gen_exp_simple fd l s with
      | .error e => .error e
      | .ok (left_result, s1) =>
          match gen_exp_simple fd r s1 with
          | .error e => .error e
          | .ok (right_result, s2) =>
              match emit_binary_operation op left_result right_result s2 with
              | .error e => .error e
              | .ok (comparison_result, s3) =>
                  match ensure_bool comparison_result.result_type
                      "expresion relacional" with
                  | .error e => .error e
                  | .ok _ => .ok (comparison_result, s3)

/-- `_generate_exp_simple`: first termino, then the (MAS|MENOS) tail. -/
def gen_exp_simple (fd : FunctionDirectory) :
    ExpSimple → GenState → Except PyErr (ExpressionResult × GenState)
  | .mk first rest, s =>
      match gen_termino fd first s with
      | .error e => .error e
      | .ok (current, s1) => gen_exp_tail fd rest current s1

/-- Tail loop of `_generate_exp_simple`. -/
def gen_exp_tail (fd : FunctionDirectory) :
    ExpTail → ExpressionResult → GenState →
    Except PyErr (ExpressionResult × GenState)
  | .nil, current, s => .ok (current, s)
  | .cons op t rest, current, s =>
      match gen_termino fd t s with
      | .error e => .error e
      | .ok (right_result, s1) =>
          match emit_binary_operation op current right_result s1 with
          | .error e => .error e
          | .ok (new_current, s2) => gen_exp_tail fd rest new_current s2

/-- `_generate_termino`: first factor, then the (POR|ENTRE) tail. -/
def gen_termino (fd : FunctionDirectory) :
    Termino → GenState → Except PyErr (ExpressionResult × GenState)
  | .mk first rest, s =>
      match gen_factor fd first s with
      | .error e => .error e
      | .ok (current, s1) => gen_term_tail fd rest current s1

/-- Tail loop of `_generate_termino`. -/
def gen_term_tail (fd : FunctionDirectory) :
    TermTail → ExpressionResult → GenState →
    Except PyErr (ExpressionResult × GenState)
  | .nil, current, s => .ok (current, s)
  | .cons op f rest, current, s =>
      match gen_factor fd f s with
      | .error e => .error e
      | .ok (right_result, s1) =>
          match emit_binary_operation op current right_result s1 with
          | .error e => .error e
          | .ok (new_current, s2) => gen_term_tail fd rest new_current s2

/-- `_generate_factor`: plain primario, signed primario (MAS is a no-op,
MENOS emits UMINUS into a fresh temporary of the operand type, any other
sign token is the trailing ValueError), or parenthesised expression. -/
def gen_factor (fd : FunctionDirectory) :
    Factor → GenState → Except PyErr (ExpressionResult × GenState)
  | .prim p, s => gen_primario fd p s
  | .paren e, s => gen_expresion fd e s
  | .signed sign p, s =>
      match gen_primario fd p s with
      | .error e => .error e
      | .ok (primario_result, s1) =>
          if sign = "MAS" then .ok (primario_result, s1)
          else if sign = "MENOS" then
            match s1.virtual_memory.allocate_temporary
                primario_result.result_type with
            | .error e => .error e
            | .ok (temp_address, vm2) =>
                let c := s1.context
                let c2 := { c with quadruples := c.quadruples ++
                  [⟨"UMINUS", some (.num primario_result.address), none,
                    some (.num temp_address)⟩] }
                .ok (⟨temp_address, primario_result.result_type⟩,
                  { s1 with context := c2, virtual_memory := vm2 })
          else .error (.valueError "Forma inesperada de factor")

/-- `_generate_primario`: parenthesised expression, constant, call in
expression position (the bodies of `_prepare_function_call` and
`_generate_function_call_expression` written inline, so that the
recursion into the argument list is visibly structural; the standalone
`prepare_function_call` and `gen_function_call_expression` below unfold
to exactly this arm), or identifier (which must already carry a virtual
address). -/
def gen_primario (fd : FunctionDirectory) :
    Primario → GenState → Except PyErr (ExpressionResult × GenState)
  | .paren e, s => gen_expresion fd e s
  | .const c, s => .ok (gen_constante c s)
  | .call function_name args, s =>
      match fd.get_function function_name with
      | .error e => .error e
      | .ok function_info =>
          match gen_args fd args s with
          | .error e => .error e
          | .ok (argument_results, s1) =>
              if function_info.parameter_list.length ≠ argument_results.length then
                .error (.semanticError
                  ("Llamada a funcion " ++ function_name ++ " con " ++
                    toString argument_results.length ++
                    " argumentos, pero se esperaban " ++
                    toString function_info.parameter_list.length ++ "."))
              else
                match checkArguments function_name argument_results
                    function_info.parameter_list 1 with
                | .error e => .error e
                | .ok _ =>
                    if function_info.return_type = VOID then
                      .error (.semanticError
                        ("No se puede usar la funcion VOID " ++ function_name ++
                          " en una expresion."))
                    else
                      let s2 := emit_function_activation function_info
                        argument_results s1
                      match s2.virtual_memory.get_function_return_address
                          function_name with
                      | .error e => .error e
                      | .ok ret_address =>
                          match s2.virtual_memory.allocate_temporary
                              function_info.return_type with
                          | .error e => .error e
                          | .ok (temp_address, vm2) =>
                              let c := s2.context
                              let c2 := { c with quadruples := c.quadruples ++
                                [⟨"ASSIGN", some (.num ret_address), none,
                                  some (.num temp_address)⟩] }
                              .ok (⟨temp_address, function_info.return_type⟩,
                                { s2 with context := c2, virtual_memory := vm2 })
  | .ident identifier_name, s =>
      match fd.lookup_variable identifier_name s.current_function_name with
      | .error e => .error e
      | .ok variable_info =>
          match variable_info.virtual_address with
          | none => .error (.semanticError
              ("Variable " ++ identifier_name ++
                " no tiene direccion virtual asignada."))
          | some address => .ok (⟨address, variable_info.var_type⟩, s)

/-- `_generate_args`: each argument expression in order. -/
def gen_args (fd : FunctionDirectory) :
    Args → GenState → Except PyErr (List ExpressionResult × GenState)
  | .nil, s => .ok ([], s)
  | .cons e rest, s =>
      match gen_expresion fd e s with
      | .error er => .error er
      | .ok (r, s1) =>
          match gen_args fd rest s1 with
          | .error er => .error er
          | .ok (rs, s2) => .ok (r :: rs, s2)

end

/-- `_prepare_function_call`: look the function up, lower the arguments,
check the argument count, then check each argument type. -/
def prepare_function_call (fd : FunctionDirectory) (function_name : String)
    (args : Args) (s : GenState) :
    Except PyErr (FunctionInfo × List ExpressionResult × GenState)
  :=
      match fd.get_function function_name with
      | .error e => .error e
      | .ok function_info =>
          match gen_args fd args s with
          | .error e => .error e
          | .ok (argument_results, s1) =>
              if function_info.parameter_list.length ≠ argument_results.length then
                .error (.semanticError
                  ("Llamada a funcion " ++ function_name ++ " con " ++
                    toString argument_results.length ++
                    " argumentos, pero se esperaban " ++
                    toString function_info.parameter_list.length ++ "."))
              else
                match checkArguments function_name argument_results
                    function_info.parameter_list 1 with
                | .error e => .error e
                | .ok _ => .ok (function_info, argument_results, s1)

/-- `_generate_function_call_expression`: the call protocol for a call in
expression position; the callee must be typed, and its return slot is
copied into a fresh temporary. -/
def gen_function_call_expression (fd : FunctionDirectory)
    (function_name : String) (args : Args) (s : GenState) :
    Except PyErr (ExpressionResult × GenState)
  :=
      match prepare_function_call fd function_name args s with
      | .error e => .error e
      | .ok (function_info, argument_results, s1) =>
          if function_info.return_type = VOID then
            .error (.semanticError
              ("No se puede usar la funcion VOID " ++ function_name ++
                " en una expresion."))
          else
            let s2 := emit_function_activation function_info argument_results s1
            match s2.virtual_memory.get_function_return_address function_name with
            | .error e => .error e
            | .ok ret_address =>
                match s2.virtual_memory.allocate_temporary
                    function_info.return_type with
                | .error e => .error e
                | .ok (temp_address, vm2) =>
                    let c := s2.context
                    let c2 := { c with quadruples := c.quadruples ++
                      [⟨"ASSIGN", some (.num ret_address), none,
                        some (.num temp_address)⟩] }
                    .ok (⟨temp_address, function_info.return_type⟩,
                      { s2 with context := c2, virtual_memory := vm2 })

/-- Patch loop: `update_result` at each recorded index with the target. -/
def patchAll (quads : List Quadruple) (idxs : List Nat) (target : Nat) :
    List Quadruple :=
  idxs.foldl (fun q i => update_result q i (.num target)) quads

/-- `_generate_asignacion`: look the target up, lower the right-hand
side, validate the assignment, emit ASSIGN to the target address. -/
def gen_asignacion (fd : FunctionDirectory) (variable_name : String)
    (e : Expresion) (s : GenState) : Except PyErr GenState :=
  match fd.lookup_variable variable_name s.current_function_name with
  | .error er => .error er
  | .ok variable_info =>
      match gen_expresion fd e s with
      | .error er => .error er
      | .ok (expresion_result, s1) =>
          match assert_assign variable_info.var_type
              expresion_result.result_type "asignacion" with
          | .error er => .error er
          | .ok _ =>
              match variable_info.virtual_address with
              | none => .error (.semanticError
                  ("Variable " ++ variable_name ++
                    " no tiene direccion virtual asignada."))
              | some target_address =>
                  let c := s1.context
                  let c2 := { c with quadruples := c.quadruples ++
                    [⟨"ASSIGN", some (.num expresion_result.address), none,
                      some (.num target_address)⟩] }
                  .ok { s1 with context := c2 }


/-- `_generate_imprime`: one PRINT per argument in order; string literals
are interned into the CONSTANT STRING segment. -/
def gen_imprime (fd : FunctionDirectory) :
    List PrintArg → GenState → Except PyErr GenState
  | [], s => .ok s
  | .str lexeme :: rest, s =>
      let (string_address, vm2) :=
        s.virtual_memory.allocate_constant lexeme "STRING"
      let c := s.context
      let c2 := { c with quadruples := c.quadruples ++
        [⟨"PRINT", some (.num string_address), none, none⟩] }
      gen_imprime fd rest { s with context := c2, virtual_memory := vm2 }
  | .expr e :: rest, s =>
      match gen_expresion fd e s with
      | .error er => .error er
      | .ok (expr_result, s1) =>
          let c := s1.context
          let c2 := { c with quadruples := c.quadruples ++
            [⟨"PRINT", some (.num expr_result.address), none, none⟩] }
          gen_imprime fd rest { s1 with context := c2 }


/-- `_generate_llamada_func`: call statement, ERA / PARAM / GOSUB. -/
def gen_llamada_func (fd : FunctionDirectory) (function_name : String)
    (args : Args) (s : GenState) : Except PyErr GenState :=
  match prepare_function_call fd function_name args s with
  | .error e => .error e
  | .ok (function_info, argument_results, s1) =>
      .ok (emit_function_activation function_info argument_results s1)


/-- `_generate_retorno`: only inside a function; validate with
`assert_return`; a typed function copies the value into its return slot;
always emit an exit GOTO recorded in `pending_return_gotos`. -/
def gen_retorno (fd : FunctionDirectory) (e : Option Expresion)
    (s : GenState) : Except PyErr GenState :=
  match s.current_function_name with
  | none => .error (.semanticError
      "El estatuto return solo puede usarse dentro de una funcion.")
  | some current_function_name =>
      match (match e with
             | some expresion =>
                 match gen_expresion fd expresion s with
                 | .error er => .error er
                 | .ok (r, s1) => .ok (some r, s1)
             | none => .ok (none, s) :
             Except PyErr (Option ExpressionResult × GenState)) with
      | .error er => .error er
      | .ok (expresion_result, s1) =>
          match assert_return fd current_function_name
              (expresion_result.map (fun r => r.result_type)) with
          | .error er => .error er
          | .ok _ =>
              match fd.get_function current_function_name with
              | .error er => .error er
              | .ok function_info =>
                  match (if function_info.return_type ≠ VOID then
                          match expresion_result with
                          | none => .error (.semanticError
                              ("La funcion " ++ function_info.name ++
                                " debe regresar un valor."))
                          | some r =>
                              match s1.virtual_memory.get_function_return_address
                                  function_info.name with
                              | .error er => .error er
                              | .ok ret_address =>
                                  .ok (s1.context.quadruples ++
                                    [⟨"ASSIGN", some (.num r.address), none,
                                      some (.num ret_address)⟩])
                         else .ok s1.context.quadruples :
                         Except PyErr (List Quadruple)) with
                  | .error er => .error er
                  | .ok quads2 =>
                      let goto_index := quads2.length
                      let quads3 := quads2 ++ [⟨"GOTO", none, none, none⟩]
                      let pend :=
                        dictSet s1.pending_return_gotos current_function_name
                          ((dictGet s1.pending_return_gotos
                            current_function_name).getD [] ++ [goto_index])
                      .ok { s1 with
                            context := { s1.context with quadruples := quads3 },
                            pending_return_gotos := pend }


mutual

/-- `_generate_estatuto`: dispatch on the statement kind.  The bodies of
`_generate_condicion` and `_generate_ciclo` are written inline in their
arms (they are the two statement forms that recurse into nested
statement lists through `_generate_cuerpo`). -/
def gen_estatuto (fd : FunctionDirectory) :
    Estatuto → GenState → Except PyErr GenState
  | .asignacion id e, s => gen_asignacion fd id e s
  | .llamada name args, s => gen_llamada_func fd name args s
  | .imprime args, s => gen_imprime fd args s
  | .retorno e, s => gen_retorno fd e s
  | .bloque body, s => gen_estatutos fd body s
  | .condicion cond thenB elseB, s =>
      match gen_expresion fd cond s with
      | .error e => .error e
      | .ok (condicion_result, s1) =>
          match ensure_bool condicion_result.result_type "si condicion" with
          | .error e => .error e
          | .ok _ =>
              let gotof_index := s1.qlen
              let q2 := s1.context.quadruples ++
                [⟨"GOTOF", some (.num condicion_result.address), none, none⟩]
              let s2 := { s1 with context := { s1.context with quadruples := q2 } }
              match gen_cuerpo fd thenB s2 with
              | .error e => .error e
              | .ok s3 =>
                  match elseB with
                  | .none =>
                      let end_index := s3.qlen
                      let qF :=
                        update_result s3.context.quadruples gotof_index
                          (.num end_index)
                      .ok { s3 with context := { s3.context with quadruples := qF } }
                  | .some else_cuerpo =>
                      let goto_end_index := s3.qlen
                      let q4 := s3.context.quadruples ++ [⟨"GOTO", none, none, none⟩]
                      let s4 := { s3 with context := { s3.context with quadruples := q4 } }
                      let else_start_index := s4.qlen
                      let q5 :=
                        update_result s4.context.quadruples gotof_index
                          (.num else_start_index)
                      let s5 := { s4 with context := { s4.context with quadruples := q5 } }
                      match gen_cuerpo fd else_cuerpo s5 with
                      | .error e => .error e
                      | .ok s6 =>
                          let end_index := s6.qlen
                          let qF :=
                            update_result s6.context.quadruples goto_end_index
                              (.num end_index)
                          .ok { s6 with context := { s6.context with quadruples := qF } }
  | .ciclo cond body, s =>
      let loop_start_index := s.qlen
      match gen_expresion fd cond s with
      | .error e => .error e
      | .ok (condicion_result, s1) =>
          match ensure_bool condicion_result.result_type "mientras condicion" with
          | .error e => .error e
          | .ok _ =>
              let gotof_index := s1.qlen
              let q2 := s1.context.quadruples ++
                [⟨"GOTOF", some (.num condicion_result.address), none, none⟩]
              let s2 := { s1 with context := { s1.context with quadruples := q2 } }
              match gen_cuerpo fd body s2 with
              | .error e => .error e
              | .ok s3 =>
                  let q4 := s3.context.quadruples ++
                    [⟨"GOTO", none, none, some (.num loop_start_index)⟩]
                  let s4 := { s3 with context := { s3.context with quadruples := q4 } }
                  let end_index := s4.qlen
                  let qF :=
                    update_result s4.context.quadruples gotof_index
                      (.num end_index)
                  .ok { s4 with context := { s4.context with quadruples := qF } }

/-- `_generate_estatutos`: each statement in order. -/
def gen_estatutos (fd : FunctionDirectory) :
    Estatutos → GenState → Except PyErr GenState
  | .nil, s => .ok s
  | .cons st rest, s =>
      match gen_estatuto fd st s with
      | .error e => .error e
      | .ok s1 => gen_estatutos fd rest s1

/-- `_generate_cuerpo`. -/
def gen_cuerpo (fd : FunctionDirectory) :
    Cuerpo → GenState → Except PyErr GenState
  | .mk body, s => gen_estatutos fd body s

end

/-- `_generate_function`: BEGINFUNC, record the body start, patch the
pending forward GOSUBs, lower the body, ENDFUNC, patch the pending
return GOTOs, restore the previous current function. -/
def gen_function (fd : FunctionDirectory) (func : FuncDecl) (s : GenState) :
    Except PyErr GenState :=
  let function_name := func.name
  let previous_function_name := s.current_function_name
  let s1 := { s with
    current_function_name := some function_name,
    pending_return_gotos := dictSet s.pending_return_gotos function_name [] }
  let begin_index := s1.qlen
  let quads2 := s1.context.quadruples ++
    [⟨"BEGINFUNC", some (.str function_name), none, none⟩]
  let start_indices :=
    dictSet s1.function_start_indices function_name (begin_index + 1)
  let quads3 := patchAll quads2
    ((dictGet s1.pending_gosub_fixups function_name).getD [])
    (begin_index + 1)
  let s2 := { s1 with
    context := { s1.context with quadruples := quads3 },
    function_start_indices := start_indices,
    pending_gosub_fixups := dictSet s1.pending_gosub_fixups function_name [] }
  match gen_estatutos fd func.body s2 with
  | .error e => .error e
  | .ok s3 =>
      let end_index := s3.qlen
      let quads4 := s3.context.quadruples ++
        [⟨"ENDFUNC", some (.str function_name), none, none⟩]
      let quads5 := patchAll quads4
        ((dictGet s3.pending_return_gotos function_name).getD [])
        end_index
      .ok { s3 with
            context := { s3.context with quadruples := quads5 },
            current_function_name := previous_function_name }

/-- `_generate_funcs_seccion`: every function declaration in order. -/
def gen_funcs_seccion (fd : FunctionDirectory) :
    List FuncDecl → GenState → Except PyErr GenState
  | [], s => .ok s
  | func :: rest, s =>
      match gen_function fd func s with
      | .error e => .error e
      | .ok s1 => gen_funcs_seccion fd rest s1

/-- `generate_program`: all the functions, then the main body with no
current function. -/
def generate_program (fd : FunctionDirectory) (p : Programa) (s : GenState) :
    Except PyErr GenState :=
  match gen_funcs_seccion fd p.funcs s with
  | .error e => .error e
  | .ok s1 =>
      gen_estatutos fd p.main { s1 with current_function_name := none }

/-! ## builder.py — the semantic builder -/

/-- Parameter registration loop of `func_decl`. -/
def addParameters (fd : FunctionDirectory) (function_name : String) :
    List (String × TypeName) → Except PyErr FunctionDirectory
  | [] => .ok fd
  | (parameter_name, parameter_type) :: rest =>
      match fd.add_parameter_to_function function_name parameter_name
          parameter_type with
      | .error e => .error e
      | .ok fd2 => addParameters fd2 function_name rest

/-- Local-variable registration loop of `func_decl`. -/
def addLocals (fd : FunctionDirectory) (function_name : String) :
    List (List String × TypeName) → Except PyErr FunctionDirectory
  | [] => .ok fd
  | (identifier_list, variable_type) :: rest =>
      match (identifier_list.foldlM
          (fun acc variable_name =>
            acc.add_local_variable_to_function function_name variable_name
              variable_type) fd) with
      | .error e => .error e
      | .ok fd2 => addLocals fd2 function_name rest

/-- `SemanticBuilder.func_decl`: create the function with its return type
(through the spec-modelled `add_function_spec`, since the stale
`add_function` of the snapshot rejects the typed functions this
repository itself declares), then its parameters, then its locals. -/
def build_func_decl (fd : FunctionDirectory) (func : FuncDecl) :
    Except PyErr FunctionDirectory :=
  match fd.add_function_spec func.name func.return_type with
  | .error e => .error e
  | .ok fd1 =>
      match addParameters fd1 func.name func.params with
      | .error e => .error e
      | .ok fd2 => addLocals fd2 func.name func.locals

/-- Global-variable registration loop of `SemanticBuilder.programa`. -/
def addGlobals (fd : FunctionDirectory) :
    List (List String × TypeName) → Except PyErr FunctionDirectory
  | [] => .ok fd
  | (identifier_list, variable_type) :: rest =>
      match (identifier_list.foldlM
          (fun acc variable_name =>
            acc.add_global_variable variable_name variable_type) fd) with
      | .error e => .error e
      | .ok fd2 => addGlobals fd2 rest

/-- `build_symbol_tables`: the Lark transformer runs bottom-up, so every
`func_decl` callback fires before the `programa` callback — functions are
registered first, then the global variables. -/
def build_symbol_tables (p : Programa) : Except PyErr FunctionDirectory :=
  match (p.funcs.foldlM build_func_decl ({} : FunctionDirectory)) with
  | .error e => .error e
  | .ok fd => addGlobals fd p.globals

/-! ## patito_compiler.py — the compilation pipeline

`PatitoCompiler.run` is the operative pipeline for quadruples that carry
virtual addresses: build the symbol tables, assign every virtual address,
then generate the program`s quadruples (the stale
`quadruple_pipeline.generate_quadruples` calls the generator with a
keyword it no longer accepts).  -/

/-- Result of a successful compilation: the quadruple program, the
directory with every address assigned, and the virtual memory holding the
constant table. -/
structure CompiledProgram where
  quadruples : List Quadruple
  function_directory : FunctionDirectory
  virtual_memory : VirtualMemory
  gen_state : GenState
deriving DecidableEq, Repr

/-- Phases 2 and 3 of `patito_compiler.py` (semantic analysis, address
assignment, intermediate code generation). -/
def compile_program (p : Programa) : Except PyErr CompiledProgram :=
  match build_symbol_tables p with
  | .error e => .error e
  | .ok fd0 =>
      match assign_variable_addresses fd0 {} with
      | .error e => .error e
      | .ok (fd, vm0) =>
          match generate_program fd p { virtual_memory := vm0 } with
          | .error e => .error e
          | .ok s =>
              .ok ⟨s.context.quadruples, fd, s.virtual_memory, s⟩

/-- Phase 4 of `patito_compiler.py`: fresh execution memory, constants
loaded, then the fetch-decode-execute loop (with the given fuel). -/
def run_compiled (c : CompiledProgram) (fuel : Nat) :
    Except PyErr VMState :=
  match ExecutionMemory.init.load_constants c.virtual_memory.constant_table.table with
  | .error e => .error e
  | .ok memory =>
      runLoop c.quadruples (some c.function_directory) fuel { memory := memory }
/-! ## Helper lemmas -/

theorem dictGet_dictSet_self {α : Type} (d : List (String × α)) (k : String)
    (v : α) : dictGet (dictSet d k v) k = some v := by
  induction d with
  | nil => simp [dictSet, dictGet]
  | cons hd tl ih =>
      by_cases h : hd.1 = k
      · simp [dictSet, dictGet, h]
      · simp [dictSet, dictGet, h, ih]

theorem dictGet_dictSet_other {α : Type} (d : List (String × α))
    (k k2 : String) (v : α) (h : k2 ≠ k) :
    dictGet (dictSet d k v) k2 = dictGet d k2 := by
  have hkk : k ≠ k2 := fun hh => h hh.symm
  induction d with
  | nil => simp [dictSet, dictGet, hkk]
  | cons hd tl ih =>
      by_cases h1 : hd.1 = k
      · subst h1
        simp [dictSet, dictGet, hkk]
      · simp only [dictSet, if_neg h1]
        by_cases h2 : hd.1 = k2
        · simp [dictGet, h2]
        · simp [dictGet, h2, ih]

theorem List.get?_append_left {α : Type} (l1 l2 : List α) (i : Nat)
    (h : i < l1.length) : (l1 ++ l2).get? i = l1.get? i := by
  rw [List.get?_eq_getElem?, List.get?_eq_getElem?,
    List.getElem?_append_left h]

theorem update_result_get_other (items : List Quadruple) (index : Nat)
    (v : QVal) (i : Nat) (h : i ≠ index) :
    (update_result items index v).get? i = items.get? i := by
  unfold update_result
  match hq : items.get? index with
  | none => rfl
  | some q =>
      simp only [List.get?_eq_getElem?] at *
      rw [List.getElem?_set_ne (fun hh => h hh.symm)]

theorem update_result_get_self (items : List Quadruple) (index : Nat)
    (v : QVal) (q : Quadruple) (h : items.get? index = some q) :
    (update_result items index v).get? index =
      some { q with result := some v } := by
  unfold update_result
  rw [h]
  simp only [List.get?_eq_getElem?] at *
  have hlen : index < items.length := by
    by_contra hc
    rw [List.getElem?_eq_none (Nat.le_of_not_lt hc)] at h
    exact Option.noConfusion h
  rw [List.getElem?_set_eq_of_lt _ (by simpa using hlen)]

theorem update_result_length (items : List Quadruple) (index : Nat)
    (v : QVal) : (update_result items index v).length = items.length := by
  unfold update_result
  match hq : items.get? index with
  | none => rfl
  | some q => simp

/-! ## C1 -/

/-- C1: the claim promises that `add_function` registers INT- and
FLOAT-returning functions and fails only on duplicate names; the
snapshot `add_function` instead rejects every non-VOID return type
(`Por ahora solo se permiten funciones VOID`), contradicting the demos
and tests of this repository, which declare `int sq` style functions —
registering the claim`s own example `sq` with return type INT fails with
`InvalidTypeError` on a fresh directory, while the spec-modelled
`add_function_spec` registers it and fails only with
`DuplicateFunction` on re-registration. -/
theorem add_function_rejects_typed_function :
    (∃ msg, FunctionDirectory.add_function {} "sq" INT =
      .error (.invalidType msg)) ∧
    (∃ fd, FunctionDirectory.add_function_spec {} "sq" INT = .ok fd ∧
      fd.get_function "sq" = .ok ⟨"sq", INT, [], {}⟩ ∧
      (∃ msg, fd.add_function_spec "sq" INT =
        .error (.duplicateFunction msg))) := by
  refine ⟨⟨_, rfl⟩, ⟨_, rfl, rfl, ⟨_, rfl⟩⟩⟩

/-! ## C4 -/

/-- Expected result described by spec section 6.5 on the documented
domain. -/
def spec_cube_expected (op lt rt : String) : TypeName :=
  if op = "/" then FLOAT
  else if op = ">" ∨ op = "<" ∨ op = "==" ∨ op = "!=" then BOOL
  else if lt = INT ∧ rt = INT then INT
  else FLOAT

theorem cube_table_rejects_bool_void (op lt rt : String)
    (h : lt = BOOL ∨ lt = VOID ∨ rt = BOOL ∨ rt = VOID)
    (tbl : TypeName → TypeName → Option TypeName)
    (htbl : SEMANTIC_CUBE_get op = some tbl) : tbl lt rt = none := by
  have hcases : tbl = cubeAdditiveTable ∨ tbl = cubeSlashTable ∨
      tbl = cubeRelationalTable := by
    unfold SEMANTIC_CUBE_get at htbl
    repeat' split at htbl
    all_goals first
      | (cases htbl; simp)
      | exact Option.noConfusion htbl
  have hne : ¬ ((lt = INT ∨ lt = FLOAT) ∧ (rt = INT ∨ rt = FLOAT)) := by
    rcases h with h | h | h | h <;> subst h <;>
      simp [INT, FLOAT, BOOL, VOID] <;> intro h1 h2 <;> simp_all
  rcases hcases with h3 | h3 | h3 <;> subst h3 <;>
    simp only [cubeAdditiveTable, cubeSlashTable, cubeRelationalTable] <;>
    repeat' split
  all_goals simp_all
  all_goals tauto

/-- C4: `result_type` matches the table of spec section 6.5 on the
documented domain — on every pair of INT/FLOAT operand types the eight
surface operators produce exactly the table entry — and any operand of
type BOOL or VOID, under every operator string whatsoever, fails with
`InvalidTypeError`. -/
theorem result_type_matches_semantic_cube (op lt rt : String) :
    (op ∈ ["+", "-", "*", "/", ">", "<", "==", "!="] →
      lt ∈ [INT, FLOAT] → rt ∈ [INT, FLOAT] →
      result_type op lt rt = .ok (spec_cube_expected op lt rt)) ∧
    ((lt = BOOL ∨ lt = VOID ∨ rt = BOOL ∨ rt = VOID) →
      ∃ msg, result_type op lt rt = .error (.invalidType msg)) := by
  constructor
  · intro hop hlt hrt
    fin_cases hop <;> fin_cases hlt <;> fin_cases hrt <;> rfl
  · intro h
    unfold result_type
    match htbl : SEMANTIC_CUBE_get (normalize_operator op) with
    | none => exact ⟨_, rfl⟩
    | some tbl =>
        have hz := cube_table_rejects_bool_void (normalize_operator op)
          lt rt h tbl htbl
        exact ⟨"Tipos incompatibles para " ++ op ++ ": " ++ lt ++ " " ++
          op ++ " " ++ rt, by simp [hz]⟩

/-- Witness for C4 at `op = "/"`, `lt = rt = INT` and at a BOOL operand. -/
theorem result_type_matches_semantic_cube_witness :
    result_type "/" INT INT = .ok (spec_cube_expected "/" INT INT) ∧
    (∃ msg, result_type "+" BOOL INT = .error (.invalidType msg)) := by
  refine ⟨(result_type_matches_semantic_cube "/" INT INT).1
      (by decide) (by decide) (by decide),
    (result_type_matches_semantic_cube "+" BOOL INT).2 (by decide)⟩

/-! ## C8 -/

/-- C8: `assert_assign` succeeds exactly on INT from INT and FLOAT from
INT or FLOAT, and every other pair of types — INT from FLOAT, any BOOL
or VOID participant, in fact any other strings at all — fails with the
`InvalidTypeError` this repository raises for incompatible assignments
(the spec names this failure IncompatibleAssignment). -/
theorem assert_assign_characterization (lhs rhs ctx : String) :
    (assert_assign lhs rhs ctx = .ok () ↔
      (lhs = INT ∧ rhs = INT) ∨
      (lhs = FLOAT ∧ (rhs = INT ∨ rhs = FLOAT))) ∧
    (∃ msg, assert_assign lhs rhs ctx = .ok () ∨
      assert_assign lhs rhs ctx = .error (.invalidType msg)) := by
  unfold assert_assign
  constructor
  · repeat' split
    all_goals simp_all [INT, FLOAT]
  · repeat' split
    all_goals first
      | exact ⟨"", .inl rfl⟩
      | exact ⟨_, .inr rfl⟩
/-! ## C10 -/

/-- Layout of the virtual address space as the spec fixes it: the base of
each (segment, type) pair. -/
def spec_segment_layout : List ((String × String) × Nat) :=
  [(("GLOBAL", "INT"), 1000),
   (("GLOBAL", "FLOAT"), 2000),
   (("GLOBAL", "BOOL"), 3000),
   (("LOCAL", "INT"), 4000),
   (("LOCAL", "FLOAT"), 5000),
   (("LOCAL", "BOOL"), 6000),
   (("TEMP", "INT"), 7000),
   (("TEMP", "FLOAT"), 8000),
   (("TEMP", "BOOL"), 9000),
   (("CONSTANT", "INT"), 10000),
   (("CONSTANT", "FLOAT"), 11000),
   (("CONSTANT", "STRING"), 12000)]

/-- Base of a (segment, type) pair of the layout. -/
def spec_segment_base (segment data_type : String) : Option Nat :=
  (spec_segment_layout.find?
    (fun e => e.1.1 == segment && e.1.2 == data_type)).map (fun e => e.2)

theorem spec_segment_base_mem (s t : String) (b : Nat)
    (h : spec_segment_base s t = some b) : ((s, t), b) ∈ spec_segment_layout := by
  unfold spec_segment_base at h
  match hf : spec_segment_layout.find?
      (fun e => e.1.1 == s && e.1.2 == t), h with
  | none, h => rw [hf] at h; exact Option.noConfusion h
  | some e, h =>
      rw [hf] at h
      simp only [Option.map_some'] at h
      have hmem := List.mem_of_find?_eq_some hf
      have hpred := List.find?_some hf
      simp only [Bool.and_eq_true, beq_iff_eq] at hpred
      obtain ⟨h1, h2⟩ := hpred
      cases h
      have he : e = ((s, t), e.2) := by
        obtain ⟨⟨x, y⟩, z⟩ := e
        simp_all
      rw [← he]
      exact hmem

theorem decode_address_ok_inv (a : Nat) (seg ty : String) (off : Nat)
    (h : ExecutionMemory.decode_address a = .ok (seg, ty, off)) :
    ∃ base, spec_segment_base seg ty = some base ∧ off < 1000 ∧
      a = base + off := by
  unfold ExecutionMemory.decode_address at h
  norm_num [GLOBAL_INT_START, GLOBAL_FLOAT_START, GLOBAL_BOOL_START,
    LOCAL_INT_START, LOCAL_FLOAT_START, LOCAL_BOOL_START,
    TEMP_INT_START, TEMP_FLOAT_START, TEMP_BOOL_START,
    CONST_INT_START, CONST_FLOAT_START, CONST_STRING_START] at h
  by_cases h0 : 1000 ≤ a ∧ a < 2000
  · rw [if_pos h0] at h
    injection h with hh
    injection hh with ha hrest
    injection hrest with hb hc
    subst ha; subst hb; subst hc
    exact ⟨1000, rfl, by omega, by omega⟩
  · rw [if_neg h0] at h
    by_cases h1 : 2000 ≤ a ∧ a < 3000
    · rw [if_pos h1] at h
      injection h with hh
      injection hh with ha hrest
      injection hrest with hb hc
      subst ha; subst hb; subst hc
      exact ⟨2000, rfl, by omega, by omega⟩
    · rw [if_neg h1] at h
      by_cases h2 : 3000 ≤ a ∧ a < 4000
      · rw [if_pos h2] at h
        injection h with hh
        injection hh with ha hrest
        injection hrest with hb hc
        subst ha; subst hb; subst hc
        exact ⟨3000, rfl, by omega, by omega⟩
      · rw [if_neg h2] at h
        by_cases h3 : 4000 ≤ a ∧ a < 5000
        · rw [if_pos h3] at h
          injection h with hh
          injection hh with ha hrest
          injection hrest with hb hc
          subst ha; subst hb; subst hc
          exact ⟨4000, rfl, by omega, by omega⟩
        · rw [if_neg h3] at h
          by_cases h4 : 5000 ≤ a ∧ a < 6000
          · rw [if_pos h4] at h
            injection h with hh
            injection hh with ha hrest
            injection hrest with hb hc
            subst ha; subst hb; subst hc
            exact ⟨5000, rfl, by omega, by omega⟩
          · rw [if_neg h4] at h
            by_cases h5 : 6000 ≤ a ∧ a < 7000
            · rw [if_pos h5] at h
              injection h with hh
              injection hh with ha hrest
              injection hrest with hb hc
              subst ha; subst hb; subst hc
              exact ⟨6000, rfl, by omega, by omega⟩
            · rw [if_neg h5] at h
              by_cases h6 : 7000 ≤ a ∧ a < 8000
              · rw [if_pos h6] at h
                injection h with hh
                injection hh with ha hrest
                injection hrest with hb hc
                subst ha; subst hb; subst hc
                exact ⟨7000, rfl, by omega, by omega⟩
              · rw [if_neg h6] at h
                by_cases h7 : 8000 ≤ a ∧ a < 9000
                · rw [if_pos h7] at h
                  injection h with hh
                  injection hh with ha hrest
                  injection hrest with hb hc
                  subst ha; subst hb; subst hc
                  exact ⟨8000, rfl, by omega, by omega⟩
                · rw [if_neg h7] at h
                  by_cases h8 : 9000 ≤ a ∧ a < 10000
                  · rw [if_pos h8] at h
                    injection h with hh
                    injection hh with ha hrest
                    injection hrest with hb hc
                    subst ha; subst hb; subst hc
                    exact ⟨9000, rfl, by omega, by omega⟩
                  · rw [if_neg h8] at h
                    by_cases h9 : 10000 ≤ a ∧ a < 11000
                    · rw [if_pos h9] at h
                      injection h with hh
                      injection hh with ha hrest
                      injection hrest with hb hc
                      subst ha; subst hb; subst hc
                      exact ⟨10000, rfl, by omega, by omega⟩
                    · rw [if_neg h9] at h
                      by_cases h10 : 11000 ≤ a ∧ a < 12000
                      · rw [if_pos h10] at h
                        injection h with hh
                        injection hh with ha hrest
                        injection hrest with hb hc
                        subst ha; subst hb; subst hc
                        exact ⟨11000, rfl, by omega, by omega⟩
                      · rw [if_neg h10] at h
                        by_cases h11 : 12000 ≤ a ∧ a < 13000
                        · rw [if_pos h11] at h
                          injection h with hh
                          injection hh with ha hrest
                          injection hrest with hb hc
                          subst ha; subst hb; subst hc
                          exact ⟨12000, rfl, by omega, by omega⟩
                        · rw [if_neg h11] at h
                          exact Except.noConfusion h

theorem decode_address_error_inv (a : Nat) (e : PyErr)
    (h : ExecutionMemory.decode_address a = .error e) :
    a < 1000 ∨ 13000 ≤ a := by
  unfold ExecutionMemory.decode_address at h
  norm_num [GLOBAL_INT_START, GLOBAL_FLOAT_START, GLOBAL_BOOL_START,
    LOCAL_INT_START, LOCAL_FLOAT_START, LOCAL_BOOL_START,
    TEMP_INT_START, TEMP_FLOAT_START, TEMP_BOOL_START,
    CONST_INT_START, CONST_FLOAT_START, CONST_STRING_START] at h
  by_cases h0 : 1000 ≤ a ∧ a < 2000
  · rw [if_pos h0] at h
    exact Except.noConfusion h
  · rw [if_neg h0] at h
    by_cases h1 : 2000 ≤ a ∧ a < 3000
    · rw [if_pos h1] at h
      exact Except.noConfusion h
    · rw [if_neg h1] at h
      by_cases h2 : 3000 ≤ a ∧ a < 4000
      · rw [if_pos h2] at h
        exact Except.noConfusion h
      · rw [if_neg h2] at h
        by_cases h3 : 4000 ≤ a ∧ a < 5000
        · rw [if_pos h3] at h
          exact Except.noConfusion h
        · rw [if_neg h3] at h
          by_cases h4 : 5000 ≤ a ∧ a < 6000
          · rw [if_pos h4] at h
            exact Except.noConfusion h
          · rw [if_neg h4] at h
            by_cases h5 : 6000 ≤ a ∧ a < 7000
            · rw [if_pos h5] at h
              exact Except.noConfusion h
            · rw [if_neg h5] at h
              by_cases h6 : 7000 ≤ a ∧ a < 8000
              · rw [if_pos h6] at h
                exact Except.noConfusion h
              · rw [if_neg h6] at h
                by_cases h7 : 8000 ≤ a ∧ a < 9000
                · rw [if_pos h7] at h
                  exact Except.noConfusion h
                · rw [if_neg h7] at h
                  by_cases h8 : 9000 ≤ a ∧ a < 10000
                  · rw [if_pos h8] at h
                    exact Except.noConfusion h
                  · rw [if_neg h8] at h
                    by_cases h9 : 10000 ≤ a ∧ a < 11000
                    · rw [if_pos h9] at h
                      exact Except.noConfusion h
                    · rw [if_neg h9] at h
                      by_cases h10 : 11000 ≤ a ∧ a < 12000
                      · rw [if_pos h10] at h
                        exact Except.noConfusion h
                      · rw [if_neg h10] at h
                        by_cases h11 : 12000 ≤ a ∧ a < 13000
                        · rw [if_pos h11] at h
                          exact Except.noConfusion h
                        · rw [if_neg h11] at h
                          omega

/-- C10: on `[1000, 13000)` the decoder is total and consistent with the
fixed bases, the decomposition into a based segment plus an offset below
1000 is unique, and below 1000 or from 13000 on the decoder — and with
it `read` and `write`, which decode first — fails instead of routing the
address to any storage list. -/
theorem decode_address_total_unambiguous_and_guarded (a : Nat) :
    (1000 ≤ a ∧ a < 13000 →
      ∃ segment data_type offset base,
        ExecutionMemory.decode_address a = .ok (segment, data_type, offset) ∧
        spec_segment_base segment data_type = some base ∧
        offset < 1000 ∧ a = base + offset ∧
        (∀ s2 t2 o2 b2, spec_segment_base s2 t2 = some b2 → o2 < 1000 →
          a = b2 + o2 → s2 = segment ∧ t2 = data_type ∧ o2 = offset)) ∧
    (a < 1000 ∨ 13000 ≤ a →
      ∃ e, ExecutionMemory.decode_address a = .error e ∧
        (∀ m : ExecutionMemory, m.read a = .error e) ∧
        (∀ (m : ExecutionMemory) (v : PyVal), m.write a v = .error e)) := by
  constructor
  · intro hrange
    match hdec : ExecutionMemory.decode_address a with
    | .error e =>
        have := decode_address_error_inv a e hdec
        omega
    | .ok (segment, data_type, offset) =>
        obtain ⟨base, hbase, hoff, hsum⟩ :=
          decode_address_ok_inv a segment data_type offset hdec
        refine ⟨segment, data_type, offset, base, rfl, hbase, hoff, hsum, ?_⟩
        intro s2 t2 o2 b2 hb2 ho2 heq
        have hm1 := spec_segment_base_mem _ _ _ hbase
        have hm2 := spec_segment_base_mem _ _ _ hb2
        simp only [spec_segment_layout, List.mem_cons,
          List.not_mem_nil, or_false] at hm1 hm2
        rcases hm1 with h1|h1|h1|h1|h1|h1|h1|h1|h1|h1|h1|h1 <;>
          rcases hm2 with h2|h2|h2|h2|h2|h2|h2|h2|h2|h2|h2|h2 <;>
          (injection h1 with h1a h1b; injection h1a with h1c h1d;
           injection h2 with h2a h2b; injection h2a with h2c h2d;
           subst h1c; subst h1d; subst h2c; subst h2d) <;>
          first
            | (refine ⟨rfl, rfl, by omega⟩)
            | omega
  · intro hrange
    have hdec : ∃ e, ExecutionMemory.decode_address a = .error e := by
      match hdec : ExecutionMemory.decode_address a with
      | .error e => exact ⟨e, rfl⟩
      | .ok (segment, data_type, offset) =>
          obtain ⟨base, hbase, hoff, hsum⟩ :=
            decode_address_ok_inv a segment data_type offset hdec
          have := spec_segment_base_mem _ _ _ hbase
          simp only [spec_segment_layout, List.mem_cons,
            List.not_mem_nil, or_false] at this
          rcases this with h1|h1|h1|h1|h1|h1|h1|h1|h1|h1|h1|h1 <;>
            (injection h1 with h1a h1b) <;> omega
    obtain ⟨e, he⟩ := hdec
    refine ⟨e, he, ?_, ?_⟩
    · intro m
      unfold ExecutionMemory.read
      rw [he]
    · intro m v
      unfold ExecutionMemory.write
      rw [he]

/-- Witness for C10 at the in-range address 4321 and the out-of-range
address 13000. -/
theorem decode_address_total_unambiguous_and_guarded_witness :
    (∃ segment data_type offset base,
      ExecutionMemory.decode_address 4321 = .ok (segment, data_type, offset) ∧
      spec_segment_base segment data_type = some base ∧
      offset < 1000 ∧ 4321 = base + offset ∧
      (∀ s2 t2 o2 b2, spec_segment_base s2 t2 = some b2 → o2 < 1000 →
        4321 = b2 + o2 → s2 = segment ∧ t2 = data_type ∧ o2 = offset)) ∧
    (∃ e, ExecutionMemory.decode_address 13000 = .error e ∧
      (∀ m : ExecutionMemory, m.read 13000 = .error e) ∧
      (∀ (m : ExecutionMemory) (v : PyVal), m.write 13000 v = .error e)) :=
  ⟨(decode_address_total_unambiguous_and_guarded 4321).1 (by omega),
   (decode_address_total_unambiguous_and_guarded 13000).2 (by omega)⟩

/-! ## C9 -/

theorem refListSet_call_stack_length (m : ExecutionMemory)
    (ref : StorageRef) (l : List PyVal) :
    (m.refListSet ref l).call_stack.length = m.call_stack.length := by
  unfold ExecutionMemory.refListSet
  cases ref <;> try rfl
  all_goals
    (cases hcs : m.call_stack with
     | nil => simp [hcs]
     | cons fr rest => simp [hcs])

theorem write_call_stack_length (m m2 : ExecutionMemory) (a : Nat)
    (v : PyVal) (h : m.write a v = .ok m2) :
    m2.call_stack.length = m.call_stack.length := by
  unfold ExecutionMemory.write at h
  match h1 : ExecutionMemory.decode_address a, h with
  | .ok (segment, data_type, offset), h =>
      simp only [h1] at h
      match h2 : m.resolveStorage segment data_type offset, h with
      | .ok (ref, adjusted), h =>
          simp only [h2] at h
          split at h
          · exact Except.noConfusion h
          · cases h
            exact refListSet_call_stack_length m ref _

/-- C9: the main frame exists from construction on, `pop_frame` fails
whenever at most one frame remains, and one VM step from any state whose
call stack is non-empty leaves it non-empty — so along every run from
the initial memory the call stack always holds at least one frame. -/
theorem call_stack_never_empty :
    ExecutionMemory.init.call_stack.length = 1 ∧
    (∀ m : ExecutionMemory, m.call_stack.length ≤ 1 →
      ∃ msg, m.pop_frame = .error (.runtimeError msg)) ∧
    (∀ (quads : List Quadruple) (fd : Option FunctionDirectory)
        (s s2 : VMState) (quad : Quadruple),
      1 ≤ s.memory.call_stack.length →
      execute_quadruple quads fd s quad = .ok s2 →
      1 ≤ s2.memory.call_stack.length) := by
  refine ⟨rfl, ?_, ?_⟩
  · intro m h
    refine ⟨"No se puede hacer pop del frame principal del programa", ?_⟩
    unfold ExecutionMemory.pop_frame
    rw [if_pos h]
  · intro quads fd s s2 quad hlen hstep
    have harith : ∀ (s3 : VMState), execute_arithmetic s3 quad = .ok s2 →
        s2.memory.call_stack.length = s3.memory.call_stack.length := by
      intro s3 h
      unfold execute_arithmetic at h
      repeat' split at h
      all_goals try exact Except.noConfusion h
      all_goals cases h
      all_goals simp only []
      all_goals apply write_call_stack_length <;> assumption
    have hrel : ∀ (s3 : VMState), execute_relational s3 quad = .ok s2 →
        s2.memory.call_stack.length = s3.memory.call_stack.length := by
      intro s3 h
      unfold execute_relational at h
      repeat' split at h
      all_goals try exact Except.noConfusion h
      all_goals cases h
      all_goals apply write_call_stack_length <;> assumption
    have hassign : ∀ (s3 : VMState), execute_assign s3 quad = .ok s2 →
        s2.memory.call_stack.length = s3.memory.call_stack.length := by
      intro s3 h
      unfold execute_assign at h
      repeat' split at h
      all_goals try exact Except.noConfusion h
      all_goals cases h
      all_goals apply write_call_stack_length <;> assumption
    have huminus : ∀ (s3 : VMState), execute_uminus s3 quad = .ok s2 →
        s2.memory.call_stack.length = s3.memory.call_stack.length := by
      intro s3 h
      unfold execute_uminus at h
      repeat' split at h
      all_goals try exact Except.noConfusion h
      all_goals cases h
      all_goals apply write_call_stack_length <;> assumption
    have hsame : ∀ (s3 : VMState), s2.memory = s3.memory →
        1 ≤ s3.memory.call_stack.length →
        1 ≤ s2.memory.call_stack.length := by
      intro s3 hm h1
      rw [hm]
      exact h1
    unfold execute_quadruple at hstep
    by_cases c0 : quad.operator = "MAS" ∨ quad.operator = "MENOS" ∨
      quad.operator = "POR" ∨ quad.operator = "ENTRE"
    · rw [if_pos c0] at hstep
      rw [harith s hstep]
      exact hlen
    rw [if_neg c0] at hstep
    by_cases c1 : quad.operator = "MAYOR" ∨ quad.operator = "MENOR" ∨
      quad.operator = "IGUAL" ∨ quad.operator = "DIFERENTE"
    · rw [if_pos c1] at hstep
      rw [hrel s hstep]
      exact hlen
    rw [if_neg c1] at hstep
    by_cases c2 : quad.operator = "ASSIGN"
    · rw [if_pos c2] at hstep
      rw [hassign s hstep]
      exact hlen
    rw [if_neg c2] at hstep
    by_cases c3 : quad.operator = "PRINT"
    · rw [if_pos c3] at hstep
      unfold execute_print at hstep
      repeat' split at hstep
      all_goals try exact Except.noConfusion hstep
      all_goals cases hstep
      all_goals exact hlen
    rw [if_neg c3] at hstep
    by_cases c4 : quad.operator = "GOTO"
    · rw [if_pos c4] at hstep
      unfold execute_goto at hstep
      repeat' split at hstep
      all_goals try exact Except.noConfusion hstep
      all_goals cases hstep
      all_goals exact hlen
    rw [if_neg c4] at hstep
    by_cases c5 : quad.operator = "GOTOF"
    · rw [if_pos c5] at hstep
      unfold execute_gotof at hstep
      repeat' split at hstep
      all_goals try exact Except.noConfusion hstep
      all_goals cases hstep
      all_goals exact hlen
    rw [if_neg c5] at hstep
    by_cases c6 : quad.operator = "UMINUS"
    · rw [if_pos c6] at hstep
      rw [huminus s hstep]
      exact hlen
    rw [if_neg c6] at hstep
    by_cases c7 : quad.operator = "BEGINFUNC"
    · rw [if_pos c7] at hstep
      unfold execute_beginfunc at hstep
      repeat' split at hstep
      all_goals try exact Except.noConfusion hstep
      all_goals cases hstep
      all_goals exact hlen
    rw [if_neg c7] at hstep
    by_cases c8 : quad.operator = "ENDFUNC"
    · rw [if_pos c8] at hstep
      unfold execute_endfunc at hstep
      match hp : s.memory.pop_frame, hstep with
      | .ok (fr, m2), hstep =>
          simp only [hp] at hstep
          have hm2 : 1 ≤ m2.call_stack.length := by
            unfold ExecutionMemory.pop_frame at hp
            split at hp
            · exact Except.noConfusion hp
            · rename_i hgt
              match hcs : s.memory.call_stack, hp with
              | fr0 :: rest, hp =>
                  rw [hcs] at hgt
                  simp only [hcs] at hp
                  cases hp
                  simp only [List.length_cons] at hgt ⊢
                  omega
          match hras : s.return_address_stack, hstep with
          | [], hstep => cases hstep; exact hm2
          | ra :: rest, hstep => cases hstep; exact hm2
    rw [if_neg c8] at hstep
    by_cases c9 : quad.operator = "ERA"
    · rw [if_pos c9] at hstep
      unfold execute_era at hstep
      repeat' split at hstep
      all_goals try exact Except.noConfusion hstep
      all_goals cases hstep
      all_goals exact hlen
    rw [if_neg c9] at hstep
    by_cases c10 : quad.operator = "PARAM"
    · rw [if_pos c10] at hstep
      unfold execute_param at hstep
      repeat' split at hstep
      all_goals try exact Except.noConfusion hstep
      all_goals cases hstep
      all_goals exact hlen
    rw [if_neg c10] at hstep
    by_cases c11 : quad.operator = "GOSUB"
    · rw [if_pos c11] at hstep
      unfold execute_gosub at hstep
      repeat' split at hstep
      all_goals try exact Except.noConfusion hstep
      all_goals cases hstep
      all_goals simp [ExecutionMemory.push_frame]
    rw [if_neg c11] at hstep
    exact Except.noConfusion hstep

/-- Two-frame machine state used by the C9 witness. -/
def vm_two_frames : VMState :=
  { memory := ExecutionMemory.init.push_frame
      (ExecutionMemory.prepare_frame "f" 0 0) }

/-- One-frame halted state used by the C9 witness. -/
def vm_halted : VMState := { memory := ExecutionMemory.init, halted := true }

/-- Witness for C9: one ENDFUNC step from a two-frame state pops back to
one frame. -/
theorem call_stack_never_empty_witness :
    1 ≤ vm_two_frames.memory.call_stack.length ∧
    execute_quadruple [] none vm_two_frames
      ⟨"ENDFUNC", some (.str "f"), none, none⟩ = .ok vm_halted ∧
    1 ≤ vm_halted.memory.call_stack.length := by
  refine ⟨by decide, by rfl, ?_⟩
  exact call_stack_never_empty.2.2 [] none vm_two_frames vm_halted
    ⟨"ENDFUNC", some (.str "f"), none, none⟩ (by decide) (by rfl)
/-! ## C7 -/

theorem constGet_append_other (l : List ((String × TypeName) × Nat))
    (k0 k : String × TypeName) (v : Nat) (h : k ≠ k0) :
    constGet (l ++ [(k0, v)]) k = constGet l k := by
  have hkk : k0 ≠ k := fun hh => h hh.symm
  induction l with
  | nil => simp [constGet, hkk]
  | cons hd tl ih =>
      by_cases h1 : hd.1 = k
      · simp [constGet, h1]
      · simp only [List.cons_append, constGet, if_neg h1]
        exact ih

theorem constGet_append_self (l : List ((String × TypeName) × Nat))
    (k : String × TypeName) (v : Nat) (h : constGet l k = none) :
    constGet (l ++ [(k, v)]) k = some v := by
  induction l with
  | nil => simp [constGet]
  | cons hd tl ih =>
      by_cases h1 : hd.1 = k
      · rw [constGet, if_pos h1] at h
        exact Option.noConfusion h
      · rw [constGet, if_neg h1] at h
        simp only [List.cons_append, constGet, if_neg h1]
        exact ih h

theorem constGet_append_cases (l : List ((String × TypeName) × Nat))
    (k0 k : String × TypeName) (v a : Nat)
    (h : constGet (l ++ [(k0, v)]) k = some a) :
    constGet l k = some a ∨ (k = k0 ∧ a = v ∧ constGet l k = none) := by
  by_cases hk : k = k0
  · subst hk
    match hl : constGet l k with
    | some b =>
        left
        rw [← hl]
        rw [← h]
        induction l with
        | nil => rw [constGet] at hl; exact Option.noConfusion hl
        | cons hd tl ih =>
            by_cases h1 : hd.1 = k
            · simp [constGet, h1]
            · simp only [List.cons_append, constGet, if_neg h1] at *
              exact ih h hl
    | none =>
        right
        rw [constGet_append_self l k v hl] at h
        cases h
        exact ⟨rfl, rfl, rfl⟩
  · left
    rw [← constGet_append_other l k0 k v hk]
    exact h

/-- Wellformedness of a constant table relative to the counters: every
interned address of a type sits below that type`s counter, and distinct
lexemes of one type are interned at distinct addresses.  This is the
reachable-state invariant of the allocator (established below for the
initial state and preserved by every allocation). -/
def ConstWF (ct : ConstantTable) (counters : MemoryCounters) : Prop :=
  (∀ lex t a, constGet ct.table (lex, t) = some a →
     (t = INT → a < counters.const_int) ∧
     (t = FLOAT → a < counters.const_float) ∧
     (t ≠ INT → t ≠ FLOAT → a < counters.const_string)) ∧
  (∀ lex1 lex2 t a1 a2, lex1 ≠ lex2 →
     constGet ct.table (lex1, t) = some a1 →
     constGet ct.table (lex2, t) = some a2 → a1 ≠ a2)

/-- C7: interning the same (lexeme, type) twice returns the same address
and the second call changes nothing at all (in particular no counter
advances); on any wellformed state two distinct lexemes of one type
receive distinct addresses; the initial state is wellformed and every
allocation preserves wellformedness. -/
theorem constant_interning_properties :
    (∀ (ct : ConstantTable) (counters : MemoryCounters) (lex : String)
        (t : TypeName) (a1 : Nat) (ct1 : ConstantTable)
        (c1 : MemoryCounters),
      ct.get_or_create lex t counters = (a1, ct1, c1) →
      ct1.get_or_create lex t c1 = (a1, ct1, c1)) ∧
    (∀ (ct : ConstantTable) (counters : MemoryCounters) (lex1 lex2 : String)
        (t : TypeName) (a1 : Nat) (ct1 : ConstantTable) (c1 : MemoryCounters)
        (a2 : Nat) (ct2 : ConstantTable) (c2 : MemoryCounters),
      ConstWF ct counters → lex1 ≠ lex2 →
      ct.get_or_create lex1 t counters = (a1, ct1, c1) →
      ct1.get_or_create lex2 t c1 = (a2, ct2, c2) → a1 ≠ a2) ∧
    ConstWF ⟨[]⟩ {} ∧
    (∀ (ct : ConstantTable) (counters : MemoryCounters) (lex : String)
        (t : TypeName) (a1 : Nat) (ct1 : ConstantTable) (c1 : MemoryCounters),
      ConstWF ct counters →
      ct.get_or_create lex t counters = (a1, ct1, c1) → ConstWF ct1 c1) := by
  have hstep : ∀ (ct : ConstantTable) (counters : MemoryCounters)
      (lex : String) (t : TypeName) (a1 : Nat) (ct1 : ConstantTable)
      (c1 : MemoryCounters),
      ct.get_or_create lex t counters = (a1, ct1, c1) →
      (constGet ct.table (lex, t) = some a1 ∧ ct1 = ct ∧ c1 = counters) ∨
      (constGet ct.table (lex, t) = none ∧
        ct1.table = ct.table ++ [((lex, t), a1)] ∧
        ((t = INT ∧ a1 = counters.const_int ∧
           c1 = { counters with const_int := counters.const_int + 1 }) ∨
         (t ≠ INT ∧ t = FLOAT ∧ a1 = counters.const_float ∧
           c1 = { counters with const_float := counters.const_float + 1 }) ∨
         (t ≠ INT ∧ t ≠ FLOAT ∧ a1 = counters.const_string ∧
           c1 = { counters with const_string := counters.const_string + 1 }))) := by
    intro ct counters lex t a1 ct1 c1 h
    unfold ConstantTable.get_or_create at h
    match hl : constGet ct.table (lex, t), h with
    | some addr, h =>
        simp only [hl] at h
        left
        cases h
        exact ⟨rfl, rfl, rfl⟩
    | none, h =>
        simp only [hl] at h
        right
        by_cases ht1 : t = INT
        · subst ht1
          rw [if_pos rfl] at h
          cases h
          exact ⟨rfl, rfl, .inl ⟨rfl, rfl, rfl⟩⟩
        · by_cases ht2 : t = FLOAT
          · subst ht2
            rw [if_neg ht1, if_pos rfl] at h
            cases h
            exact ⟨rfl, rfl, .inr (.inl ⟨ht1, rfl, rfl, rfl⟩)⟩
          · rw [if_neg ht1, if_neg ht2] at h
            cases h
            exact ⟨rfl, rfl, .inr (.inr ⟨ht1, ht2, rfl, rfl⟩)⟩
  refine ⟨?_, ?_, ?_, ?_⟩
  · -- idempotence
    intro ct counters lex t a1 ct1 c1 h
    rcases hstep ct counters lex t a1 ct1 c1 h with
      ⟨hl, rfl, rfl⟩ | ⟨hl, htbl, hcase⟩
    · unfold ConstantTable.get_or_create
      simp only [hl]
    · have hl2 : constGet ct1.table (lex, t) = some a1 := by
        rw [htbl]
        exact constGet_append_self _ _ _ hl
      unfold ConstantTable.get_or_create
      simp only [hl2]
  · -- distinctness
    intro ct counters lex1 lex2 t a1 ct1 c1 a2 ct2 c2 hwf hne h1 h2
    rcases hstep ct counters lex1 t a1 ct1 c1 h1 with
      ⟨hl1, rfl, rfl⟩ | ⟨hl1, htbl1, hcase1⟩
    · -- first lexeme already interned
      rcases hstep ct1 c1 lex2 t a2 ct2 c2 h2 with
        ⟨hl2, _, _⟩ | ⟨hl2, htbl2, hcase2⟩
      · exact hwf.2 lex1 lex2 t a1 a2 hne hl1 hl2
      · have hb := hwf.1 lex1 t a1 hl1
        rcases hcase2 with ⟨ht, ha2, _⟩ | ⟨ht1, ht2, ha2, _⟩ | ⟨ht1, ht2, ha2, _⟩
        · subst ht; subst ha2; have := hb.1 rfl; omega
        · subst ht2; subst ha2; have := hb.2.1 rfl; omega
        · subst ha2; have := hb.2.2 ht1 ht2; omega
    · -- first lexeme freshly interned
      have hl2eq : constGet ct1.table (lex2, t) = constGet ct.table (lex2, t) := by
        rw [htbl1]
        apply constGet_append_other
        intro hk
        exact hne (congrArg Prod.fst hk).symm
      rcases hstep ct1 c1 lex2 t a2 ct2 c2 h2 with
        ⟨hl2, _, _⟩ | ⟨hl2, htbl2, hcase2⟩
      · -- second found in the (extended) table, hence in the old table
        rw [hl2eq] at hl2
        have hb := hwf.1 lex2 t a2 hl2
        rcases hcase1 with ⟨ht, ha1, _⟩ | ⟨ht1, ht2, ha1, _⟩ | ⟨ht1, ht2, ha1, _⟩
        · subst ht; subst ha1; have := hb.1 rfl; omega
        · subst ht2; subst ha1; have := hb.2.1 rfl; omega
        · subst ha1; have := hb.2.2 ht1 ht2; omega
      · -- second also fresh: counters advanced between the calls
        rcases hcase1 with ⟨ht, ha1, hc1⟩ | ⟨ht1, ht2, ha1, hc1⟩ | ⟨ht1, ht2, ha1, hc1⟩ <;>
          rcases hcase2 with ⟨ht', ha2, hc2⟩ | ⟨ht1', ht2', ha2, hc2⟩ | ⟨ht1', ht2', ha2, hc2⟩ <;>
          subst hc1 <;> (try simp_all)
        all_goals omega
  · -- initial wellformedness
    constructor
    · intro lex t a h
      rw [constGet] at h
      exact Option.noConfusion h
    · intro lex1 lex2 t a1 a2 hne h1 h2
      rw [constGet] at h1
      exact Option.noConfusion h1
  · -- preservation
    intro ct counters lex t a1 ct1 c1 hwf h
    rcases hstep ct counters lex t a1 ct1 c1 h with
      ⟨hl, rfl, rfl⟩ | ⟨hl, htbl, hcase⟩
    · exact hwf
    · have hmono : counters.const_int ≤ c1.const_int ∧
          counters.const_float ≤ c1.const_float ∧
          counters.const_string ≤ c1.const_string := by
        rcases hcase with ⟨_, _, hc⟩ | ⟨_, _, _, hc⟩ | ⟨_, _, _, hc⟩ <;>
          subst hc <;> simp <;> omega
      have hnewbound : (t = INT → a1 < c1.const_int) ∧
          (t = FLOAT → a1 < c1.const_float) ∧
          (t ≠ INT → t ≠ FLOAT → a1 < c1.const_string) := by
        rcases hcase with ⟨ht, ha, hc⟩ | ⟨ht1, ht, ha, hc⟩ | ⟨ht1, ht2, ha, hc⟩
        · subst ht; subst ha; subst hc
          exact ⟨fun _ => Nat.lt_succ_self _,
            fun hf => absurd hf (by decide),
            fun hni _ => absurd rfl hni⟩
        · subst ht; subst ha; subst hc
          exact ⟨fun hf => absurd hf ht1,
            fun _ => Nat.lt_succ_self _,
            fun _ hnf => absurd rfl hnf⟩
        · subst ha; subst hc
          exact ⟨fun hf => absurd hf ht1, fun hf => absurd hf ht2,
            fun _ _ => Nat.lt_succ_self _⟩
      constructor
      · intro lex2 t2 a h2
        rw [htbl] at h2
        rcases constGet_append_cases _ _ _ _ _ h2 with hold | ⟨hk, ha, _⟩
        · have hb := hwf.1 lex2 t2 a hold
          exact ⟨fun hh => lt_of_lt_of_le (hb.1 hh) hmono.1,
            fun hh => lt_of_lt_of_le (hb.2.1 hh) hmono.2.1,
            fun hh1 hh2 => lt_of_lt_of_le (hb.2.2 hh1 hh2) hmono.2.2⟩
        · injection hk with hk1 hk2
          subst hk1; subst hk2; subst ha
          exact hnewbound
      · intro lex1 lex2 t2 b1 b2 hne hb1 hb2
        rw [htbl] at hb1 hb2
        rcases constGet_append_cases _ _ _ _ _ hb1 with ho1 | ⟨hk1, hv1, _⟩ <;>
          rcases constGet_append_cases _ _ _ _ _ hb2 with ho2 | ⟨hk2, hv2, _⟩
        · exact hwf.2 lex1 lex2 t2 b1 b2 hne ho1 ho2
        · injection hk2 with hx hy
          subst hv2
          have hb := hwf.1 lex1 t2 b1 ho1
          rw [hy] at hb
          rcases hcase with ⟨ht, ha, _⟩ | ⟨ht1, ht, ha, _⟩ | ⟨ht1, ht2n, ha, _⟩
          · have := hb.1 ht; omega
          · have := hb.2.1 ht; omega
          · have := hb.2.2 ht1 ht2n; omega
        · injection hk1 with hx hy
          subst hv1
          have hb := hwf.1 lex2 t2 b2 ho2
          rw [hy] at hb
          rcases hcase with ⟨ht, ha, _⟩ | ⟨ht1, ht, ha, _⟩ | ⟨ht1, ht2n, ha, _⟩
          · have := hb.1 ht; omega
          · have := hb.2.1 ht; omega
          · have := hb.2.2 ht1 ht2n; omega
        · injection hk1 with hx hy
          injection hk2 with hx2 hy2
          subst hx; subst hx2
          exact absurd rfl hne
/-- Constant table holding the interned INT lexeme 1, for the C7
witness. -/
def ct7a : ConstantTable := ⟨[(("1", INT), 10000)]⟩

/-- Counters after one INT constant, for the C7 witness. -/
def mc7a : MemoryCounters := { const_int := 10001 }

/-- Witness for C7: interning 1 twice returns 10000 both times without
moving any counter, and interning the distinct lexeme 2 afterwards
returns a different address. -/
theorem constant_interning_properties_witness :
    ct7a.get_or_create "1" INT mc7a = (10000, ct7a, mc7a) ∧
    (10000 : Nat) ≠ 10001 := by
  constructor
  · exact constant_interning_properties.1 ⟨[]⟩ {} "1" INT 10000 ct7a mc7a
      (by rfl)
  · exact constant_interning_properties.2.1 ⟨[]⟩ {} "1" "2" INT
      10000 ct7a mc7a 10001 ⟨[(("1", INT), 10000), (("2", INT), 10001)]⟩
      { const_int := 10002 } constant_interning_properties.2.2.1
      (by decide) (by rfl) (by rfl)
/-! ## C5 -/

/-- The expression 0 / 0 over INT constant lexemes. -/
def divZeroExpr : Expresion :=
  .simple (.mk (.mk (.prim (.const (.int "0")))
    (.cons "ENTRE" (.prim (.const (.int "0"))) .nil)) .nil)

/-- The program `main: print(0 / 0)`. -/
def divZeroProg : Programa :=
  { main := .cons (.imprime [.expr divZeroExpr]) .nil }

/-- C5: a division quadruple whose operand reads succeed fails exactly
when the divisor value equals zero (ZeroDivisionError), a non-zero
division stores the `pyDivide` quotient — which on two INT operands is
always a FLOAT-tagged value — the compile-time cube types INT / INT as
FLOAT (both for the surface slash and for the generator`s ENTRE opcode),
and the program `print(0 / 0)` compiles successfully and fails only when
the virtual machine executes it. -/
theorem division_runtime_and_compiletime_behavior :
    (∀ (s : VMState) (quad : Quadruple) (la ra res : Nat) (lv rv : PyVal),
      quad.operator = "ENTRE" →
      quad.left_operand = some (.num la) →
      quad.right_operand = some (.num ra) →
      quad.result = some (.num res) →
      s.memory.read la = .ok lv → s.memory.read ra = .ok rv →
      (pyEqZero rv = true →
        execute_arithmetic s quad =
          .error (.zeroDivisionError "Division entre cero")) ∧
      (pyEqZero rv = false →
        execute_arithmetic s quad =
          (pyDivide lv rv).bind (fun result =>
            (s.memory.write res result).map
              (fun m2 => { s with memory := m2, ip := s.ip + 1 })))) ∧
    (∀ a b : Int, pyDivide (.int a) (.int b) = .ok (.float ((a : Rat) / (b : Rat)))) ∧
    result_type "/" INT INT = .ok FLOAT ∧
    result_type_pipeline "ENTRE" INT INT = .ok FLOAT ∧
    (∃ c, compile_program divZeroProg = .ok c ∧
      run_compiled c 10 = .error (.zeroDivisionError "Division entre cero")) := by
  refine ⟨?_, ?_, by rfl, by rfl, ⟨_, rfl, by rfl⟩⟩
  · intro s quad la ra res lv rv hop hl hr hres hrl hrr
    obtain ⟨op, lo, ro, rs⟩ := quad
    simp only at hop hl hr hres
    subst hop; subst hl; subst hr; subst hres
    unfold execute_arithmetic
    simp only [hrl, hrr, if_pos rfl]
    constructor
    · intro hz
      rw [if_pos trivial, if_pos hz]
    · intro hz
      rw [if_pos trivial, if_neg (by simp [hz])]
      cases hdiv : pyDivide lv rv with
      | error e => simp [Except.bind]
      | ok result =>
          cases hw : s.memory.write res result with
          | error e => simp [Except.bind, hw, Except.map]
          | ok m2 => simp [Except.bind, hw, Except.map]
  · intro a b
    rfl

/-- Memory with the INT constant 0 loaded, for the C5 witness. -/
def mem5 : ExecutionMemory :=
  { const_ints := [PyVal.int 0],
    call_stack := [{ function_name := "__main__" }] }

/-- Witness for C5: the quadruple (ENTRE, 10000, 10000, 8000) over the
loaded constant 0 raises ZeroDivisionError. -/
theorem division_runtime_and_compiletime_behavior_witness :
    execute_arithmetic { memory := mem5 }
      ⟨"ENTRE", some (.num 10000), some (.num 10000), some (.num 8000)⟩ =
      .error (.zeroDivisionError "Division entre cero") :=
  (division_runtime_and_compiletime_behavior.1 { memory := mem5 }
    ⟨"ENTRE", some (.num 10000), some (.num 10000), some (.num 8000)⟩
    10000 10000 8000 (.int 0) (.int 0) rfl rfl rfl rfl (by rfl) (by rfl)).1
    (by decide)
/-! ## C2 -/

theorem dictGet_mem {α : Type} (l : List (String × α)) (k : String) (v : α)
    (h : dictGet l k = some v) : (k, v) ∈ l := by
  induction l with
  | nil => rw [dictGet] at h; exact Option.noConfusion h
  | cons hd tl ih =>
      rw [dictGet] at h
      split at h
      · rename_i heq
        cases h
        have hh : (k, hd.2) = hd := by
          obtain ⟨h1, h2⟩ := hd
          simp only at heq ⊢
          rw [heq]
        exact List.mem_cons.mpr (Or.inl hh)
      · right
        exact ih h

theorem dictGet_isSome_of_keys_eq {α : Type} (l l2 : List (String × α))
    (hk : l2.map Prod.fst = l.map Prod.fst) (k : String) :
    (dictGet l2 k).isSome = (dictGet l k).isSome := by
  induction l generalizing l2 with
  | nil =>
      cases l2 with
      | nil => rfl
      | cons h2 t2 => exact absurd hk (by simp)
  | cons hd tl ih =>
      cases l2 with
      | nil => exact absurd hk (by simp)
      | cons h2 t2 =>
          simp only [List.map_cons, List.cons.injEq] at hk
          rw [dictGet, dictGet, hk.1]
          split
          · rfl
          · exact ih t2 hk.2

theorem allocate_global_fra (vm : VirtualMemory) (t : TypeName) (a : Nat)
    (vm2 : VirtualMemory) (h : vm.allocate_global t = .ok (a, vm2)) :
    vm2.function_return_addresses = vm.function_return_addresses := by
  unfold VirtualMemory.allocate_global at h
  by_cases h1 : t = INT
  · rw [if_pos h1] at h; cases h; rfl
  · rw [if_neg h1] at h
    by_cases h2 : t = FLOAT
    · rw [if_pos h2] at h; cases h; rfl
    · rw [if_neg h2] at h
      by_cases h3 : t = BOOL
      · rw [if_pos h3] at h; cases h; rfl
      · rw [if_neg h3] at h; exact Except.noConfusion h

theorem allocate_local_fra (vm : VirtualMemory) (t : TypeName) (a : Nat)
    (vm2 : VirtualMemory) (h : vm.allocate_local t = .ok (a, vm2)) :
    vm2.function_return_addresses = vm.function_return_addresses := by
  unfold VirtualMemory.allocate_local at h
  by_cases h1 : t = INT
  · rw [if_pos h1] at h; cases h; rfl
  · rw [if_neg h1] at h
    by_cases h2 : t = FLOAT
    · rw [if_pos h2] at h; cases h; rfl
    · rw [if_neg h2] at h
      by_cases h3 : t = BOOL
      · rw [if_pos h3] at h; cases h; rfl
      · rw [if_neg h3] at h; exact Except.noConfusion h

theorem allocate_function_return_inv (vm : VirtualMemory) (n : String)
    (t : TypeName) (a : Nat) (vm2 : VirtualMemory)
    (h : vm.allocate_function_return n t = .ok (a, vm2)) :
    (dictGet vm2.function_return_addresses n).isSome ∧
    (∀ k, (dictGet vm.function_return_addresses k).isSome →
      (dictGet vm2.function_return_addresses k).isSome) ∧
    ((dictGet vm.function_return_addresses n).isSome → vm2 = vm) := by
  unfold VirtualMemory.allocate_function_return at h
  split at h
  · exact Except.noConfusion h
  · cases hl : dictGet vm.function_return_addresses n with
    | some addr =>
        rw [hl] at h
        dsimp only at h
        cases h
        exact ⟨by rw [hl]; rfl, fun k hk => hk, fun _ => rfl⟩
    | none =>
        rw [hl] at h
        dsimp only at h
        have hget : ∀ v : Nat, (dictGet
            (dictSet vm.function_return_addresses n v) n).isSome := by
          intro v
          rw [dictGet_dictSet_self]
          rfl
        have hmono : ∀ (v : Nat) k,
            (dictGet vm.function_return_addresses k).isSome →
            (dictGet (dictSet vm.function_return_addresses n v) k).isSome := by
          intro v k hk
          by_cases hkn : k = n
          · subst hkn
            exact hget v
          · rw [dictGet_dictSet_other _ _ _ _ hkn]
            exact hk
        split at h
        · cases h
          exact ⟨hget _, hmono _, fun hpre => Bool.noConfusion hpre⟩
        · split at h
          · cases h
            exact ⟨hget _, hmono _, fun hpre => Bool.noConfusion hpre⟩
          · exact Except.noConfusion h

theorem assignGlobalsPass_inv (l : List (String × VariableInfo))
    (vm : VirtualMemory) (l2 : List (String × VariableInfo))
    (vm2 : VirtualMemory) (h : assignGlobalsPass l vm = .ok (l2, vm2)) :
    (∀ e ∈ l2, e.2.virtual_address.isSome) ∧
    l2.map Prod.fst = l.map Prod.fst ∧
    vm2.function_return_addresses = vm.function_return_addresses := by
  induction l generalizing vm l2 vm2 with
  | nil =>
      rw [assignGlobalsPass] at h
      cases h
      exact ⟨fun e he => absurd he (List.not_mem_nil e), rfl, rfl⟩
  | cons hd tl ih =>
      obtain ⟨n, vi⟩ := hd
      rw [assignGlobalsPass] at h
      by_cases hva : vi.virtual_address = none
      · rw [if_pos hva] at h
        cases halloc : vm.allocate_global vi.var_type with
        | error e =>
            rw [halloc] at h; dsimp only at h; exact Except.noConfusion h
        | ok p =>
            obtain ⟨addr, vmx⟩ := p
            rw [halloc] at h
            dsimp only at h
            cases hrest : assignGlobalsPass tl vmx with
            | error e =>
                rw [hrest] at h; dsimp only at h; exact Except.noConfusion h
            | ok q =>
                obtain ⟨rest2, vm3⟩ := q
                rw [hrest] at h
                dsimp only at h
                cases h
                obtain ⟨ha, hb, hc⟩ := ih vmx _ _ hrest
                refine ⟨?_, by simp [hb], ?_⟩
                · intro e he
                  rcases List.mem_cons.mp he with he | he
                  · subst he; rfl
                  · exact ha e he
                · rw [hc, allocate_global_fra vm vi.var_type addr vmx halloc]
      · rw [if_neg hva] at h
        dsimp only at h
        cases hrest : assignGlobalsPass tl vm with
        | error e =>
            rw [hrest] at h; dsimp only at h; exact Except.noConfusion h
        | ok q =>
            obtain ⟨rest2, vm3⟩ := q
            rw [hrest] at h
            dsimp only at h
            cases h
            obtain ⟨ha, hb, hc⟩ := ih vm _ _ hrest
            refine ⟨?_, by simp [hb], hc⟩
            intro e he
            rcases List.mem_cons.mp he with he | he
            · subst he
              simp only []
              cases hv : vi.virtual_address with
              | none => exact absurd hv hva
              | some a => rfl
            · exact ha e he

theorem assignGlobalsPass_fixed (l : List (String × VariableInfo))
    (vm : VirtualMemory) (hall : ∀ e ∈ l, e.2.virtual_address.isSome) :
    assignGlobalsPass l vm = .ok (l, vm) := by
  induction l with
  | nil => rw [assignGlobalsPass]
  | cons hd tl ih =>
      obtain ⟨n, vi⟩ := hd
      rw [assignGlobalsPass]
      have hv : ¬ vi.virtual_address = none := by
        have := hall (n, vi) (List.mem_cons_self _ _)
        simp only at this
        intro hc
        rw [hc] at this
        exact Bool.noConfusion this
      rw [if_neg hv]
      dsimp only
      rw [ih (fun e he => hall e (List.mem_cons_of_mem _ he))]

theorem assignLocalsPass_inv (l : List (String × VariableInfo))
    (vm : VirtualMemory) (l2 : List (String × VariableInfo))
    (vm2 : VirtualMemory) (h : assignLocalsPass l vm = .ok (l2, vm2)) :
    (∀ e ∈ l2, e.2.virtual_address.isSome) ∧
    l2.map Prod.fst = l.map Prod.fst ∧
    vm2.function_return_addresses = vm.function_return_addresses := by
  induction l generalizing vm l2 vm2 with
  | nil =>
      rw [assignLocalsPass] at h
      cases h
      exact ⟨fun e he => absurd he (List.not_mem_nil e), rfl, rfl⟩
  | cons hd tl ih =>
      obtain ⟨n, vi⟩ := hd
      rw [assignLocalsPass] at h
      by_cases hva : vi.virtual_address = none
      · rw [if_pos hva] at h
        cases halloc : vm.allocate_local vi.var_type with
        | error e =>
            rw [halloc] at h; dsimp only at h; exact Except.noConfusion h
        | ok p =>
            obtain ⟨addr, vmx⟩ := p
            rw [halloc] at h
            dsimp only at h
            cases hrest : assignLocalsPass tl vmx with
            | error e =>
                rw [hrest] at h; dsimp only at h; exact Except.noConfusion h
            | ok q =>
                obtain ⟨rest2, vm3⟩ := q
                rw [hrest] at h
                dsimp only at h
                cases h
                obtain ⟨ha, hb, hc⟩ := ih vmx _ _ hrest
                refine ⟨?_, by simp [hb], ?_⟩
                · intro e he
                  rcases List.mem_cons.mp he with he | he
                  · subst he; rfl
                  · exact ha e he
                · rw [hc, allocate_local_fra vm vi.var_type addr vmx halloc]
      · rw [if_neg hva] at h
        dsimp only at h
        cases hrest : assignLocalsPass tl vm with
        | error e =>
            rw [hrest] at h; dsimp only at h; exact Except.noConfusion h
        | ok q =>
            obtain ⟨rest2, vm3⟩ := q
            rw [hrest] at h
            dsimp only at h
            cases h
            obtain ⟨ha, hb, hc⟩ := ih vm _ _ hrest
            refine ⟨?_, by simp [hb], hc⟩
            intro e he
            rcases List.mem_cons.mp he with he | he
            · subst he
              simp only []
              cases hv : vi.virtual_address with
              | none => exact absurd hv hva
              | some a => rfl
            · exact ha e he

theorem assignLocalsPass_fixed (l : List (String × VariableInfo))
    (vm : VirtualMemory) (hall : ∀ e ∈ l, e.2.virtual_address.isSome) :
    assignLocalsPass l vm = .ok (l, vm) := by
  induction l with
  | nil => rw [assignLocalsPass]
  | cons hd tl ih =>
      obtain ⟨n, vi⟩ := hd
      rw [assignLocalsPass]
      have hv : ¬ vi.virtual_address = none := by
        have := hall (n, vi) (List.mem_cons_self _ _)
        simp only at this
        intro hc
        rw [hc] at this
        exact Bool.noConfusion this
      rw [if_neg hv]
      dsimp only
      rw [ih (fun e he => hall e (List.mem_cons_of_mem _ he))]

theorem syncParameters_fixed (params : List VariableInfo)
    (locals : List (String × VariableInfo))
    (h : ∀ p ∈ params, ∃ lc, dictGet locals p.name = some lc ∧
      p.virtual_address = lc.virtual_address) :
    syncParameters params locals = params := by
  unfold syncParameters
  induction params with
  | nil => rfl
  | cons p rest ih =>
      simp only [List.map_cons]
      obtain ⟨lc, hlc, hva⟩ := h p (List.mem_cons_self _ _)
      rw [hlc]
      dsimp only
      have hp : { p with virtual_address := lc.virtual_address } = p := by
        obtain ⟨a, b, c, d, e⟩ := p
        simp only at hva ⊢
        rw [← hva]
      rw [hp, ih (fun q hq => h q (List.mem_cons_of_mem _ hq))]

theorem dictSet_mem_cases {α : Type} (l : List (String × α)) (k : String)
    (v : α) (e : String × α) (he : e ∈ dictSet l k v) :
    e ∈ l ∨ e = (k, v) := by
  induction l with
  | nil =>
      rw [dictSet] at he
      exact Or.inr (List.mem_singleton.mp he)
  | cons hd tl ih =>
      rw [dictSet] at he
      by_cases h : hd.1 = k
      · rw [if_pos h] at he
        rcases List.mem_cons.mp he with h2 | h2
        · exact Or.inr (by rw [h2, h])
        · exact Or.inl (List.mem_cons_of_mem _ h2)
      · rw [if_neg h] at he
        rcases List.mem_cons.mp he with h2 | h2
        · exact Or.inl (List.mem_cons.mpr (Or.inl h2))
        · rcases ih h2 with h3 | h3
          · exact Or.inl (List.mem_cons_of_mem _ h3)
          · exact Or.inr h3

/-- Invariant established by the semantic builder on a function entry:
every parameter of the ordered parameter list has a same-named copy in
the local-variable table carrying the same virtual address. -/
def FuncWF (f : FunctionInfo) : Prop :=
  ∀ p ∈ f.parameter_list, ∃ lc,
    dictGet f.local_variables.variables p.name = some lc ∧
    p.virtual_address = lc.virtual_address

/-- Directory-level builder invariant. -/
def DirWF (d : FunctionDirectory) : Prop :=
  ∀ e ∈ d.functions, FuncWF e.2

theorem add_variable_ok_inv (t : VariableTable) (n : String) (ty : TypeName)
    (ip : Bool) (pp : Option Nat) (t2 : VariableTable)
    (h : t.add_variable n ty ip pp = .ok t2) :
    dictContains t.variables n = false ∧
    t2.variables = dictSet t.variables n ⟨n, ty, ip, pp, none⟩ := by
  unfold VariableTable.add_variable at h
  split at h
  · exact Except.noConfusion h
  · split at h
    · exact Except.noConfusion h
    · cases h
      rename_i hc _
      exact ⟨Bool.not_eq_true _ ▸ Bool.of_not_eq_true hc, rfl⟩

theorem add_parameter_wf (f : FunctionInfo) (pn : String) (pt : TypeName)
    (f2 : FunctionInfo) (h : f.add_parameter pn pt = .ok f2)
    (hwf : FuncWF f) : FuncWF f2 := by
  unfold FunctionInfo.add_parameter at h
  split at h
  · exact Except.noConfusion h
  · rename_i hany
    dsimp only at h
    cases hv : f.local_variables.add_variable pn pt true
        (some f.parameter_list.length) with
    | error e =>
        rw [hv] at h; dsimp only at h; exact Except.noConfusion h
    | ok locals =>
        rw [hv] at h
        dsimp only at h
        cases h
        obtain ⟨hnc, hset⟩ := add_variable_ok_inv _ _ _ _ _ _ hv
        intro p hp
        rcases List.mem_append.mp hp with hp | hp
        · obtain ⟨lc, hlc, hva⟩ := hwf p hp
          refine ⟨lc, ?_, hva⟩
          have hne : p.name ≠ pn := by
            intro hh
            exact hany (List.any_eq_true.mpr ⟨p, hp, decide_eq_true hh⟩)
          show dictGet locals.variables p.name = some lc
          rw [hset, dictGet_dictSet_other _ _ _ _ hne]
          exact hlc
        · rw [List.mem_singleton.mp hp]
          refine ⟨⟨pn, pt, true, some f.parameter_list.length, none⟩, ?_, rfl⟩
          show dictGet locals.variables pn = _
          rw [hset]
          exact dictGet_dictSet_self _ _ _

theorem add_local_variable_wf (f : FunctionInfo) (vn : String)
    (vt : TypeName) (f2 : FunctionInfo)
    (h : f.add_local_variable vn vt = .ok f2) (hwf : FuncWF f) :
    FuncWF f2 := by
  unfold FunctionInfo.add_local_variable at h
  cases hv : f.local_variables.add_variable vn vt false none with
  | error e =>
      rw [hv] at h; dsimp only at h; exact Except.noConfusion h
  | ok locals =>
      rw [hv] at h
      dsimp only at h
      cases h
      obtain ⟨hnc, hset⟩ := add_variable_ok_inv _ _ _ _ _ _ hv
      intro p hp
      obtain ⟨lc, hlc, hva⟩ := hwf p hp
      refine ⟨lc, ?_, hva⟩
      have hne : p.name ≠ vn := by
        intro hh
        rw [hh] at hlc
        rw [dictContains, hlc] at hnc
        exact Bool.noConfusion hnc
      show dictGet locals.variables p.name = some lc
      rw [hset, dictGet_dictSet_other _ _ _ _ hne]
      exact hlc

theorem get_function_ok (d : FunctionDirectory) (n : String)
    (f : FunctionInfo) (h : d.get_function n = .ok f) :
    dictGet d.functions n = some f := by
  unfold FunctionDirectory.get_function at h
  cases hg : dictGet d.functions n with
  | some f0 => rw [hg] at h; dsimp only at h; cases h; rfl
  | none => rw [hg] at h; dsimp only at h; exact Except.noConfusion h

theorem add_parameter_to_function_wf (d : FunctionDirectory)
    (fn pn : String) (pt : TypeName) (d2 : FunctionDirectory)
    (h : d.add_parameter_to_function fn pn pt = .ok d2) (hwf : DirWF d) :
    DirWF d2 := by
  unfold FunctionDirectory.add_parameter_to_function at h
  cases hg : d.get_function fn with
  | error e => rw [hg] at h; dsimp only at h; exact Except.noConfusion h
  | ok f =>
      rw [hg] at h
      dsimp only at h
      cases hp2 : f.add_parameter pn pt with
      | error e => rw [hp2] at h; dsimp only at h; exact Except.noConfusion h
      | ok f2 =>
          rw [hp2] at h
          dsimp only at h
          cases h
          intro e he
          rcases dictSet_mem_cases _ _ _ _ he with he | he
          · exact hwf e he
          · rw [he]
            exact add_parameter_wf f pn pt f2 hp2
              (hwf (fn, f) (dictGet_mem _ _ _ (get_function_ok _ _ _ hg)))

theorem add_local_variable_to_function_wf (d : FunctionDirectory)
    (fn vn : String) (vt : TypeName) (d2 : FunctionDirectory)
    (h : d.add_local_variable_to_function fn vn vt = .ok d2)
    (hwf : DirWF d) : DirWF d2 := by
  unfold FunctionDirectory.add_local_variable_to_function at h
  cases hg : d.get_function fn with
  | error e => rw [hg] at h; dsimp only at h; exact Except.noConfusion h
  | ok f =>
      rw [hg] at h
      dsimp only at h
      cases hp2 : f.add_local_variable vn vt with
      | error e => rw [hp2] at h; dsimp only at h; exact Except.noConfusion h
      | ok f2 =>
          rw [hp2] at h
          dsimp only at h
          cases h
          intro e he
          rcases dictSet_mem_cases _ _ _ _ he with he | he
          · exact hwf e he
          · rw [he]
            exact add_local_variable_wf f vn vt f2 hp2
              (hwf (fn, f) (dictGet_mem _ _ _ (get_function_ok _ _ _ hg)))

theorem add_function_spec_wf (d : FunctionDirectory) (n : String)
    (rt : TypeName) (d2 : FunctionDirectory)
    (h : d.add_function_spec n rt = .ok d2) (hwf : DirWF d) : DirWF d2 := by
  unfold FunctionDirectory.add_function_spec at h
  split at h
  · exact Except.noConfusion h
  · cases h
    intro e he
    rcases dictSet_mem_cases _ _ _ _ he with he | he
    · exact hwf e he
    · rw [he]
      intro p hp
      exact absurd hp (List.not_mem_nil p)

theorem addParameters_wf (fn : String) :
    ∀ (ps : List (String × TypeName)) (d d2 : FunctionDirectory),
    DirWF d → addParameters d fn ps = .ok d2 → DirWF d2 := by
  intro ps
  induction ps with
  | nil =>
      intro d d2 hwf h
      rw [addParameters] at h
      cases h
      exact hwf
  | cons hd tl ih =>
      intro d d2 hwf h
      obtain ⟨pn, pt⟩ := hd
      rw [addParameters] at h
      cases hs : d.add_parameter_to_function fn pn pt with
      | error e => rw [hs] at h; dsimp only at h; exact Except.noConfusion h
      | ok dx =>
          rw [hs] at h
          dsimp only at h
          exact ih dx d2 (add_parameter_to_function_wf _ _ _ _ _ hs hwf) h

theorem foldLocals_wf (fn : String) (vt : TypeName) :
    ∀ (ids : List String) (d d2 : FunctionDirectory),
    DirWF d →
    (ids.foldlM
      (fun acc vn => acc.add_local_variable_to_function fn vn vt) d) =
      .ok d2 →
    DirWF d2 := by
  intro ids
  induction ids with
  | nil =>
      intro d d2 hwf h
      rw [List.foldlM_nil] at h
      cases h
      exact hwf
  | cons hd tl ih =>
      intro d d2 hwf h
      rw [List.foldlM_cons] at h
      cases hs : d.add_local_variable_to_function fn hd vt with
      | error e =>
          rw [hs] at h
          exact Except.noConfusion h
      | ok dx =>
          rw [hs] at h
          exact ih dx d2 (add_local_variable_to_function_wf _ _ _ _ _ hs hwf) h

theorem addLocals_wf (fn : String) :
    ∀ (ls : List (List String × TypeName)) (d d2 : FunctionDirectory),
    DirWF d → addLocals d fn ls = .ok d2 → DirWF d2 := by
  intro ls
  induction ls with
  | nil =>
      intro d d2 hwf h
      rw [addLocals] at h
      cases h
      exact hwf
  | cons hd tl ih =>
      intro d d2 hwf h
      obtain ⟨ids, vt⟩ := hd
      rw [addLocals] at h
      cases hs : (ids.foldlM
          (fun acc vn => acc.add_local_variable_to_function fn vn vt) d) with
      | error e => rw [hs] at h; dsimp only at h; exact Except.noConfusion h
      | ok dx =>
          rw [hs] at h
          dsimp only at h
          exact ih dx d2 (foldLocals_wf fn vt ids d dx hwf hs) h

theorem build_func_decl_wf (d : FunctionDirectory) (func : FuncDecl)
    (d2 : FunctionDirectory) (h : build_func_decl d func = .ok d2)
    (hwf : DirWF d) : DirWF d2 := by
  unfold build_func_decl at h
  cases h1 : d.add_function_spec func.name func.return_type with
  | error e => rw [h1] at h; dsimp only at h; exact Except.noConfusion h
  | ok d1 =>
      rw [h1] at h
      dsimp only at h
      cases h2 : addParameters d1 func.name func.params with
      | error e => rw [h2] at h; dsimp only at h; exact Except.noConfusion h
      | ok dx =>
          rw [h2] at h
          dsimp only at h
          exact addLocals_wf func.name func.locals dx d2
            (addParameters_wf func.name func.params d1 dx
              (add_function_spec_wf _ _ _ _ h1 hwf) h2) h

theorem foldFuncs_wf :
    ∀ (fs : List FuncDecl) (d d2 : FunctionDirectory),
    DirWF d → fs.foldlM build_func_decl d = .ok d2 → DirWF d2 := by
  intro fs
  induction fs with
  | nil =>
      intro d d2 hwf h
      rw [List.foldlM_nil] at h
      cases h
      exact hwf
  | cons hd tl ih =>
      intro d d2 hwf h
      rw [List.foldlM_cons] at h
      cases hs : build_func_decl d hd with
      | error e =>
          rw [hs] at h
          exact Except.noConfusion h
      | ok dx =>
          rw [hs] at h
          exact ih dx d2 (build_func_decl_wf d hd dx hs hwf) h

theorem add_global_variable_functions (d : FunctionDirectory) (vn : String)
    (vt : TypeName) (d2 : FunctionDirectory)
    (h : d.add_global_variable vn vt = .ok d2) :
    d2.functions = d.functions := by
  unfold FunctionDirectory.add_global_variable at h
  cases hv : d.global_variables.add_variable vn vt false none with
  | error e => rw [hv] at h; dsimp only at h; exact Except.noConfusion h
  | ok g => rw [hv] at h; dsimp only at h; cases h; rfl

theorem foldGlobals_functions (vt : TypeName) :
    ∀ (ids : List String) (d d2 : FunctionDirectory),
    (ids.foldlM (fun acc vn => acc.add_global_variable vn vt) d) = .ok d2 →
    d2.functions = d.functions := by
  intro ids
  induction ids with
  | nil =>
      intro d d2 h
      rw [List.foldlM_nil] at h
      cases h
      rfl
  | cons hd tl ih =>
      intro d d2 h
      rw [List.foldlM_cons] at h
      cases hs : d.add_global_variable hd vt with
      | error e =>
          rw [hs] at h
          exact Except.noConfusion h
      | ok dx =>
          rw [hs] at h
          rw [ih dx d2 h, add_global_variable_functions d hd vt dx hs]

theorem addGlobals_functions :
    ∀ (gs : List (List String × TypeName)) (d d2 : FunctionDirectory),
    addGlobals d gs = .ok d2 → d2.functions = d.functions := by
  intro gs
  induction gs with
  | nil =>
      intro d d2 h
      rw [addGlobals] at h
      cases h
      rfl
  | cons hd tl ih =>
      intro d d2 h
      obtain ⟨ids, vt⟩ := hd
      rw [addGlobals] at h
      cases hs : (ids.foldlM (fun acc vn => acc.add_global_variable vn vt) d) with
      | error e => rw [hs] at h; dsimp only at h; exact Except.noConfusion h
      | ok dx =>
          rw [hs] at h
          dsimp only at h
          rw [ih dx d2 h, foldGlobals_functions vt ids d dx hs]

theorem build_symbol_tables_wf (p : Programa) (d : FunctionDirectory)
    (h : build_symbol_tables p = .ok d) : DirWF d := by
  unfold build_symbol_tables at h
  cases hf : (p.funcs.foldlM build_func_decl ({} : FunctionDirectory)) with
  | error e => rw [hf] at h; dsimp only at h; exact Except.noConfusion h
  | ok fd =>
      rw [hf] at h
      dsimp only at h
      have hwf : DirWF fd :=
        foldFuncs_wf p.funcs {} fd
          (fun e he => absurd he (List.not_mem_nil e)) hf
      intro e he
      rw [addGlobals_functions p.globals fd d h] at he
      exact hwf e he

theorem syncParameters_inv (params : List VariableInfo)
    (locals : List (String × VariableInfo))
    (hall : ∀ e ∈ locals, e.2.virtual_address.isSome)
    (hmem : ∀ p ∈ params, (dictGet locals p.name).isSome) :
    ∀ p2 ∈ syncParameters params locals, ∃ lc,
      dictGet locals p2.name = some lc ∧
      p2.virtual_address = lc.virtual_address ∧
      p2.virtual_address.isSome := by
  intro p2 hp2
  unfold syncParameters at hp2
  obtain ⟨p, hp, hmap⟩ := List.mem_map.mp hp2
  cases hg : dictGet locals p.name with
  | none =>
      have hx := hmem p hp
      rw [hg] at hx
      exact Bool.noConfusion hx
  | some lc =>
      rw [hg] at hmap
      dsimp only at hmap
      have hname : p2.name = p.name := by rw [← hmap]
      have hva : p2.virtual_address = lc.virtual_address := by rw [← hmap]
      refine ⟨lc, by rw [hname]; exact hg, hva, ?_⟩
      rw [hva]
      exact hall (p.name, lc) (dictGet_mem _ _ _ hg)

theorem allocate_function_return_idem (vm : VirtualMemory) (n : String)
    (t : TypeName) (hs : (dictGet vm.function_return_addresses n).isSome)
    (ht : t ≠ VOID) :
    ∃ a, vm.allocate_function_return n t = .ok (a, vm) := by
  unfold VirtualMemory.allocate_function_return
  rw [if_neg ht]
  cases hg : dictGet vm.function_return_addresses n with
  | none => rw [hg] at hs; exact Bool.noConfusion hs
  | some a => exact ⟨a, rfl⟩

theorem assignFunctionPass_fra_mono :
    ∀ (l : List (String × FunctionInfo)) (vm : VirtualMemory)
      (l2 : List (String × FunctionInfo)) (vm2 : VirtualMemory),
    assignFunctionPass l vm = .ok (l2, vm2) →
    ∀ k, (dictGet vm.function_return_addresses k).isSome →
      (dictGet vm2.function_return_addresses k).isSome := by
  intro l
  induction l with
  | nil =>
      intro vm l2 vm2 h k hk
      rw [assignFunctionPass] at h
      cases h
      exact hk
  | cons hd tl ih =>
      intro vm l2 vm2 h k hk
      obtain ⟨n, f⟩ := hd
      rw [assignFunctionPass] at h
      cases hloc : assignLocalsPass f.local_variables.variables vm with
      | error e => rw [hloc] at h; dsimp only at h; exact Except.noConfusion h
      | ok lv =>
          obtain ⟨locals2, vmx⟩ := lv
          rw [hloc] at h
          dsimp only at h
          have hfra := (assignLocalsPass_inv _ _ _ _ hloc).2.2
          have hkx : (dictGet vmx.function_return_addresses k).isSome := by
            rw [hfra]; exact hk
          by_cases hrt : f.return_type ≠ VOID
          · rw [if_pos hrt] at h
            cases halloc : vmx.allocate_function_return f.name
                f.return_type with
            | error e =>
                rw [halloc] at h; dsimp only at h; exact Except.noConfusion h
            | ok av =>
                obtain ⟨a, vm4⟩ := av
                rw [halloc] at h
                dsimp only at h
                cases hrest : assignFunctionPass tl vm4 with
                | error e =>
                    rw [hrest] at h; dsimp only at h
                    exact Except.noConfusion h
                | ok rv =>
                    obtain ⟨rest2, vm5⟩ := rv
                    rw [hrest] at h
                    dsimp only at h
                    cases h
                    exact ih vm4 _ _ hrest k
                      ((allocate_function_return_inv _ _ _ _ _ halloc).2.1 k hkx)
          · rw [if_neg hrt] at h
            dsimp only at h
            cases hrest : assignFunctionPass tl vmx with
            | error e =>
                rw [hrest] at h; dsimp only at h
                exact Except.noConfusion h
            | ok rv =>
                obtain ⟨rest2, vm5⟩ := rv
                rw [hrest] at h
                dsimp only at h
                cases h
                exact ih vmx _ _ hrest k hkx

theorem assignFunctionPass_inv :
    ∀ (l : List (String × FunctionInfo)) (vm : VirtualMemory)
      (l2 : List (String × FunctionInfo)) (vm2 : VirtualMemory),
    (∀ e ∈ l, FuncWF e.2) →
    assignFunctionPass l vm = .ok (l2, vm2) →
    (∀ e ∈ l2,
      (∀ v ∈ e.2.local_variables.variables, v.2.virtual_address.isSome) ∧
      (∀ q ∈ e.2.parameter_list, q.virtual_address.isSome) ∧
      (e.2.return_type ≠ VOID →
        (dictGet vm2.function_return_addresses e.2.name).isSome)) ∧
    assignFunctionPass l2 vm2 = .ok (l2, vm2) := by
  intro l
  induction l with
  | nil =>
      intro vm l2 vm2 _ h
      rw [assignFunctionPass] at h
      cases h
      exact ⟨fun e he => absurd he (List.not_mem_nil e),
        by rw [assignFunctionPass]⟩
  | cons hd tl ih =>
      intro vm l2 vm2 hwf h
      obtain ⟨n, f⟩ := hd
      rw [assignFunctionPass] at h
      cases hloc : assignLocalsPass f.local_variables.variables vm with
      | error e => rw [hloc] at h; dsimp only at h; exact Except.noConfusion h
      | ok lv =>
          obtain ⟨locals2, vmx⟩ := lv
          rw [hloc] at h
          dsimp only at h
          obtain ⟨hl_all, hl_keys, hl_fra⟩ := assignLocalsPass_inv _ _ _ _ hloc
          have hsync_mem : ∀ p ∈ f.parameter_list,
              (dictGet locals2 p.name).isSome := by
            intro p hp
            obtain ⟨lc, hlc, _⟩ := hwf (n, f) (List.mem_cons_self _ _) p hp
            rw [dictGet_isSome_of_keys_eq _ _ hl_keys, hlc]
            rfl
          have hsyncinv := syncParameters_inv f.parameter_list locals2
            hl_all hsync_mem
          by_cases hrt : f.return_type ≠ VOID
          · rw [if_pos hrt] at h
            cases halloc : vmx.allocate_function_return f.name
                f.return_type with
            | error e =>
                rw [halloc] at h; dsimp only at h; exact Except.noConfusion h
            | ok av =>
                obtain ⟨a, vm4⟩ := av
                rw [halloc] at h
                dsimp only at h
                cases hrest : assignFunctionPass tl vm4 with
                | error e =>
                    rw [hrest] at h; dsimp only at h
                    exact Except.noConfusion h
                | ok rv =>
                    obtain ⟨rest2, vm5⟩ := rv
                    rw [hrest] at h
                    dsimp only at h
                    cases h
                    obtain ⟨hprops, hidem⟩ := ih vm4 rest2 vm2
                      (fun e he => hwf e (List.mem_cons_of_mem _ he)) hrest
                    have hkey5 : (dictGet vm2.function_return_addresses
                        f.name).isSome :=
                      assignFunctionPass_fra_mono tl vm4 rest2 vm2 hrest f.name
                        ((allocate_function_return_inv _ _ _ _ _ halloc).1)
                    constructor
                    · intro e he
                      rcases List.mem_cons.mp he with he | he
                      · rw [he]
                        refine ⟨fun v hv => hl_all v hv,
                          fun q hq => (hsyncinv q hq).choose_spec.2.2,
                          fun _ => hkey5⟩
                      · exact hprops e he
                    · rw [assignFunctionPass]
                      dsimp only
                      rw [assignLocalsPass_fixed locals2 vm2 hl_all]
                      dsimp only
                      rw [syncParameters_fixed _ _
                        (fun q hq => ⟨(hsyncinv q hq).choose,
                          (hsyncinv q hq).choose_spec.1,
                          (hsyncinv q hq).choose_spec.2.1⟩)]
                      rw [if_pos hrt]
                      obtain ⟨a2, hidem2⟩ := allocate_function_return_idem
                        vm2 f.name f.return_type hkey5 hrt
                      rw [hidem2]
                      dsimp only
                      rw [hidem]
          · rw [if_neg hrt] at h
            dsimp only at h
            cases hrest : assignFunctionPass tl vmx with
            | error e =>
                rw [hrest] at h; dsimp only at h
                exact Except.noConfusion h
            | ok rv =>
                obtain ⟨rest2, vm5⟩ := rv
                rw [hrest] at h
                dsimp only at h
                cases h
                obtain ⟨hprops, hidem⟩ := ih vmx rest2 vm2
                  (fun e he => hwf e (List.mem_cons_of_mem _ he)) hrest
                constructor
                · intro e he
                  rcases List.mem_cons.mp he with he | he
                  · rw [he]
                    refine ⟨fun v hv => hl_all v hv,
                      fun q hq => (hsyncinv q hq).choose_spec.2.2,
                      fun hne => absurd hne hrt⟩
                  · exact hprops e he
                · rw [assignFunctionPass]
                  dsimp only
                  rw [assignLocalsPass_fixed locals2 vm2 hl_all]
                  dsimp only
                  rw [syncParameters_fixed _ _
                    (fun q hq => ⟨(hsyncinv q hq).choose,
                      (hsyncinv q hq).choose_spec.1,
                      (hsyncinv q hq).choose_spec.2.1⟩)]
                  rw [if_neg hrt]
                  dsimp only
                  rw [hidem]

/-- C2: for every function directory built by the semantic builder
(`build_symbol_tables`), after one successful call to
`assign_variable_addresses` every declared global variable, every local
variable and every parameter carries a virtual address, every non-VOID
function has a reserved return slot in the virtual memory, and a second
invocation on the resulting directory and memory returns both unchanged
(idempotence). -/
theorem assign_variable_addresses_assigns_all_and_idempotent
    (p : Programa) (d : FunctionDirectory) (vm : VirtualMemory)
    (d2 : FunctionDirectory) (vm2 : VirtualMemory)
    (hb : build_symbol_tables p = .ok d)
    (h : assign_variable_addresses d vm = .ok (d2, vm2)) :
    (∀ g ∈ d2.global_variables.variables, g.2.virtual_address.isSome) ∧
    (∀ e ∈ d2.functions,
      (∀ v ∈ e.2.local_variables.variables, v.2.virtual_address.isSome) ∧
      (∀ q ∈ e.2.parameter_list, q.virtual_address.isSome) ∧
      (e.2.return_type ≠ VOID →
        (dictGet vm2.function_return_addresses e.2.name).isSome)) ∧
    assign_variable_addresses d2 vm2 = .ok (d2, vm2) := by
  have hwf := build_symbol_tables_wf p d hb
  unfold assign_variable_addresses at h
  cases hg : assignGlobalsPass d.global_variables.variables vm with
  | error e => rw [hg] at h; dsimp only at h; exact Except.noConfusion h
  | ok gv =>
      obtain ⟨globals2, vmg⟩ := gv
      rw [hg] at h
      dsimp only at h
      cases hf : assignFunctionPass d.functions vmg with
      | error e => rw [hf] at h; dsimp only at h; exact Except.noConfusion h
      | ok fv =>
          obtain ⟨functions2, vmf⟩ := fv
          rw [hf] at h
          dsimp only at h
          cases h
          obtain ⟨hg_all, hg_keys, hg_fra⟩ := assignGlobalsPass_inv _ _ _ _ hg
          obtain ⟨hprops, hidem⟩ := assignFunctionPass_inv d.functions vmg
            functions2 vm2 hwf hf
          refine ⟨hg_all, hprops, ?_⟩
          unfold assign_variable_addresses
          dsimp only
          rw [assignGlobalsPass_fixed globals2 vm2 hg_all]
          dsimp only
          rw [hidem]

/-- A one-function program (global `x`, function `sq` with parameter `n`
and local `t`, INT return type) used by the C2 witness. -/
def c2Prog : Programa :=
  { globals := [(["x"], INT)],
    funcs := [{ return_type := INT, name := "sq", params := [("n", INT)],
                locals := [(["t"], FLOAT)], body := .nil }],
    main := .nil }

/-- Witness for C2 at `c2Prog`: the builder and the address-assignment
pass succeed, and the theorem yields full coverage plus idempotence. -/
theorem assign_variable_addresses_assigns_all_and_idempotent_witness :
    ∃ d d2 vm2,
      build_symbol_tables c2Prog = .ok d ∧
      assign_variable_addresses d {} = .ok (d2, vm2) ∧
      ((∀ g ∈ d2.global_variables.variables, g.2.virtual_address.isSome) ∧
       (∀ e ∈ d2.functions,
         (∀ v ∈ e.2.local_variables.variables, v.2.virtual_address.isSome) ∧
         (∀ q ∈ e.2.parameter_list, q.virtual_address.isSome) ∧
         (e.2.return_type ≠ VOID →
           (dictGet vm2.function_return_addresses e.2.name).isSome)) ∧
       assign_variable_addresses d2 vm2 = .ok (d2, vm2)) := by
  refine ⟨_, _, _, rfl, rfl, ?_⟩
  exact assign_variable_addresses_assigns_all_and_idempotent c2Prog _ {} _ _
    rfl rfl
/-! ## C6 / C3: the generator step contract -/

theorem get?_append_right_mem {α : Type} (A B : List α) (i : Nat) (q : α)
    (h : (A ++ B).get? i = some q) (hi : A.length ≤ i) : q ∈ B := by
  rw [List.get?_eq_getElem?, List.getElem?_append_right hi] at h
  exact List.getElem?_mem h

theorem update_result_append (A B : List Quadruple) (i : Nat) (v : QVal)
    (hi : A.length ≤ i) :
    update_result (A ++ B) i v = A ++ update_result B (i - A.length) v := by
  unfold update_result
  rw [List.get?_eq_getElem?, List.getElem?_append_right hi,
    ← List.get?_eq_getElem?]
  cases hb : B.get? (i - A.length) with
  | none => rfl
  | some q =>
      dsimp only
      rw [List.set_append, if_neg (Nat.not_lt.mpr hi)]

/-- The three jump opcodes of the virtual machine. -/
def isJumpOp (op : String) : Prop :=
  op = "GOTO" ∨ op = "GOTOF" ∨ op = "GOSUB"

instance (op : String) : Decidable (isJumpOp op) := by
  unfold isJumpOp
  infer_instance

/-- Every recorded function start index lies inside the queue. -/
def FsiOk (s : GenState) : Prop :=
  ∀ fn idx, dictGet s.function_start_indices fn = some idx → idx ≤ s.qlen

/-- `i` is recorded for backpatching in `s`: a forward-call GOSUB fixup of
a function whose start is still unknown, or a pending return GOTO of the
function currently being generated. -/
def pendingIdx (s : GenState) (i : Nat) : Prop :=
  (∃ fn idxs, dictGet s.pending_gosub_fixups fn = some idxs ∧
    dictGet s.function_start_indices fn = none ∧ i ∈ idxs) ∨
  (∃ fn idxs, s.current_function_name = some fn ∧
    dictGet s.pending_return_gotos fn = some idxs ∧ i ∈ idxs)

/-- Contract of a completed generator step (one statement, one
expression, one emit) against the fixed function directory `fd`: the
queue is extended (patches land only in the extension), the current
function and the recorded starts are untouched, the two
pending-backpatch tables only grow — the return table only at the
current function's key, the GOSUB table only at keys naming a directory
function, new indices always within the queue — and every fresh jump
quadruple is either already patched to a target within the queue or
recorded as pending. -/
def GenStep (fd : FunctionDirectory) (s s1 : GenState) : Prop :=
  (∃ new, s1.context.quadruples = s.context.quadruples ++ new) ∧
  s1.current_function_name = s.current_function_name ∧
  s1.function_start_indices = s.function_start_indices ∧
  (∀ fn, dictGet s1.pending_return_gotos fn =
      dictGet s.pending_return_gotos fn ∨
    (s.current_function_name = some fn ∧ ∃ add,
      dictGet s1.pending_return_gotos fn =
        some ((dictGet s.pending_return_gotos fn).getD [] ++ add) ∧
      ∀ i ∈ add, i < s1.qlen)) ∧
  (∀ fn, dictGet s1.pending_gosub_fixups fn =
      dictGet s.pending_gosub_fixups fn ∨
    ((∃ k fi2, dictGet fd.functions k = some fi2 ∧ fi2.name = fn) ∧ ∃ add,
      dictGet s1.pending_gosub_fixups fn =
        some ((dictGet s.pending_gosub_fixups fn).getD [] ++ add) ∧
      ∀ i ∈ add, i < s1.qlen)) ∧
  (FsiOk s →
    ∀ i q, s.qlen ≤ i → s1.context.quadruples.get? i = some q →
    isJumpOp q.operator →
    (∃ n, q.result = some (.num n) ∧ n ≤ s1.qlen) ∨
    (q.result = none ∧ pendingIdx s1 i))

theorem GenStep.qlen_le {fd : FunctionDirectory} {s s1 : GenState}
    (h : GenStep fd s s1) : s.qlen ≤ s1.qlen := by
  obtain ⟨⟨new, hq⟩, -⟩ := h
  unfold GenState.qlen
  rw [hq, List.length_append]
  exact Nat.le_add_right _ _

theorem GenStep.fsiOk {fd : FunctionDirectory} {s s1 : GenState}
    (h : GenStep fd s s1) (hf : FsiOk s) : FsiOk s1 := by
  intro fn idx hidx
  rw [h.2.2.1] at hidx
  exact Nat.le_trans (hf fn idx hidx) h.qlen_le

theorem GenStep.get?_preserved {fd : FunctionDirectory} {s s1 : GenState}
    (h : GenStep fd s s1) (i : Nat) (q : Quadruple)
    (hq : s.context.quadruples.get? i = some q) :
    s1.context.quadruples.get? i = some q := by
  obtain ⟨⟨new, hnew⟩, -⟩ := h
  have hi : i < s.context.quadruples.length := by
    by_contra hc
    rw [List.get?_eq_getElem?,
      List.getElem?_eq_none (Nat.le_of_not_lt hc)] at hq
    exact Option.noConfusion hq
  rw [hnew, List.get?_append_left _ _ _ hi]
  exact hq

theorem GenStep.pendingIdx_mono {fd : FunctionDirectory} {s s1 : GenState}
    (h : GenStep fd s s1) (i : Nat) (hp : pendingIdx s i) :
    pendingIdx s1 i := by
  obtain ⟨hquads, hcur, hfsi, hret, hgos, -⟩ := h
  rcases hp with ⟨fn, idxs, hd, hn, hi⟩ | ⟨fn, idxs, hc, hd, hi⟩
  · left
    rcases hgos fn with hg | ⟨-, add, hg, -⟩
    · exact ⟨fn, idxs, by rw [hg]; exact hd, by rw [hfsi]; exact hn, hi⟩
    · refine ⟨fn, (dictGet s.pending_gosub_fixups fn).getD [] ++ add,
        hg, by rw [hfsi]; exact hn, ?_⟩
      rw [hd]
      exact List.mem_append_left _ hi
  · right
    rcases hret fn with hg | ⟨-, add, hg, -⟩
    · exact ⟨fn, idxs, by rw [hcur, hc], by rw [hg]; exact hd, hi⟩
    · refine ⟨fn, (dictGet s.pending_return_gotos fn).getD [] ++ add,
        by rw [hcur, hc], hg, ?_⟩
      rw [hd]
      exact List.mem_append_left _ hi

theorem GenStep_refl (fd : FunctionDirectory) (s : GenState) :
    GenStep fd s s := by
  refine ⟨⟨[], (List.append_nil _).symm⟩, rfl, rfl,
    fun fn => Or.inl rfl, fun fn => Or.inl rfl, ?_⟩
  intro _ i q hi hq _
  exfalso
  rw [List.get?_eq_getElem?, List.getElem?_eq_none hi] at hq
  exact Option.noConfusion hq

theorem GenStep_of_append (fd : FunctionDirectory) (s s1 : GenState)
    (new : List Quadruple)
    (hq : s1.context.quadruples = s.context.quadruples ++ new)
    (hc : s1.current_function_name = s.current_function_name)
    (hf : s1.function_start_indices = s.function_start_indices)
    (hr : s1.pending_return_gotos = s.pending_return_gotos)
    (hg : s1.pending_gosub_fixups = s.pending_gosub_fixups)
    (hnj : ∀ q ∈ new, ¬ isJumpOp q.operator) : GenStep fd s s1 := by
  refine ⟨⟨new, hq⟩, hc, hf, fun fn => Or.inl (by rw [hr]),
    fun fn => Or.inl (by rw [hg]), ?_⟩
  intro _ i q hi hget hj
  exfalso
  rw [hq] at hget
  exact hnj q (get?_append_right_mem _ _ _ _ hget hi) hj

theorem GenStep_trans {fd : FunctionDirectory} {s s1 s2 : GenState}
    (h1 : GenStep fd s s1) (h2 : GenStep fd s1 s2) : GenStep fd s s2 := by
  obtain ⟨⟨n1, hq1⟩, hc1, hf1, hr1, hg1, hj1⟩ := h1
  obtain ⟨⟨n2, hq2⟩, hc2, hf2, hr2, hg2, hj2⟩ := h2
  have h1x : GenStep fd s s1 := ⟨⟨n1, hq1⟩, hc1, hf1, hr1, hg1, hj1⟩
  have h2x : GenStep fd s1 s2 := ⟨⟨n2, hq2⟩, hc2, hf2, hr2, hg2, hj2⟩
  refine ⟨⟨n1 ++ n2, by rw [hq2, hq1, List.append_assoc]⟩,
    hc2.trans hc1, hf2.trans hf1, ?_, ?_, ?_⟩
  · intro fn
    rcases hr2 fn with h2r | ⟨h2c, add2, h2r, h2a⟩
    · rcases hr1 fn with h1r | ⟨h1c, add1, h1r, h1a⟩
      · exact Or.inl (h2r.trans h1r)
      · refine Or.inr ⟨h1c, add1, h2r.trans h1r, ?_⟩
        intro i hi
        exact Nat.lt_of_lt_of_le (h1a i hi) h2x.qlen_le
    · rcases hr1 fn with h1r | ⟨h1c, add1, h1r, h1a⟩
      · exact Or.inr ⟨by rw [← hc1]; exact h2c, add2, by rw [h2r, h1r], h2a⟩
      · refine Or.inr ⟨h1c, add1 ++ add2, ?_, ?_⟩
        · rw [h2r, h1r]
          simp [List.append_assoc]
        · intro i hi
          rcases List.mem_append.mp hi with hi | hi
          · exact Nat.lt_of_lt_of_le (h1a i hi) h2x.qlen_le
          · exact h2a i hi
  · intro fn
    rcases hg2 fn with h2r | ⟨h2n, add2, h2r, h2a⟩
    · rcases hg1 fn with h1r | ⟨h1n, add1, h1r, h1a⟩
      · exact Or.inl (h2r.trans h1r)
      · refine Or.inr ⟨h1n, add1, h2r.trans h1r, ?_⟩
        intro i hi
        exact Nat.lt_of_lt_of_le (h1a i hi) h2x.qlen_le
    · rcases hg1 fn with h1r | ⟨h1n, add1, h1r, h1a⟩
      · exact Or.inr ⟨h2n, add2, by rw [h2r, h1r], h2a⟩
      · refine Or.inr ⟨h1n, add1 ++ add2, ?_, ?_⟩
        · rw [h2r, h1r]
          simp [List.append_assoc]
        · intro i hi
          rcases List.mem_append.mp hi with hi | hi
          · exact Nat.lt_of_lt_of_le (h1a i hi) h2x.qlen_le
          · exact h2a i hi
  · intro hfsi i q hi hget hj
    by_cases hlt : i < s1.context.quadruples.length
    · have hq1get : s1.context.quadruples.get? i = some q := by
        rw [hq2, List.get?_append_left _ _ _ hlt] at hget
        exact hget
      rcases hj1 hfsi i q hi hq1get hj with ⟨n, hn, hle⟩ | ⟨hnone, hp⟩
      · exact Or.inl ⟨n, hn, Nat.le_trans hle h2x.qlen_le⟩
      · exact Or.inr ⟨hnone, h2x.pendingIdx_mono i hp⟩
    · exact hj2 (h1x.fsiOk hfsi) i q (Nat.le_of_not_lt hlt) hget hj

theorem result_type_pipeline_not_jump (op : String) (lt rt t : TypeName)
    (h : result_type_pipeline op lt rt = .ok t) : ¬ isJumpOp op := by
  intro hj
  rcases hj with hj | hj | hj <;> subst hj <;>
    simp [result_type_pipeline, pipelineAliases, result_type,
      normalize_operator, OPERATOR_ALIASES_get, SEMANTIC_CUBE_get] at h

theorem emit_binary_operation_step (fd : FunctionDirectory) (opn : String)
    (l r : ExpressionResult) (s : GenState) (res : ExpressionResult)
    (s1 : GenState) (h : emit_binary_operation opn l r s = .ok (res, s1)) :
    GenStep fd s s1 := by
  unfold emit_binary_operation at h
  cases hrt : result_type_pipeline opn l.result_type r.result_type with
  | error e => rw [hrt] at h; dsimp only at h; exact Except.noConfusion h
  | ok t =>
      rw [hrt] at h
      dsimp only at h
      cases halloc : s.virtual_memory.allocate_temporary t with
      | error e =>
          rw [halloc] at h; dsimp only at h; exact Except.noConfusion h
      | ok tv =>
          obtain ⟨ta, vm2⟩ := tv
          rw [halloc] at h
          dsimp only at h
          cases h
          refine GenStep_of_append _ _ _ _ rfl rfl rfl rfl rfl ?_
          intro q hq
          rw [List.mem_singleton.mp hq]
          exact result_type_pipeline_not_jump _ _ _ _ hrt

theorem emit_function_activation_step (fd : FunctionDirectory)
    (fi : FunctionInfo) (args : List ExpressionResult) (s : GenState)
    (hkey : ∃ k fi2, dictGet fd.functions k = some fi2 ∧
      fi2.name = fi.name) :
    GenStep fd s (emit_function_activation fi args s) := by
  have hparams : ∀ q ∈ (args.zip (List.range args.length)).map
      (fun p => (⟨"PARAM", some (.num p.1.address), none,
        some (.num (p.2 + 1))⟩ : Quadruple)), q.operator = "PARAM" := by
    intro q hq
    obtain ⟨p, _, hq⟩ := List.mem_map.mp hq
    rw [← hq]
  unfold emit_function_activation
  dsimp only
  cases hsi : dictGet s.function_start_indices fi.name with
  | some idx =>
      dsimp only
      refine ⟨⟨_, by rw [List.append_assoc, List.append_assoc]⟩, rfl, rfl,
        fun fn => Or.inl rfl, fun fn => Or.inl rfl, ?_⟩
      intro hfsi i q hi hget hj
      left
      by_cases hiq : i < (s.context.quadruples ++
          [(⟨"ERA", some (.str fi.name), none, none⟩ : Quadruple)] ++
          (args.zip (List.range args.length)).map
            (fun p => (⟨"PARAM", some (.num p.1.address), none,
              some (.num (p.2 + 1))⟩ : Quadruple))).length
      · exfalso
        rw [List.get?_append_left _ _ _ hiq] at hget
        rw [List.append_assoc] at hget
        have hmem := get?_append_right_mem _ _ _ _ hget hi
        rcases List.mem_append.mp hmem with hm | hm
        · rw [List.mem_singleton.mp hm] at hj
          exact absurd (show isJumpOp "ERA" from hj) (by decide)
        · have := hparams q hm
          rw [this] at hj
          exact absurd hj (by decide)
      · have hlen : i < (s.context.quadruples ++
            [(⟨"ERA", some (.str fi.name), none, none⟩ : Quadruple)] ++
            (args.zip (List.range args.length)).map
              (fun p => (⟨"PARAM", some (.num p.1.address), none,
                some (.num (p.2 + 1))⟩ : Quadruple))).length + 1 := by
          by_contra hc
          rw [List.get?_eq_getElem?, List.getElem?_eq_none (by
            rw [List.length_append]
            exact Nat.le_of_not_lt hc)] at hget
          exact Option.noConfusion hget
        have hieq : i = (s.context.quadruples ++
            [(⟨"ERA", some (.str fi.name), none, none⟩ : Quadruple)] ++
            (args.zip (List.range args.length)).map
              (fun p => (⟨"PARAM", some (.num p.1.address), none,
                some (.num (p.2 + 1))⟩ : Quadruple))).length :=
          Nat.le_antisymm (Nat.le_of_lt_succ hlen) (Nat.le_of_not_lt hiq)
        rw [hieq, List.get?_concat_length] at hget
        cases hget
        refine ⟨idx, rfl, ?_⟩
        refine Nat.le_trans (hfsi fi.name idx hsi) ?_
        unfold GenState.qlen
        simp only [List.length_append]
        omega
  | none =>
      dsimp only
      refine ⟨⟨_, by rw [List.append_assoc, List.append_assoc]⟩, rfl, rfl,
        fun fn => Or.inl rfl, ?_, ?_⟩
      · intro fn
        by_cases hfn : fn = fi.name
        · subst hfn
          refine Or.inr ⟨hkey, [(s.context.quadruples ++
              [(⟨"ERA", some (.str fi.name), none, none⟩ : Quadruple)] ++
              (args.zip (List.range args.length)).map
                (fun p => (⟨"PARAM", some (.num p.1.address), none,
                  some (.num (p.2 + 1))⟩ : Quadruple))).length],
            by rw [dictGet_dictSet_self], ?_⟩
          intro i hi
          rw [List.mem_singleton.mp hi]
          unfold GenState.qlen
          simp only [List.length_append, List.length_singleton]
          omega
        · exact Or.inl (dictGet_dictSet_other _ _ _ _ hfn)
      · intro hfsi i q hi hget hj
        by_cases hiq : i < (s.context.quadruples ++
            [(⟨"ERA", some (.str fi.name), none, none⟩ : Quadruple)] ++
            (args.zip (List.range args.length)).map
              (fun p => (⟨"PARAM", some (.num p.1.address), none,
                some (.num (p.2 + 1))⟩ : Quadruple))).length
        · exfalso
          rw [List.get?_append_left _ _ _ hiq] at hget
          rw [List.append_assoc] at hget
          have hmem := get?_append_right_mem _ _ _ _ hget hi
          rcases List.mem_append.mp hmem with hm | hm
          · rw [List.mem_singleton.mp hm] at hj
            exact absurd (show isJumpOp "ERA" from hj) (by decide)
          · have := hparams q hm
            rw [this] at hj
            exact absurd hj (by decide)
        · have hlen : i < (s.context.quadruples ++
              [(⟨"ERA", some (.str fi.name), none, none⟩ : Quadruple)] ++
              (args.zip (List.range args.length)).map
                (fun p => (⟨"PARAM", some (.num p.1.address), none,
                  some (.num (p.2 + 1))⟩ : Quadruple))).length + 1 := by
            by_contra hc
            rw [List.get?_eq_getElem?, List.getElem?_eq_none (by
              rw [List.length_append]
              exact Nat.le_of_not_lt hc)] at hget
            exact Option.noConfusion hget
          have hieq : i = (s.context.quadruples ++
              [(⟨"ERA", some (.str fi.name), none, none⟩ : Quadruple)] ++
              (args.zip (List.range args.length)).map
                (fun p => (⟨"PARAM", some (.num p.1.address), none,
                  some (.num (p.2 + 1))⟩ : Quadruple))).length :=
            Nat.le_antisymm (Nat.le_of_lt_succ hlen) (Nat.le_of_not_lt hiq)
          rw [hieq, List.get?_concat_length] at hget
          cases hget
          right
          refine ⟨rfl, Or.inl ⟨fi.name,
            (dictGet s.pending_gosub_fixups fi.name).getD [] ++
              [(s.context.quadruples ++
                [(⟨"ERA", some (.str fi.name), none, none⟩ : Quadruple)] ++
                (args.zip (List.range args.length)).map
                  (fun p => (⟨"PARAM", some (.num p.1.address), none,
                    some (.num (p.2 + 1))⟩ : Quadruple))).length],
            by rw [dictGet_dictSet_self], hsi, ?_⟩⟩
          rw [hieq]
          exact List.mem_append_right _ (List.mem_singleton.mpr rfl)

mutual

theorem gen_expresion_step (fd : FunctionDirectory) :
    (e : Expresion) → ∀ s r s1,
    gen_expresion fd e s = .ok (r, s1) → GenStep fd s s1
  | .simple e => fun s r s1 h => gen_exp_simple_step fd e s r s1 h
  | .rel l op r => fun s res s1 h => by
      rw [gen_expresion] at h
      cases h1 : gen_exp_simple fd l s with
      | error e => rw [h1] at h; dsimp only at h; exact Except.noConfusion h
      | ok p1 =>
          obtain ⟨lr, sa⟩ := p1
          rw [h1] at h
          dsimp only at h
          cases h2 : gen_exp_simple fd r sa with
          | error e =>
              rw [h2] at h; dsimp only at h; exact Except.noConfusion h
          | ok p2 =>
              obtain ⟨rr, sb⟩ := p2
              rw [h2] at h
              dsimp only at h
              cases h3 : emit_binary_operation op lr rr sb with
              | error e =>
                  rw [h3] at h; dsimp only at h; exact Except.noConfusion h
              | ok p3 =>
                  obtain ⟨cr, sc⟩ := p3
                  rw [h3] at h
                  dsimp only at h
                  cases h4 : ensure_bool cr.result_type
                      "expresion relacional" with
                  | error e =>
                      rw [h4] at h; dsimp only at h
                      exact Except.noConfusion h
                  | ok u =>
                      rw [h4] at h
                      dsimp only at h
                      cases h
                      exact GenStep_trans (gen_exp_simple_step fd l s lr sa h1)
                        (GenStep_trans
                          (gen_exp_simple_step fd r sa rr sb h2)
                          (emit_binary_operation_step fd op lr rr sb _ _ h3))

theorem gen_exp_simple_step (fd : FunctionDirectory) :
    (e : ExpSimple) → ∀ s r s1,
    gen_exp_simple fd e s = .ok (r, s1) → GenStep fd s s1
  | .mk first rest => fun s r s1 h => by
      rw [gen_exp_simple] at h
      cases h1 : gen_termino fd first s with
      | error e => rw [h1] at h; dsimp only at h; exact Except.noConfusion h
      | ok p1 =>
          obtain ⟨cur, sa⟩ := p1
          rw [h1] at h
          dsimp only at h
          exact GenStep_trans (gen_termino_step fd first s cur sa h1)
            (gen_exp_tail_step fd rest cur sa r s1 h)

theorem gen_exp_tail_step (fd : FunctionDirectory) :
    (t : ExpTail) → ∀ cur s r s1,
    gen_exp_tail fd t cur s = .ok (r, s1) → GenStep fd s s1
  | .nil => fun cur s r s1 h => by
      rw [gen_exp_tail] at h
      cases h
      exact GenStep_refl fd s
  | .cons op tm rest => fun cur s r s1 h => by
      rw [gen_exp_tail] at h
      cases h1 : gen_termino fd tm s with
      | error e => rw [h1] at h; dsimp only at h; exact Except.noConfusion h
      | ok p1 =>
          obtain ⟨rr, sa⟩ := p1
          rw [h1] at h
          dsimp only at h
          cases h2 : emit_binary_operation op cur rr sa with
          | error e =>
              rw [h2] at h; dsimp only at h; exact Except.noConfusion h
          | ok p2 =>
              obtain ⟨nc, sb⟩ := p2
              rw [h2] at h
              dsimp only at h
              exact GenStep_trans (gen_termino_step fd tm s rr sa h1)
                (GenStep_trans (emit_binary_operation_step fd op cur rr sa nc sb h2)
                  (gen_exp_tail_step fd rest nc sb r s1 h))

theorem gen_termino_step (fd : FunctionDirectory) :
    (t : Termino) → ∀ s r s1,
    gen_termino fd t s = .ok (r, s1) → GenStep fd s s1
  | .mk first rest => fun s r s1 h => by
      rw [gen_termino] at h
      cases h1 : gen_factor fd first s with
      | error e => rw [h1] at h; dsimp only at h; exact Except.noConfusion h
      | ok p1 =>
          obtain ⟨cur, sa⟩ := p1
          rw [h1] at h
          dsimp only at h
          exact GenStep_trans (gen_factor_step fd first s cur sa h1)
            (gen_term_tail_step fd rest cur sa r s1 h)

theorem gen_term_tail_step (fd : FunctionDirectory) :
    (t : TermTail) → ∀ cur s r s1,
    gen_term_tail fd t cur s = .ok (r, s1) → GenStep fd s s1
  | .nil => fun cur s r s1 h => by
      rw [gen_term_tail] at h
      cases h
      exact GenStep_refl fd s
  | .cons op f rest => fun cur s r s1 h => by
      rw [gen_term_tail] at h
      cases h1 : gen_factor fd f s with
      | error e => rw [h1] at h; dsimp only at h; exact Except.noConfusion h
      | ok p1 =>
          obtain ⟨rr, sa⟩ := p1
          rw [h1] at h
          dsimp only at h
          cases h2 : emit_binary_operation op cur rr sa with
          | error e =>
              rw [h2] at h; dsimp only at h; exact Except.noConfusion h
          | ok p2 =>
              obtain ⟨nc, sb⟩ := p2
              rw [h2] at h
              dsimp only at h
              exact GenStep_trans (gen_factor_step fd f s rr sa h1)
                (GenStep_trans (emit_binary_operation_step fd op cur rr sa nc sb h2)
                  (gen_term_tail_step fd rest nc sb r s1 h))

theorem gen_factor_step (fd : FunctionDirectory) :
    (f : Factor) → ∀ s r s1,
    gen_factor fd f s = .ok (r, s1) → GenStep fd s s1
  | .prim p => fun s r s1 h => gen_primario_step fd p s r s1 h
  | .paren e => fun s r s1 h => gen_expresion_step fd e s r s1 h
  | .signed sign p => fun s r s1 h => by
      rw [gen_factor] at h
      cases h1 : gen_primario fd p s with
      | error e => rw [h1] at h; dsimp only at h; exact Except.noConfusion h
      | ok p1 =>
          obtain ⟨pr, sa⟩ := p1
          rw [h1] at h
          dsimp only at h
          by_cases hs1 : sign = "MAS"
          · rw [if_pos hs1] at h
            cases h
            exact gen_primario_step fd p s _ _ h1
          · rw [if_neg hs1] at h
            by_cases hs2 : sign = "MENOS"
            · rw [if_pos hs2] at h
              cases h2 : sa.virtual_memory.allocate_temporary
                  pr.result_type with
              | error e =>
                  rw [h2] at h; dsimp only at h; exact Except.noConfusion h
              | ok p2 =>
                  obtain ⟨ta, vm2⟩ := p2
                  rw [h2] at h
                  dsimp only at h
                  cases h
                  refine GenStep_trans (gen_primario_step fd p s pr sa h1)
                    (GenStep_of_append _ _ _ _ rfl rfl rfl rfl rfl ?_)
                  intro q hq
                  rw [List.mem_singleton.mp hq]
                  exact (by decide : ¬ isJumpOp "UMINUS")
            · rw [if_neg hs2] at h
              exact Except.noConfusion h

theorem gen_primario_step (fd : FunctionDirectory) :
    (p : Primario) → ∀ s r s1,
    gen_primario fd p s = .ok (r, s1) → GenStep fd s s1
  | .paren e => fun s r s1 h => gen_expresion_step fd e s r s1 h
  | .const c => fun s r s1 h => by
      rw [gen_primario] at h
      cases c with
      | int lexeme =>
          rw [gen_constante] at h
          rcases hc : s.virtual_memory.allocate_constant lexeme INT
            with ⟨addr, vm2⟩
          rw [hc] at h
          dsimp only at h
          cases h
          exact GenStep_of_append _ _ _ [] (List.append_nil _).symm rfl rfl rfl
            rfl (fun q hq => absurd hq (List.not_mem_nil q))
      | float lexeme =>
          rw [gen_constante] at h
          rcases hc : s.virtual_memory.allocate_constant lexeme FLOAT
            with ⟨addr, vm2⟩
          rw [hc] at h
          dsimp only at h
          cases h
          exact GenStep_of_append _ _ _ [] (List.append_nil _).symm rfl rfl rfl
            rfl (fun q hq => absurd hq (List.not_mem_nil q))
  | .call function_name args => fun s r s1 h => by
      rw [gen_primario] at h
      cases h0 : fd.get_function function_name with
      | error e => rw [h0] at h; dsimp only at h; exact Except.noConfusion h
      | ok fi =>
          rw [h0] at h
          dsimp only at h
          cases h1 : gen_args fd args s with
          | error e =>
              rw [h1] at h; dsimp only at h; exact Except.noConfusion h
          | ok p1 =>
              obtain ⟨ars, sa⟩ := p1
              rw [h1] at h
              dsimp only at h
              by_cases hcount : fi.parameter_list.length ≠ ars.length
              · rw [if_pos hcount] at h
                exact Except.noConfusion h
              · rw [if_neg hcount] at h
                cases h2 : checkArguments function_name ars
                    fi.parameter_list 1 with
                | error e =>
                    rw [h2] at h; dsimp only at h; exact Except.noConfusion h
                | ok u =>
                    rw [h2] at h
                    dsimp only at h
                    by_cases hvoid : fi.return_type = VOID
                    · rw [if_pos hvoid] at h
                      exact Except.noConfusion h
                    · rw [if_neg hvoid] at h
                      cases h3 : (emit_function_activation fi ars
                          sa).virtual_memory.get_function_return_address
                          function_name with
                      | error e =>
                          rw [h3] at h; dsimp only at h
                          exact Except.noConfusion h
                      | ok ra =>
                          rw [h3] at h
                          dsimp only at h
                          cases h4 : (emit_function_activation fi ars
                              sa).virtual_memory.allocate_temporary
                              fi.return_type with
                          | error e =>
                              rw [h4] at h; dsimp only at h
                              exact Except.noConfusion h
                          | ok p4 =>
                              obtain ⟨ta, vm2⟩ := p4
                              rw [h4] at h
                              dsimp only at h
                              cases h
                              refine GenStep_trans
                                (gen_args_step fd args s ars sa h1)
                                (GenStep_trans
                                  (emit_function_activation_step fd fi ars sa
                                    ⟨function_name, fi,
                                      get_function_ok _ _ _ h0, rfl⟩)
                                  (GenStep_of_append _ _ _ _ rfl rfl rfl rfl
                                    rfl ?_))
                              intro q hq
                              rw [List.mem_singleton.mp hq]
                              exact (by decide : ¬ isJumpOp "ASSIGN")
  | .ident identifier_name => fun s r s1 h => by
      rw [gen_primario] at h
      cases h0 : fd.lookup_variable identifier_name
          s.current_function_name with
      | error e => rw [h0] at h; dsimp only at h; exact Except.noConfusion h
      | ok vi =>
          rw [h0] at h
          dsimp only at h
          cases hva : vi.virtual_address with
          | none => rw [hva] at h; dsimp only at h; exact Except.noConfusion h
          | some addr =>
              rw [hva] at h
              dsimp only at h
              cases h
              exact GenStep_refl fd s

theorem gen_args_step (fd : FunctionDirectory) :
    (a : Args) → ∀ s rs s1,
    gen_args fd a s = .ok (rs, s1) → GenStep fd s s1
  | .nil => fun s rs s1 h => by
      rw [gen_args] at h
      cases h
      exact GenStep_refl fd s
  | .cons e rest => fun s rs s1 h => by
      rw [gen_args] at h
      cases h1 : gen_expresion fd e s with
      | error er => rw [h1] at h; dsimp only at h; exact Except.noConfusion h
      | ok p1 =>
          obtain ⟨r, sa⟩ := p1
          rw [h1] at h
          dsimp only at h
          cases h2 : gen_args fd rest sa with
          | error er =>
              rw [h2] at h; dsimp only at h; exact Except.noConfusion h
          | ok p2 =>
              obtain ⟨rrs, sb⟩ := p2
              rw [h2] at h
              dsimp only at h
              cases h
              exact GenStep_trans (gen_expresion_step fd e s r sa h1)
                (gen_args_step fd rest sa rrs s1 h2)

end

/-- The bookkeeping clauses of `GenStep` without the fresh-jump clause;
this weaker contract also holds across the transient states of
`_generate_condicion` and `_generate_ciclo` in which an emitted GOTOF or
GOTO still awaits its patch. -/
def GenStepCore (fd : FunctionDirectory) (s s1 : GenState) : Prop :=
  (∃ new, s1.context.quadruples = s.context.quadruples ++ new) ∧
  s1.current_function_name = s.current_function_name ∧
  s1.function_start_indices = s.function_start_indices ∧
  (∀ fn, dictGet s1.pending_return_gotos fn =
      dictGet s.pending_return_gotos fn ∨
    (s.current_function_name = some fn ∧ ∃ add,
      dictGet s1.pending_return_gotos fn =
        some ((dictGet s.pending_return_gotos fn).getD [] ++ add) ∧
      ∀ i ∈ add, i < s1.qlen)) ∧
  (∀ fn, dictGet s1.pending_gosub_fixups fn =
      dictGet s.pending_gosub_fixups fn ∨
    ((∃ k fi2, dictGet fd.functions k = some fi2 ∧ fi2.name = fn) ∧ ∃ add,
      dictGet s1.pending_gosub_fixups fn =
        some ((dictGet s.pending_gosub_fixups fn).getD [] ++ add) ∧
      ∀ i ∈ add, i < s1.qlen))

theorem GenStep.core {fd : FunctionDirectory} {s s1 : GenState}
    (h : GenStep fd s s1) : GenStepCore fd s s1 :=
  ⟨h.1, h.2.1, h.2.2.1, h.2.2.2.1, h.2.2.2.2.1⟩

theorem GenStepCore.qlen_le_core {fd : FunctionDirectory} {s s1 : GenState}
    (h : GenStepCore fd s s1) : s.qlen ≤ s1.qlen := by
  obtain ⟨⟨new, hq⟩, -⟩ := h
  unfold GenState.qlen
  rw [hq, List.length_append]
  exact Nat.le_add_right _ _

theorem GenStepCore.fsiOk_core {fd : FunctionDirectory} {s s1 : GenState}
    (h : GenStepCore fd s s1) (hf : FsiOk s) : FsiOk s1 := by
  intro fn idx hidx
  rw [h.2.2.1] at hidx
  exact Nat.le_trans (hf fn idx hidx) h.qlen_le_core

theorem GenStepCore.get_preserved_core {fd : FunctionDirectory}
    {s s1 : GenState} (h : GenStepCore fd s s1) (i : Nat) (q : Quadruple)
    (hq : s.context.quadruples.get? i = some q) :
    s1.context.quadruples.get? i = some q := by
  obtain ⟨⟨new, hnew⟩, -⟩ := h
  have hi : i < s.context.quadruples.length := by
    by_contra hc
    rw [List.get?_eq_getElem?,
      List.getElem?_eq_none (Nat.le_of_not_lt hc)] at hq
    exact Option.noConfusion hq
  rw [hnew, List.get?_append_left _ _ _ hi]
  exact hq

theorem GenStepCore.pendingIdx_mono_core {fd : FunctionDirectory}
    {s s1 : GenState} (h : GenStepCore fd s s1) (i : Nat)
    (hp : pendingIdx s i) : pendingIdx s1 i := by
  obtain ⟨hquads, hcur, hfsi, hret, hgos⟩ := h
  rcases hp with ⟨fn, idxs, hd, hn, hi⟩ | ⟨fn, idxs, hc, hd, hi⟩
  · left
    rcases hgos fn with hg | ⟨-, add, hg, -⟩
    · exact ⟨fn, idxs, by rw [hg]; exact hd, by rw [hfsi]; exact hn, hi⟩
    · refine ⟨fn, (dictGet s.pending_gosub_fixups fn).getD [] ++ add,
        hg, by rw [hfsi]; exact hn, ?_⟩
      rw [hd]
      exact List.mem_append_left _ hi
  · right
    rcases hret fn with hg | ⟨-, add, hg, -⟩
    · exact ⟨fn, idxs, by rw [hcur, hc], by rw [hg]; exact hd, hi⟩
    · refine ⟨fn, (dictGet s.pending_return_gotos fn).getD [] ++ add,
        by rw [hcur, hc], hg, ?_⟩
      rw [hd]
      exact List.mem_append_left _ hi

theorem GenStepCore_trans {fd : FunctionDirectory} {s s1 s2 : GenState}
    (h1 : GenStepCore fd s s1) (h2 : GenStepCore fd s1 s2) :
    GenStepCore fd s s2 := by
  obtain ⟨⟨n1, hq1⟩, hc1, hf1, hr1, hg1⟩ := h1
  obtain ⟨⟨n2, hq2⟩, hc2, hf2, hr2, hg2⟩ := h2
  have h1x : GenStepCore fd s s1 := ⟨⟨n1, hq1⟩, hc1, hf1, hr1, hg1⟩
  have h2x : GenStepCore fd s1 s2 := ⟨⟨n2, hq2⟩, hc2, hf2, hr2, hg2⟩
  refine ⟨⟨n1 ++ n2, by rw [hq2, hq1, List.append_assoc]⟩,
    hc2.trans hc1, hf2.trans hf1, ?_, ?_⟩
  · intro fn
    rcases hr2 fn with h2r | ⟨h2c, add2, h2r, h2a⟩
    · rcases hr1 fn with h1r | ⟨h1c, add1, h1r, h1a⟩
      · exact Or.inl (h2r.trans h1r)
      · refine Or.inr ⟨h1c, add1, h2r.trans h1r, ?_⟩
        intro i hi
        exact Nat.lt_of_lt_of_le (h1a i hi) h2x.qlen_le_core
    · rcases hr1 fn with h1r | ⟨h1c, add1, h1r, h1a⟩
      · exact Or.inr ⟨by rw [← hc1]; exact h2c, add2, by rw [h2r, h1r], h2a⟩
      · refine Or.inr ⟨h1c, add1 ++ add2, ?_, ?_⟩
        · rw [h2r, h1r]
          simp [List.append_assoc]
        · intro i hi
          rcases List.mem_append.mp hi with hi | hi
          · exact Nat.lt_of_lt_of_le (h1a i hi) h2x.qlen_le_core
          · exact h2a i hi
  · intro fn
    rcases hg2 fn with h2r | ⟨h2n, add2, h2r, h2a⟩
    · rcases hg1 fn with h1r | ⟨h1n, add1, h1r, h1a⟩
      · exact Or.inl (h2r.trans h1r)
      · refine Or.inr ⟨h1n, add1, h2r.trans h1r, ?_⟩
        intro i hi
        exact Nat.lt_of_lt_of_le (h1a i hi) h2x.qlen_le_core
    · rcases hg1 fn with h1r | ⟨h1n, add1, h1r, h1a⟩
      · exact Or.inr ⟨h2n, add2, by rw [h2r, h1r], h2a⟩
      · refine Or.inr ⟨h1n, add1 ++ add2, ?_, ?_⟩
        · rw [h2r, h1r]
          simp [List.append_assoc]
        · intro i hi
          rcases List.mem_append.mp hi with hi | hi
          · exact Nat.lt_of_lt_of_le (h1a i hi) h2x.qlen_le_core
          · exact h2a i hi

/-- A pure queue extension with untouched bookkeeping is a core step. -/
theorem GenStepCore_of_append (fd : FunctionDirectory) (s s1 : GenState)
    (new : List Quadruple)
    (hq : s1.context.quadruples = s.context.quadruples ++ new)
    (hc : s1.current_function_name = s.current_function_name)
    (hf : s1.function_start_indices = s.function_start_indices)
    (hr : s1.pending_return_gotos = s.pending_return_gotos)
    (hg : s1.pending_gosub_fixups = s.pending_gosub_fixups) :
    GenStepCore fd s s1 :=
  ⟨⟨new, hq⟩, hc, hf, fun fn => Or.inl (by rw [hr]),
    fun fn => Or.inl (by rw [hg])⟩

/-- Patching a result at an index not below the starting queue length
preserves the core contract. -/
theorem GenStepCore_patch {fd : FunctionDirectory} (s t : GenState)
    (idx : Nat) (v : QVal) (hcore : GenStepCore fd s t)
    (hidx : s.context.quadruples.length ≤ idx) :
    GenStepCore fd s { t with context := { t.context with
      quadruples := update_result t.context.quadruples idx v } } := by
  obtain ⟨⟨new, hq⟩, hc, hf, hr, hg⟩ := hcore
  have hlen : (update_result t.context.quadruples idx v).length =
      t.context.quadruples.length := update_result_length _ _ _
  refine ⟨⟨update_result new (idx - s.context.quadruples.length) v, ?_⟩,
    hc, hf, ?_, ?_⟩
  · show update_result t.context.quadruples idx v = _
    rw [hq, update_result_append _ _ _ _ hidx]
  · intro fn
    rcases hr fn with h | ⟨hcond, add, hd, ha⟩
    · exact Or.inl h
    · refine Or.inr ⟨hcond, add, hd, ?_⟩
      intro i hi
      show i < (update_result t.context.quadruples idx v).length
      rw [hlen]
      exact ha i hi
  · intro fn
    rcases hg fn with h | ⟨hcond, add, hd, ha⟩
    · exact Or.inl h
    · refine Or.inr ⟨hcond, add, hd, ?_⟩
      intro i hi
      show i < (update_result t.context.quadruples idx v).length
      rw [hlen]
      exact ha i hi

/-- Transport of `pendingIdx` along equal bookkeeping fields. -/
theorem pendingIdx_of_eq {t u : GenState}
    (hc : u.current_function_name = t.current_function_name)
    (hf : u.function_start_indices = t.function_start_indices)
    (hr : u.pending_return_gotos = t.pending_return_gotos)
    (hg : u.pending_gosub_fixups = t.pending_gosub_fixups)
    (i : Nat) (hp : pendingIdx t i) : pendingIdx u i := by
  rcases hp with ⟨fn, idxs, hd, hn, hi⟩ | ⟨fn, idxs, hcc, hd, hi⟩
  · exact Or.inl ⟨fn, idxs, by rw [hg]; exact hd, by rw [hf]; exact hn, hi⟩
  · exact Or.inr ⟨fn, idxs, by rw [hc]; exact hcc, by rw [hr]; exact hd, hi⟩

/-- Glue step for `_generate_ciclo`: condition step, GOTOF emission, body
step, loop-back GOTO and the final patch of the GOTOF to one past the
GOTO. -/
theorem gen_ciclo_glue (fd : FunctionDirectory) (s sa s2 s3 sF : GenState)
    (cr : ExpressionResult)
    (hexpr : GenStep fd s sa)
    (h2q : s2.context.quadruples = sa.context.quadruples ++
      [⟨"GOTOF", some (.num cr.address), none, none⟩])
    (h2c : s2.current_function_name = sa.current_function_name)
    (h2f : s2.function_start_indices = sa.function_start_indices)
    (h2r : s2.pending_return_gotos = sa.pending_return_gotos)
    (h2g : s2.pending_gosub_fixups = sa.pending_gosub_fixups)
    (hbody : GenStep fd s2 s3)
    (hFq : sF.context.quadruples = update_result
      (s3.context.quadruples ++
        [(⟨"GOTO", none, none, some (.num s.qlen)⟩ : Quadruple)])
      sa.context.quadruples.length
      (.num ((s3.context.quadruples ++
        [(⟨"GOTO", none, none, some (.num s.qlen)⟩ : Quadruple)]).length)))
    (hFc : sF.current_function_name = s3.current_function_name)
    (hFf : sF.function_start_indices = s3.function_start_indices)
    (hFr : sF.pending_return_gotos = s3.pending_return_gotos)
    (hFg : sF.pending_gosub_fixups = s3.pending_gosub_fixups) :
    GenStep fd s sF := by
  have hcoreB : GenStepCore fd sa s2 :=
    GenStepCore_of_append fd _ _ _ h2q h2c h2f h2r h2g
  have hcoreAB : GenStepCore fd s s2 := GenStepCore_trans hexpr.core hcoreB
  have hcoreS3 : GenStepCore fd s s3 := GenStepCore_trans hcoreAB hbody.core
  obtain ⟨n3, hn3⟩ := hcoreS3.1
  obtain ⟨nb, hnb⟩ := hbody.1
  have hs_sa : s.context.quadruples.length ≤ sa.context.quadruples.length :=
    hexpr.qlen_le
  have hs2len : s2.context.quadruples.length =
      sa.context.quadruples.length + 1 := by
    rw [h2q, List.length_append, List.length_singleton]
  have hs2_s3 : s2.context.quadruples.length ≤
      s3.context.quadruples.length := hbody.qlen_le
  have hFlen : sF.context.quadruples.length =
      s3.context.quadruples.length + 1 := by
    rw [hFq, update_result_length, List.length_append, List.length_singleton]
  have hcoreF : GenStepCore fd s sF := by
    refine ⟨⟨update_result
        (n3 ++ [(⟨"GOTO", none, none, some (.num s.qlen)⟩ : Quadruple)])
        (sa.context.quadruples.length - s.context.quadruples.length)
        (.num ((s3.context.quadruples ++
          [(⟨"GOTO", none, none, some (.num s.qlen)⟩ :
            Quadruple)]).length)), ?_⟩,
      hFc.trans hcoreS3.2.1, hFf.trans hcoreS3.2.2.1, ?_, ?_⟩
    · rw [hFq, hn3, List.append_assoc, update_result_append _ _ _ _ hs_sa]
    · intro fn
      rcases hcoreS3.2.2.2.1 fn with h | ⟨hcond, add, hd, ha⟩
      · exact Or.inl (by rw [hFr]; exact h)
      · refine Or.inr ⟨hcond, add, by rw [hFr]; exact hd, ?_⟩
        intro i hi
        have := ha i hi
        show i < sF.context.quadruples.length
        unfold GenState.qlen at this
        omega
    · intro fn
      rcases hcoreS3.2.2.2.2 fn with h | ⟨hcond, add, hd, ha⟩
      · exact Or.inl (by rw [hFg]; exact h)
      · refine Or.inr ⟨hcond, add, by rw [hFg]; exact hd, ?_⟩
        intro i hi
        have := ha i hi
        show i < sF.context.quadruples.length
        unfold GenState.qlen at this
        omega
  refine ⟨hcoreF.1, hcoreF.2.1, hcoreF.2.2.1, hcoreF.2.2.2.1,
    hcoreF.2.2.2.2, ?_⟩
  intro hfsi i q hi hget hj
  rw [hFq] at hget
  have hJ3 : s3.context.quadruples.get? sa.context.quadruples.length =
      some ⟨"GOTOF", some (.num cr.address), none, none⟩ := by
    refine hbody.get?_preserved _ _ ?_
    rw [h2q]
    exact List.get?_concat_length _ _
  have hJ4 : (s3.context.quadruples ++
      [(⟨"GOTO", none, none, some (.num s.qlen)⟩ : Quadruple)]).get?
        sa.context.quadruples.length =
      some ⟨"GOTOF", some (.num cr.address), none, none⟩ := by
    rw [List.get?_append_left _ _ _ (by omega)]
    exact hJ3
  by_cases hig : i = sa.context.quadruples.length
  · subst hig
    rw [update_result_get_self _ _ _ _ hJ4] at hget
    cases hget
    refine Or.inl ⟨(s3.context.quadruples ++
      [(⟨"GOTO", none, none, some (.num s.qlen)⟩ : Quadruple)]).length,
      rfl, ?_⟩
    show _ ≤ sF.context.quadruples.length
    rw [List.length_append, List.length_singleton]
    omega
  · have hget4 : (s3.context.quadruples ++
        [(⟨"GOTO", none, none, some (.num s.qlen)⟩ : Quadruple)]).get? i =
        some q := by
      rw [update_result_get_other _ _ _ _ hig] at hget
      exact hget
    by_cases hi3 : i < s3.context.quadruples.length
    · have hgs3 : s3.context.quadruples.get? i = some q := by
        rw [List.get?_append_left _ _ _ hi3] at hget4
        exact hget4
    -- inner
      by_cases hi2 : i < s2.context.quadruples.length
      · have hisa : i < sa.context.quadruples.length := by
          rw [hs2len] at hi2
          omega
        have hgsa : sa.context.quadruples.get? i = some q := by
          rw [hnb, List.get?_append_left _ _ _ hi2, h2q,
            List.get?_append_left _ _ _ hisa] at hgs3
          exact hgs3
        rcases hexpr.2.2.2.2.2 hfsi i q hi hgsa hj with
          ⟨n, hn, hle⟩ | ⟨hnone, hp⟩
        · refine Or.inl ⟨n, hn, ?_⟩
          show _ ≤ sF.context.quadruples.length
          unfold GenState.qlen at hle
          omega
        · refine Or.inr ⟨hnone, ?_⟩
          refine pendingIdx_of_eq hFc hFf hFr hFg i ?_
          exact (GenStepCore_trans hcoreB hbody.core).pendingIdx_mono_core i hp
      · rcases hbody.2.2.2.2.2 (hcoreAB.fsiOk_core hfsi) i q
            (Nat.le_of_not_lt hi2) hgs3 hj with
          ⟨n, hn, hle⟩ | ⟨hnone, hp⟩
        · refine Or.inl ⟨n, hn, ?_⟩
          show _ ≤ sF.context.quadruples.length
          unfold GenState.qlen at hle
          omega
        · exact Or.inr ⟨hnone, pendingIdx_of_eq hFc hFf hFr hFg i hp⟩
    · have hib : i < s3.context.quadruples.length + 1 := by
        by_contra hcc
        rw [List.get?_eq_getElem?, List.getElem?_eq_none (by
          rw [List.length_append, List.length_singleton]
          omega)] at hget4
        exact Option.noConfusion hget4
      have hieq : i = s3.context.quadruples.length := by omega
      rw [hieq, List.get?_concat_length] at hget4
      cases hget4
      refine Or.inl ⟨s.qlen, rfl, ?_⟩
      show _ ≤ sF.context.quadruples.length
      show s.context.quadruples.length ≤ _
      omega

/-- Glue step for `_generate_condicion` without an else branch:
condition step, GOTOF emission, then-body step and the final patch of
the GOTOF to the end of the then branch. -/
theorem gen_condicion_noelse_glue (fd : FunctionDirectory)
    (s sa s2 s3 sF : GenState) (cr : ExpressionResult)
    (hexpr : GenStep fd s sa)
    (h2q : s2.context.quadruples = sa.context.quadruples ++
      [⟨"GOTOF", some (.num cr.address), none, none⟩])
    (h2c : s2.current_function_name = sa.current_function_name)
    (h2f : s2.function_start_indices = sa.function_start_indices)
    (h2r : s2.pending_return_gotos = sa.pending_return_gotos)
    (h2g : s2.pending_gosub_fixups = sa.pending_gosub_fixups)
    (hbody : GenStep fd s2 s3)
    (hFq : sF.context.quadruples = update_result s3.context.quadruples
      sa.context.quadruples.length (.num s3.qlen))
    (hFc : sF.current_function_name = s3.current_function_name)
    (hFf : sF.function_start_indices = s3.function_start_indices)
    (hFr : sF.pending_return_gotos = s3.pending_return_gotos)
    (hFg : sF.pending_gosub_fixups = s3.pending_gosub_fixups) :
    GenStep fd s sF := by
  have hcoreB : GenStepCore fd sa s2 :=
    GenStepCore_of_append fd _ _ _ h2q h2c h2f h2r h2g
  have hcoreAB : GenStepCore fd s s2 := GenStepCore_trans hexpr.core hcoreB
  have hcoreS3 : GenStepCore fd s s3 := GenStepCore_trans hcoreAB hbody.core
  obtain ⟨n3, hn3⟩ := hcoreS3.1
  obtain ⟨nb, hnb⟩ := hbody.1
  have hs_sa : s.context.quadruples.length ≤ sa.context.quadruples.length :=
    hexpr.qlen_le
  have hs2len : s2.context.quadruples.length =
      sa.context.quadruples.length + 1 := by
    rw [h2q, List.length_append, List.length_singleton]
  have hs2_s3 : s2.context.quadruples.length ≤
      s3.context.quadruples.length := hbody.qlen_le
  have hFlen : sF.context.quadruples.length =
      s3.context.quadruples.length := by
    rw [hFq, update_result_length]
  have hcoreF : GenStepCore fd s sF := by
    refine ⟨⟨update_result n3
        (sa.context.quadruples.length - s.context.quadruples.length)
        (.num s3.qlen), ?_⟩,
      hFc.trans hcoreS3.2.1, hFf.trans hcoreS3.2.2.1, ?_, ?_⟩
    · rw [hFq, hn3, update_result_append _ _ _ _ hs_sa]
    · intro fn
      rcases hcoreS3.2.2.2.1 fn with h | ⟨hcond, add, hd, ha⟩
      · exact Or.inl (by rw [hFr]; exact h)
      · refine Or.inr ⟨hcond, add, by rw [hFr]; exact hd, ?_⟩
        intro i hi
        have := ha i hi
        show i < sF.context.quadruples.length
        unfold GenState.qlen at this
        omega
    · intro fn
      rcases hcoreS3.2.2.2.2 fn with h | ⟨hcond, add, hd, ha⟩
      · exact Or.inl (by rw [hFg]; exact h)
      · refine Or.inr ⟨hcond, add, by rw [hFg]; exact hd, ?_⟩
        intro i hi
        have := ha i hi
        show i < sF.context.quadruples.length
        unfold GenState.qlen at this
        omega
  refine ⟨hcoreF.1, hcoreF.2.1, hcoreF.2.2.1, hcoreF.2.2.2.1,
    hcoreF.2.2.2.2, ?_⟩
  intro hfsi i q hi hget hj
  rw [hFq] at hget
  have hJ3 : s3.context.quadruples.get? sa.context.quadruples.length =
      some ⟨"GOTOF", some (.num cr.address), none, none⟩ := by
    refine hbody.get?_preserved _ _ ?_
    rw [h2q]
    exact List.get?_concat_length _ _
  by_cases hig : i = sa.context.quadruples.length
  · subst hig
    rw [update_result_get_self _ _ _ _ hJ3] at hget
    cases hget
    refine Or.inl ⟨s3.qlen, rfl, ?_⟩
    show _ ≤ sF.context.quadruples.length
    show s3.context.quadruples.length ≤ _
    omega
  · have hget3 : s3.context.quadruples.get? i = some q := by
      rw [update_result_get_other _ _ _ _ hig] at hget
      exact hget
    by_cases hi2 : i < s2.context.quadruples.length
    · have hisa : i < sa.context.quadruples.length := by
        rw [hs2len] at hi2
        omega
      have hgsa : sa.context.quadruples.get? i = some q := by
        rw [hnb, List.get?_append_left _ _ _ hi2, h2q,
          List.get?_append_left _ _ _ hisa] at hget3
        exact hget3
      rcases hexpr.2.2.2.2.2 hfsi i q hi hgsa hj with
        ⟨n, hn, hle⟩ | ⟨hnone, hp⟩
      · refine Or.inl ⟨n, hn, ?_⟩
        show _ ≤ sF.context.quadruples.length
        unfold GenState.qlen at hle
        omega
      · refine Or.inr ⟨hnone, ?_⟩
        refine pendingIdx_of_eq hFc hFf hFr hFg i ?_
        exact (GenStepCore_trans hcoreB hbody.core).pendingIdx_mono_core i hp
    · rcases hbody.2.2.2.2.2 (hcoreAB.fsiOk_core hfsi) i q
          (Nat.le_of_not_lt hi2) hget3 hj with
        ⟨n, hn, hle⟩ | ⟨hnone, hp⟩
      · refine Or.inl ⟨n, hn, ?_⟩
        show _ ≤ sF.context.quadruples.length
        unfold GenState.qlen at hle
        omega
      · exact Or.inr ⟨hnone, pendingIdx_of_eq hFc hFf hFr hFg i hp⟩

/-- Glue step for `_generate_condicion` with an else branch: condition
step, GOTOF emission, then-body step, exit GOTO emission, GOTOF patched
to the else start, else-body step, exit GOTO patched to the end. -/
theorem gen_condicion_else_glue (fd : FunctionDirectory)
    (s sa s2 s3 s5 s6 sF : GenState) (cr : ExpressionResult)
    (hexpr : GenStep fd s sa)
    (h2q : s2.context.quadruples = sa.context.quadruples ++
      [⟨"GOTOF", some (.num cr.address), none, none⟩])
    (h2c : s2.current_function_name = sa.current_function_name)
    (h2f : s2.function_start_indices = sa.function_start_indices)
    (h2r : s2.pending_return_gotos = sa.pending_return_gotos)
    (h2g : s2.pending_gosub_fixups = sa.pending_gosub_fixups)
    (hthen : GenStep fd s2 s3)
    (h5q : s5.context.quadruples = update_result
      (s3.context.quadruples ++ [(⟨"GOTO", none, none, none⟩ : Quadruple)])
      sa.context.quadruples.length
      (.num ((s3.context.quadruples ++
        [(⟨"GOTO", none, none, none⟩ : Quadruple)]).length)))
    (h5c : s5.current_function_name = s3.current_function_name)
    (h5f : s5.function_start_indices = s3.function_start_indices)
    (h5r : s5.pending_return_gotos = s3.pending_return_gotos)
    (h5g : s5.pending_gosub_fixups = s3.pending_gosub_fixups)
    (helse : GenStep fd s5 s6)
    (hFq : sF.context.quadruples = update_result s6.context.quadruples
      s3.context.quadruples.length (.num s6.qlen))
    (hFc : sF.current_function_name = s6.current_function_name)
    (hFf : sF.function_start_indices = s6.function_start_indices)
    (hFr : sF.pending_return_gotos = s6.pending_return_gotos)
    (hFg : sF.pending_gosub_fixups = s6.pending_gosub_fixups) :
    GenStep fd s sF := by
  have hcoreB : GenStepCore fd sa s2 :=
    GenStepCore_of_append fd _ _ _ h2q h2c h2f h2r h2g
  have hcoreAB : GenStepCore fd s s2 := GenStepCore_trans hexpr.core hcoreB
  have hcoreS3 : GenStepCore fd s s3 := GenStepCore_trans hcoreAB hthen.core
  obtain ⟨n3, hn3⟩ := hcoreS3.1
  obtain ⟨nb, hnb⟩ := hthen.1
  obtain ⟨ne2, hne2⟩ := helse.1
  have hs_sa : s.context.quadruples.length ≤ sa.context.quadruples.length :=
    hexpr.qlen_le
  have hs2len : s2.context.quadruples.length =
      sa.context.quadruples.length + 1 := by
    rw [h2q, List.length_append, List.length_singleton]
  have hs2_s3 : s2.context.quadruples.length ≤
      s3.context.quadruples.length := hthen.qlen_le
  have h5len : s5.context.quadruples.length =
      s3.context.quadruples.length + 1 := by
    rw [h5q, update_result_length, List.length_append, List.length_singleton]
  have hs5_s6 : s5.context.quadruples.length ≤
      s6.context.quadruples.length := helse.qlen_le
  have hFlen : sF.context.quadruples.length =
      s6.context.quadruples.length := by
    rw [hFq, update_result_length]
  have hcoreS5 : GenStepCore fd s s5 := by
    refine ⟨⟨update_result
        (n3 ++ [(⟨"GOTO", none, none, none⟩ : Quadruple)])
        (sa.context.quadruples.length - s.context.quadruples.length)
        (.num ((s3.context.quadruples ++
          [(⟨"GOTO", none, none, none⟩ : Quadruple)]).length)), ?_⟩,
      h5c.trans hcoreS3.2.1, h5f.trans hcoreS3.2.2.1, ?_, ?_⟩
    · rw [h5q, hn3, List.append_assoc, update_result_append _ _ _ _ hs_sa]
    · intro fn
      rcases hcoreS3.2.2.2.1 fn with h | ⟨hcond, add, hd, ha⟩
      · exact Or.inl (by rw [h5r]; exact h)
      · refine Or.inr ⟨hcond, add, by rw [h5r]; exact hd, ?_⟩
        intro i hi
        have := ha i hi
        show i < s5.context.quadruples.length
        unfold GenState.qlen at this
        omega
    · intro fn
      rcases hcoreS3.2.2.2.2 fn with h | ⟨hcond, add, hd, ha⟩
      · exact Or.inl (by rw [h5g]; exact h)
      · refine Or.inr ⟨hcond, add, by rw [h5g]; exact hd, ?_⟩
        intro i hi
        have := ha i hi
        show i < s5.context.quadruples.length
        unfold GenState.qlen at this
        omega
  have hcoreS6 : GenStepCore fd s s6 := GenStepCore_trans hcoreS5 helse.core
  obtain ⟨n6, hn6⟩ := hcoreS6.1
  have hcoreF : GenStepCore fd s sF := by
    refine ⟨⟨update_result n6
        (s3.context.quadruples.length - s.context.quadruples.length)
        (.num s6.qlen), ?_⟩,
      hFc.trans hcoreS6.2.1, hFf.trans hcoreS6.2.2.1, ?_, ?_⟩
    · rw [hFq, hn6, update_result_append _ _ _ _ (by omega)]
    · intro fn
      rcases hcoreS6.2.2.2.1 fn with h | ⟨hcond, add, hd, ha⟩
      · exact Or.inl (by rw [hFr]; exact h)
      · refine Or.inr ⟨hcond, add, by rw [hFr]; exact hd, ?_⟩
        intro i hi
        have := ha i hi
        show i < sF.context.quadruples.length
        unfold GenState.qlen at this
        omega
    · intro fn
      rcases hcoreS6.2.2.2.2 fn with h | ⟨hcond, add, hd, ha⟩
      · exact Or.inl (by rw [hFg]; exact h)
      · refine Or.inr ⟨hcond, add, by rw [hFg]; exact hd, ?_⟩
        intro i hi
        have := ha i hi
        show i < sF.context.quadruples.length
        unfold GenState.qlen at this
        omega
  refine ⟨hcoreF.1, hcoreF.2.1, hcoreF.2.2.1, hcoreF.2.2.2.1,
    hcoreF.2.2.2.2, ?_⟩
  intro hfsi i q hi hget hj
  rw [hFq] at hget
  have hJ3 : s3.context.quadruples.get? sa.context.quadruples.length =
      some ⟨"GOTOF", some (.num cr.address), none, none⟩ := by
    refine hthen.get?_preserved _ _ ?_
    rw [h2q]
    exact List.get?_concat_length _ _
  have hJ6 : s6.context.quadruples.get? sa.context.quadruples.length =
      some ⟨"GOTOF", some (.num cr.address), none,
        some (.num ((s3.context.quadruples ++
          [(⟨"GOTO", none, none, none⟩ : Quadruple)]).length))⟩ := by
    refine helse.get?_preserved _ _ ?_
    rw [h5q]
    have hJ4 : (s3.context.quadruples ++
        [(⟨"GOTO", none, none, none⟩ : Quadruple)]).get?
          sa.context.quadruples.length =
        some ⟨"GOTOF", some (.num cr.address), none, none⟩ := by
      rw [List.get?_append_left _ _ _ (by omega)]
      exact hJ3
    rw [update_result_get_self _ _ _ _ hJ4]
  have hG6 : s6.context.quadruples.get? s3.context.quadruples.length =
      some ⟨"GOTO", none, none, none⟩ := by
    refine helse.get?_preserved _ _ ?_
    rw [h5q, update_result_get_other _ _ _ _ (by omega)]
    exact List.get?_concat_length _ _
  by_cases hig2 : i = s3.context.quadruples.length
  · subst hig2
    rw [update_result_get_self _ _ _ _ hG6] at hget
    cases hget
    refine Or.inl ⟨s6.qlen, rfl, ?_⟩
    show _ ≤ sF.context.quadruples.length
    show s6.context.quadruples.length ≤ _
    omega
  · have hget6 : s6.context.quadruples.get? i = some q := by
      rw [update_result_get_other _ _ _ _ hig2] at hget
      exact hget
    by_cases hig1 : i = sa.context.quadruples.length
    · subst hig1
      rw [hJ6] at hget6
      cases hget6
      refine Or.inl ⟨(s3.context.quadruples ++
        [(⟨"GOTO", none, none, none⟩ : Quadruple)]).length, rfl, ?_⟩
      show _ ≤ sF.context.quadruples.length
      rw [List.length_append, List.length_singleton]
      omega
    · by_cases hi5 : i < s5.context.quadruples.length
      · have hi3 : i < s3.context.quadruples.length := by
          rw [h5len] at hi5
          omega
        have hget3 : s3.context.quadruples.get? i = some q := by
          rw [hne2, List.get?_append_left _ _ _ hi5, h5q,
            update_result_get_other _ _ _ _ hig1,
            List.get?_append_left _ _ _ hi3] at hget6
          exact hget6
        by_cases hi2 : i < s2.context.quadruples.length
        · have hisa : i < sa.context.quadruples.length := by
            rw [hs2len] at hi2
            omega
          have hgsa : sa.context.quadruples.get? i = some q := by
            rw [hnb, List.get?_append_left _ _ _ hi2, h2q,
              List.get?_append_left _ _ _ hisa] at hget3
            exact hget3
          rcases hexpr.2.2.2.2.2 hfsi i q hi hgsa hj with
            ⟨n, hn, hle⟩ | ⟨hnone, hp⟩
          · refine Or.inl ⟨n, hn, ?_⟩
            show _ ≤ sF.context.quadruples.length
            unfold GenState.qlen at hle
            omega
          · refine Or.inr ⟨hnone, ?_⟩
            refine pendingIdx_of_eq hFc hFf hFr hFg i ?_
            refine helse.core.pendingIdx_mono_core i ?_
            refine pendingIdx_of_eq h5c h5f h5r h5g i ?_
            exact (GenStepCore_trans hcoreB hthen.core).pendingIdx_mono_core i hp
        · rcases hthen.2.2.2.2.2 (hcoreAB.fsiOk_core hfsi) i q
              (Nat.le_of_not_lt hi2) hget3 hj with
            ⟨n, hn, hle⟩ | ⟨hnone, hp⟩
          · refine Or.inl ⟨n, hn, ?_⟩
            show _ ≤ sF.context.quadruples.length
            unfold GenState.qlen at hle
            omega
          · refine Or.inr ⟨hnone, ?_⟩
            refine pendingIdx_of_eq hFc hFf hFr hFg i ?_
            refine helse.core.pendingIdx_mono_core i ?_
            exact pendingIdx_of_eq h5c h5f h5r h5g i hp
      · rcases helse.2.2.2.2.2 (hcoreS5.fsiOk_core hfsi) i q
            (Nat.le_of_not_lt hi5) hget6 hj with
          ⟨n, hn, hle⟩ | ⟨hnone, hp⟩
        · refine Or.inl ⟨n, hn, ?_⟩
          show _ ≤ sF.context.quadruples.length
          unfold GenState.qlen at hle
          omega
        · exact Or.inr ⟨hnone, pendingIdx_of_eq hFc hFf hFr hFg i hp⟩

theorem prepare_function_call_step (fd : FunctionDirectory)
    (fn : String) (args : Args) (s : GenState) (fi : FunctionInfo)
    (ars : List ExpressionResult) (s1 : GenState)
    (h : prepare_function_call fd fn args s = .ok (fi, ars, s1)) :
    GenStep fd s s1 := by
  unfold prepare_function_call at h
  cases h0 : fd.get_function fn with
  | error e => rw [h0] at h; dsimp only at h; exact Except.noConfusion h
  | ok fi0 =>
      rw [h0] at h
      dsimp only at h
      cases h1 : gen_args fd args s with
      | error e => rw [h1] at h; dsimp only at h; exact Except.noConfusion h
      | ok p1 =>
          obtain ⟨ars0, sa⟩ := p1
          rw [h1] at h
          dsimp only at h
          by_cases hcount : fi0.parameter_list.length ≠ ars0.length
          · rw [if_pos hcount] at h
            exact Except.noConfusion h
          · rw [if_neg hcount] at h
            cases h2 : checkArguments fn ars0 fi0.parameter_list 1 with
            | error e =>
                rw [h2] at h; dsimp only at h; exact Except.noConfusion h
            | ok u =>
                rw [h2] at h
                dsimp only at h
                cases h
                exact gen_args_step fd args s _ _ h1

theorem gen_asignacion_step (fd : FunctionDirectory) (vn : String)
    (e : Expresion) (s s1 : GenState)
    (h : gen_asignacion fd vn e s = .ok s1) : GenStep fd s s1 := by
  unfold gen_asignacion at h
  cases h0 : fd.lookup_variable vn s.current_function_name with
  | error er => rw [h0] at h; dsimp only at h; exact Except.noConfusion h
  | ok vi =>
      rw [h0] at h
      dsimp only at h
      cases h1 : gen_expresion fd e s with
      | error er => rw [h1] at h; dsimp only at h; exact Except.noConfusion h
      | ok p1 =>
          obtain ⟨er2, sa⟩ := p1
          rw [h1] at h
          dsimp only at h
          cases h2 : assert_assign vi.var_type er2.result_type
              "asignacion" with
          | error er =>
              rw [h2] at h; dsimp only at h; exact Except.noConfusion h
          | ok u =>
              rw [h2] at h
              dsimp only at h
              cases hva : vi.virtual_address with
              | none =>
                  rw [hva] at h; dsimp only at h; exact Except.noConfusion h
              | some ta =>
                  rw [hva] at h
                  dsimp only at h
                  cases h
                  refine GenStep_trans (gen_expresion_step fd e s er2 sa h1)
                    (GenStep_of_append _ _ _ _ rfl rfl rfl rfl rfl ?_)
                  intro q hq
                  rw [List.mem_singleton.mp hq]
                  exact (by decide : ¬ isJumpOp "ASSIGN")

theorem gen_imprime_step (fd : FunctionDirectory) :
    ∀ (l : List PrintArg) (s s1 : GenState),
    gen_imprime fd l s = .ok s1 → GenStep fd s s1 := by
  intro l
  induction l with
  | nil =>
      intro s s1 h
      rw [gen_imprime] at h
      cases h
      exact GenStep_refl fd s
  | cons hd tl ih =>
      intro s s1 h
      cases hd with
      | str lexeme =>
          rw [gen_imprime] at h
          rcases hc : s.virtual_memory.allocate_constant lexeme "STRING"
            with ⟨saddr, vm2⟩
          rw [hc] at h
          dsimp only at h
          have hrest := ih _ _ h
          refine GenStep_trans ?_ hrest
          refine GenStep_of_append _ _ _ _ rfl rfl rfl rfl rfl ?_
          intro q hq
          rw [List.mem_singleton.mp hq]
          exact (by decide : ¬ isJumpOp "PRINT")
      | expr e =>
          rw [gen_imprime] at h
          cases h1 : gen_expresion fd e s with
          | error er =>
              rw [h1] at h; dsimp only at h; exact Except.noConfusion h
          | ok p1 =>
              obtain ⟨er2, sa⟩ := p1
              rw [h1] at h
              dsimp only at h
              have hrest := ih _ _ h
              refine GenStep_trans (gen_expresion_step fd e s er2 sa h1)
                (GenStep_trans ?_ hrest)
              refine GenStep_of_append _ _ _ _ rfl rfl rfl rfl rfl ?_
              intro q hq
              rw [List.mem_singleton.mp hq]
              exact (by decide : ¬ isJumpOp "PRINT")

theorem prepare_function_call_ok (fd : FunctionDirectory)
    (fn : String) (args : Args) (s : GenState) (fi : FunctionInfo)
    (ars : List ExpressionResult) (s1 : GenState)
    (h : prepare_function_call fd fn args s = .ok (fi, ars, s1)) :
    dictGet fd.functions fn = some fi := by
  unfold prepare_function_call at h
  cases h0 : fd.get_function fn with
  | error e => rw [h0] at h; dsimp only at h; exact Except.noConfusion h
  | ok fi0 =>
      rw [h0] at h
      dsimp only at h
      cases h1 : gen_args fd args s with
      | error e => rw [h1] at h; dsimp only at h; exact Except.noConfusion h
      | ok p1 =>
          obtain ⟨ars0, sa⟩ := p1
          rw [h1] at h
          dsimp only at h
          by_cases hcount : fi0.parameter_list.length ≠ ars0.length
          · rw [if_pos hcount] at h
            exact Except.noConfusion h
          · rw [if_neg hcount] at h
            cases h2 : checkArguments fn ars0 fi0.parameter_list 1 with
            | error e =>
                rw [h2] at h; dsimp only at h; exact Except.noConfusion h
            | ok u =>
                rw [h2] at h
                dsimp only at h
                cases h
                exact get_function_ok _ _ _ h0

theorem gen_llamada_func_step (fd : FunctionDirectory) (fn : String)
    (args : Args) (s s1 : GenState)
    (h : gen_llamada_func fd fn args s = .ok s1) : GenStep fd s s1 := by
  unfold gen_llamada_func at h
  cases h0 : prepare_function_call fd fn args s with
  | error e => rw [h0] at h; dsimp only at h; exact Except.noConfusion h
  | ok p =>
      obtain ⟨fi, ars, sa⟩ := p
      rw [h0] at h
      dsimp only at h
      cases h
      exact GenStep_trans
        (prepare_function_call_step fd fn args s fi ars sa h0)
        (emit_function_activation_step fd fi ars sa
          ⟨fn, fi, prepare_function_call_ok fd fn args s fi ars sa h0, rfl⟩)

/-- The closing move of `_generate_retorno`: append the exit GOTO (after
an optional non-jump quadruple) and record its index for backpatching. -/
theorem gen_retorno_final_step (fd : FunctionDirectory) (sa : GenState)
    (cfn : String)
    (hcur : sa.current_function_name = some cfn)
    (pre : List Quadruple)
    (hpre : pre = sa.context.quadruples ∨
      ∃ aq : Quadruple, ¬ isJumpOp aq.operator ∧
        pre = sa.context.quadruples ++ [aq]) :
    GenStep fd sa { sa with
      context := { sa.context with quadruples :=
        pre ++ [⟨"GOTO", none, none, none⟩] },
      pending_return_gotos := dictSet sa.pending_return_gotos cfn
        ((dictGet sa.pending_return_gotos cfn).getD [] ++ [pre.length]) } := by
  have hq : ∃ new, pre ++ [(⟨"GOTO", none, none, none⟩ : Quadruple)] =
      sa.context.quadruples ++ new := by
    rcases hpre with hp | ⟨aq, _, hp⟩
    · exact ⟨[⟨"GOTO", none, none, none⟩], by rw [hp]⟩
    · refine ⟨[aq, ⟨"GOTO", none, none, none⟩], ?_⟩
      rw [hp, List.append_assoc]
      rfl
  have hlen : sa.context.quadruples.length ≤ pre.length := by
    rcases hpre with hp | ⟨aq, _, hp⟩
    · rw [hp]
    · rw [hp, List.length_append]
      exact Nat.le_add_right _ _
  refine ⟨hq, rfl, rfl, ?_, fun fn => Or.inl rfl, ?_⟩
  · intro fn
    by_cases hfn : fn = cfn
    · subst hfn
      refine Or.inr ⟨hcur, [pre.length], by rw [dictGet_dictSet_self], ?_⟩
      intro i hi
      rw [List.mem_singleton.mp hi]
      show pre.length < (pre ++ [(⟨"GOTO", none, none, none⟩ :
        Quadruple)]).length
      rw [List.length_append, List.length_singleton]
      omega
    · exact Or.inl (dictGet_dictSet_other _ _ _ _ hfn)
  · intro hfsi i q hi hget hj
    by_cases hiq : i < pre.length
    · rw [List.get?_append_left _ _ _ hiq] at hget
      rcases hpre with hp | ⟨aq, haq, hp⟩
      · exfalso
        rw [hp] at hiq
        exact absurd hiq (Nat.not_lt.mpr hi)
      · rw [hp] at hget
        have hmem := get?_append_right_mem _ _ _ _ hget hi
        rw [List.mem_singleton.mp hmem] at hj
        exact absurd hj haq
    · have hlt : i < pre.length + 1 := by
        by_contra hc
        rw [List.get?_eq_getElem?, List.getElem?_eq_none (by
          rw [List.length_append]
          exact Nat.le_of_not_lt hc)] at hget
        exact Option.noConfusion hget
      have hieq : i = pre.length :=
        Nat.le_antisymm (Nat.le_of_lt_succ hlt) (Nat.le_of_not_lt hiq)
      rw [hieq, List.get?_concat_length] at hget
      cases hget
      right
      refine ⟨rfl, Or.inr ⟨cfn,
        (dictGet sa.pending_return_gotos cfn).getD [] ++ [pre.length],
        hcur, by rw [dictGet_dictSet_self], ?_⟩⟩
      rw [hieq]
      exact List.mem_append_right _ (List.mem_singleton.mpr rfl)

theorem gen_retorno_step (fd : FunctionDirectory) (e : Option Expresion)
    (s s1 : GenState) (h : gen_retorno fd e s = .ok s1) :
    GenStep fd s s1 := by
  unfold gen_retorno at h
  cases hcur : s.current_function_name with
  | none => rw [hcur] at h; dsimp only at h; exact Except.noConfusion h
  | some cfn =>
      rw [hcur] at h
      dsimp only at h
      cases e with
      | none =>
          dsimp only at h
          cases h2 : assert_return fd cfn
              (Option.map (fun r : ExpressionResult => r.result_type)
                none) with
          | error er =>
              rw [h2] at h; dsimp only at h; exact Except.noConfusion h
          | ok u =>
              rw [h2] at h
              dsimp only at h
              cases h3 : fd.get_function cfn with
              | error er =>
                  rw [h3] at h; dsimp only at h; exact Except.noConfusion h
              | ok fi =>
                  rw [h3] at h
                  dsimp only at h
                  by_cases hrt : fi.return_type ≠ VOID
                  · rw [if_pos hrt] at h
                    dsimp only at h
                    exact Except.noConfusion h
                  · rw [if_neg hrt] at h
                    dsimp only at h
                    cases h
                    exact gen_retorno_final_step fd s cfn hcur _ (Or.inl rfl)
      | some ex =>
          dsimp only at h
          cases h1 : gen_expresion fd ex s with
          | error er =>
              rw [h1] at h; dsimp only at h; exact Except.noConfusion h
          | ok p1 =>
              obtain ⟨r, sa⟩ := p1
              rw [h1] at h
              dsimp only at h
              have hexpr := gen_expresion_step fd ex s r sa h1
              have hcur2 : sa.current_function_name = some cfn := by
                rw [hexpr.2.1, hcur]
              cases h2 : assert_return fd cfn
                  (Option.map (fun r2 : ExpressionResult => r2.result_type)
                    (some r)) with
              | error er =>
                  rw [h2] at h; dsimp only at h; exact Except.noConfusion h
              | ok u =>
                  rw [h2] at h
                  dsimp only at h
                  cases h3 : fd.get_function cfn with
                  | error er =>
                      rw [h3] at h; dsimp only at h
                      exact Except.noConfusion h
                  | ok fi =>
                      rw [h3] at h
                      dsimp only at h
                      by_cases hrt : fi.return_type ≠ VOID
                      · rw [if_pos hrt] at h
                        cases h4 : sa.virtual_memory.get_function_return_address
                            fi.name with
                        | error er =>
                            rw [h4] at h; dsimp only at h
                            exact Except.noConfusion h
                        | ok ra =>
                            rw [h4] at h
                            dsimp only at h
                            cases h
                            exact GenStep_trans hexpr
                              (gen_retorno_final_step fd sa cfn hcur2 _
                                (Or.inr ⟨⟨"ASSIGN", some (.num r.address),
                                  none, some (.num ra)⟩,
                                  (by decide : ¬ isJumpOp "ASSIGN"), rfl⟩))
                      · rw [if_neg hrt] at h
                        dsimp only at h
                        cases h
                        exact GenStep_trans hexpr
                          (gen_retorno_final_step fd sa cfn hcur2 _
                            (Or.inl rfl))

theorem gen_estatutos_nil_eq (fd : FunctionDirectory) (s : GenState) :
    gen_estatutos fd .nil s = .ok s := rfl

theorem gen_estatutos_cons_eq (fd : FunctionDirectory) (st : Estatuto)
    (rest : Estatutos) (s : GenState) :
    gen_estatutos fd (.cons st rest) s =
      match gen_estatuto fd st s with
      | .error e => .error e
      | .ok s1 => gen_estatutos fd rest s1 := rfl

theorem gen_estatuto_condicion_none_eq (fd : FunctionDirectory)
    (cond : Expresion) (thenB : Cuerpo) (s : GenState) :
    gen_estatuto fd (.condicion cond thenB .none) s =
      (match gen_expresion fd cond s with
      | .error e => .error e
      | .ok (condicion_result, s1) =>
          match ensure_bool condicion_result.result_type "si condicion" with
          | .error e => .error e
          | .ok _ =>
              let gotof_index := s1.qlen
              let q2 := s1.context.quadruples ++
                [⟨"GOTOF", some (.num condicion_result.address), none, none⟩]
              let s2 := { s1 with context := { s1.context with quadruples := q2 } }
              match gen_cuerpo fd thenB s2 with
              | .error e => .error e
              | .ok s3 =>
                  let end_index := s3.qlen
                  let qF :=
                    update_result s3.context.quadruples gotof_index
                      (.num end_index)
                  .ok { s3 with context := { s3.context with quadruples := qF } }) :=
  rfl

theorem gen_estatuto_condicion_some_eq (fd : FunctionDirectory)
    (cond : Expresion) (thenB : Cuerpo) (else_cuerpo : Cuerpo)
    (s : GenState) :
    gen_estatuto fd (.condicion cond thenB (.some else_cuerpo)) s =
      (match gen_expresion fd cond s with
      | .error e => .error e
      | .ok (condicion_result, s1) =>
          match ensure_bool condicion_result.result_type "si condicion" with
          | .error e => .error e
          | .ok _ =>
              let gotof_index := s1.qlen
              let q2 := s1.context.quadruples ++
                [⟨"GOTOF", some (.num condicion_result.address), none, none⟩]
              let s2 := { s1 with context := { s1.context with quadruples := q2 } }
              match gen_cuerpo fd thenB s2 with
              | .error e => .error e
              | .ok s3 =>
                  let goto_end_index := s3.qlen
                  let q4 := s3.context.quadruples ++ [⟨"GOTO", none, none, none⟩]
                  let s4 := { s3 with context := { s3.context with quadruples := q4 } }
                  let else_start_index := s4.qlen
                  let q5 :=
                    update_result s4.context.quadruples gotof_index
                      (.num else_start_index)
                  let s5 := { s4 with context := { s4.context with quadruples := q5 } }
                  match gen_cuerpo fd else_cuerpo s5 with
                  | .error e => .error e
                  | .ok s6 =>
                      let end_index := s6.qlen
                      let qF :=
                        update_result s6.context.quadruples goto_end_index
                          (.num end_index)
                      .ok { s6 with context := { s6.context with quadruples := qF } }) :=
  rfl

theorem gen_estatuto_ciclo_eq (fd : FunctionDirectory) (cond : Expresion)
    (body : Cuerpo) (s : GenState) :
    gen_estatuto fd (.ciclo cond body) s =
      (let loop_start_index := s.qlen
      match gen_expresion fd cond s with
      | .error e => .error e
      | .ok (condicion_result, s1) =>
          match ensure_bool condicion_result.result_type "mientras condicion" with
          | .error e => .error e
          | .ok _ =>
              let gotof_index := s1.qlen
              let q2 := s1.context.quadruples ++
                [⟨"GOTOF", some (.num condicion_result.address), none, none⟩]
              let s2 := { s1 with context := { s1.context with quadruples := q2 } }
              match gen_cuerpo fd body s2 with
              | .error e => .error e
              | .ok s3 =>
                  let q4 := s3.context.quadruples ++
                    [⟨"GOTO", none, none, some (.num loop_start_index)⟩]
                  let s4 := { s3 with context := { s3.context with quadruples := q4 } }
                  let end_index := s4.qlen
                  let qF :=
                    update_result s4.context.quadruples gotof_index
                      (.num end_index)
                  .ok { s4 with context := { s4.context with quadruples := qF } }) :=
  rfl

mutual

theorem gen_estatuto_step (fd : FunctionDirectory) :
    (st : Estatuto) → ∀ s s1,
    gen_estatuto fd st s = .ok s1 → GenStep fd s s1
  | .asignacion id e => fun s s1 h => gen_asignacion_step fd id e s s1 h
  | .llamada name args => fun s s1 h =>
      gen_llamada_func_step fd name args s s1 h
  | .imprime args => fun s s1 h => gen_imprime_step fd args s s1 h
  | .retorno e => fun s s1 h => gen_retorno_step fd e s s1 h
  | .bloque body => fun s s1 h => gen_estatutos_step fd body s s1 h
  | .condicion cond thenB elseB => fun s s1 h => by
      cases elseB with
      | none =>
          rw [gen_estatuto_condicion_none_eq] at h
          cases h1 : gen_expresion fd cond s with
          | error e =>
              rw [h1] at h; dsimp only at h; exact Except.noConfusion h
          | ok p1 =>
              obtain ⟨cr, sa⟩ := p1
              rw [h1] at h
              dsimp only at h
              cases h2 : ensure_bool cr.result_type "si condicion" with
              | error e =>
                  rw [h2] at h; dsimp only at h; exact Except.noConfusion h
              | ok u =>
                  rw [h2] at h
                  dsimp only at h
                  have hexpr := gen_expresion_step fd cond s cr sa h1
                  split at h
                  · exact Except.noConfusion h
                  · rename_i s3 h3
                    have hthen := gen_cuerpo_step fd thenB _ s3 h3
                    cases h
                    exact gen_condicion_noelse_glue fd s sa
                      { sa with context := { sa.context with
                          quadruples := sa.context.quadruples ++
                            [⟨"GOTOF", some (.num cr.address), none,
                              none⟩] } }
                      s3 _ cr hexpr
                      rfl rfl rfl rfl rfl hthen rfl rfl rfl rfl rfl
      | some else_cuerpo =>
          rw [gen_estatuto_condicion_some_eq] at h
          cases h1 : gen_expresion fd cond s with
          | error e =>
              rw [h1] at h; dsimp only at h; exact Except.noConfusion h
          | ok p1 =>
              obtain ⟨cr, sa⟩ := p1
              rw [h1] at h
              dsimp only at h
              cases h2 : ensure_bool cr.result_type "si condicion" with
              | error e =>
                  rw [h2] at h; dsimp only at h; exact Except.noConfusion h
              | ok u =>
                  rw [h2] at h
                  dsimp only at h
                  have hexpr := gen_expresion_step fd cond s cr sa h1
                  split at h
                  · exact Except.noConfusion h
                  · rename_i s3 h3
                    have hthen := gen_cuerpo_step fd thenB _ s3 h3
                    split at h
                    · exact Except.noConfusion h
                    · rename_i s6 h4
                      have helse := gen_cuerpo_step fd else_cuerpo _ s6 h4
                      cases h
                      exact gen_condicion_else_glue fd s sa
                        { sa with context := { sa.context with
                            quadruples := sa.context.quadruples ++
                              [⟨"GOTOF", some (.num cr.address), none,
                                none⟩] } }
                        s3
                        { s3 with context := { s3.context with
                            quadruples := update_result
                              (s3.context.quadruples ++
                                [(⟨"GOTO", none, none, none⟩ : Quadruple)])
                              sa.context.quadruples.length
                              (.num ((s3.context.quadruples ++
                                [(⟨"GOTO", none, none, none⟩ :
                                  Quadruple)]).length)) } }
                        s6 _ cr
                        hexpr rfl rfl rfl rfl rfl hthen rfl rfl rfl rfl rfl
                        helse rfl rfl rfl rfl rfl
  | .ciclo cond body => fun s s1 h => by
      rw [gen_estatuto_ciclo_eq] at h
      dsimp only at h
      cases h1 : gen_expresion fd cond s with
      | error e => rw [h1] at h; dsimp only at h; exact Except.noConfusion h
      | ok p1 =>
          obtain ⟨cr, sa⟩ := p1
          rw [h1] at h
          dsimp only at h
          cases h2 : ensure_bool cr.result_type "mientras condicion" with
          | error e =>
              rw [h2] at h; dsimp only at h; exact Except.noConfusion h
          | ok u =>
              rw [h2] at h
              dsimp only at h
              have hexpr := gen_expresion_step fd cond s cr sa h1
              split at h
              · exact Except.noConfusion h
              · rename_i s3 h3
                have hbody := gen_cuerpo_step fd body _ s3 h3
                cases h
                exact gen_ciclo_glue fd s sa
                  { sa with context := { sa.context with
                      quadruples := sa.context.quadruples ++
                        [⟨"GOTOF", some (.num cr.address), none, none⟩] } }
                  s3 _ cr hexpr
                  rfl rfl rfl rfl rfl hbody rfl rfl rfl rfl rfl

theorem gen_estatutos_step (fd : FunctionDirectory) :
    (sts : Estatutos) → ∀ s s1,
    gen_estatutos fd sts s = .ok s1 → GenStep fd s s1
  | .nil => fun s s1 h => by
      rw [gen_estatutos_nil_eq] at h
      cases h
      exact GenStep_refl fd s
  | .cons st rest => fun s s1 h => by
      rw [gen_estatutos_cons_eq] at h
      split at h
      · exact Except.noConfusion h
      · rename_i sa ha
        exact GenStep_trans (gen_estatuto_step fd st s sa ha)
          (gen_estatutos_step fd rest sa s1 h)

theorem gen_cuerpo_step (fd : FunctionDirectory) :
    (c : Cuerpo) → ∀ s s1,
    gen_cuerpo fd c s = .ok s1 → GenStep fd s s1
  | .mk body => fun s s1 h => gen_estatutos_step fd body s s1 h

end

/-- C6: lowering `mientras (cond) haz { body }` emits exactly: the
condition (lowered starting at the entry queue length, the loop start),
an ensure_bool check forcing the condition type BOOL, one GOTOF on the
condition address at index `sa.qlen`, the lowered body, one
`(GOTO, _, _, loop_start)`, and finally the GOTOF result is patched to
the queue length right after that GOTO — the first index past the
loop, which is the final queue length. -/
theorem while_lowering_shape (fd : FunctionDirectory) (cond : Expresion)
    (body : Cuerpo) (s s1 : GenState)
    (h : gen_estatuto fd (.ciclo cond body) s = .ok s1) :
    ∃ (cr : ExpressionResult) (sa s3 : GenState),
      gen_expresion fd cond s = .ok (cr, sa) ∧
      ensure_bool cr.result_type "mientras condicion" = .ok () ∧
      cr.result_type = BOOL ∧
      (∃ condQuads, sa.context.quadruples =
        s.context.quadruples ++ condQuads) ∧
      gen_cuerpo fd body
        { sa with context := { sa.context with
            quadruples := sa.context.quadruples ++
              [⟨"GOTOF", some (.num cr.address), none, none⟩] } } =
        .ok s3 ∧
      (∃ bodyQuads, s3.context.quadruples =
        sa.context.quadruples ++
          [⟨"GOTOF", some (.num cr.address), none, none⟩] ++ bodyQuads) ∧
      s1.context.quadruples =
        update_result
          (s3.context.quadruples ++
            [⟨"GOTO", none, none, some (.num s.qlen)⟩])
          sa.qlen
          (.num ((s3.context.quadruples ++
            [(⟨"GOTO", none, none, some (.num s.qlen)⟩ :
              Quadruple)]).length)) ∧
      (s3.context.quadruples ++
        [(⟨"GOTO", none, none, some (.num s.qlen)⟩ : Quadruple)]).length =
        s1.qlen ∧
      s1.context.quadruples.get? sa.qlen =
        some ⟨"GOTOF", some (.num cr.address), none,
          some (.num ((s3.context.quadruples ++
            [(⟨"GOTO", none, none, some (.num s.qlen)⟩ :
              Quadruple)]).length))⟩ ∧
      s1.context.quadruples.get? s3.qlen =
        some ⟨"GOTO", none, none, some (.num s.qlen)⟩ := by
  rw [gen_estatuto_ciclo_eq] at h
  dsimp only at h
  cases h1 : gen_expresion fd cond s with
  | error e => rw [h1] at h; dsimp only at h; exact Except.noConfusion h
  | ok p1 =>
      obtain ⟨cr, sa⟩ := p1
      rw [h1] at h
      dsimp only at h
      cases h2 : ensure_bool cr.result_type "mientras condicion" with
      | error e => rw [h2] at h; dsimp only at h; exact Except.noConfusion h
      | ok u =>
          cases u
          rw [h2] at h
          dsimp only at h
          have hexpr := gen_expresion_step fd cond s cr sa h1
          have hbool : cr.result_type = BOOL := by
            by_cases hb : cr.result_type ≠ BOOL
            · rw [ensure_bool, if_pos hb] at h2
              exact Except.noConfusion h2
            · exact Not.imp_symm (fun a => a) hb
          split at h
          · exact Except.noConfusion h
          · rename_i s3 h3
            have hbody := gen_cuerpo_step fd body _ s3 h3
            cases h
            obtain ⟨nb, hnb⟩ := hbody.1
            have hsa_s3 : sa.context.quadruples.length + 1 ≤
                s3.context.quadruples.length := by
              have := hbody.qlen_le
              unfold GenState.qlen at this
              simp only [List.length_append, List.length_singleton] at this
              exact this
            have hJ3 : s3.context.quadruples.get?
                sa.context.quadruples.length =
                some ⟨"GOTOF", some (.num cr.address), none, none⟩ := by
              refine hbody.get?_preserved _ _ ?_
              exact List.get?_concat_length _ _
            have hJ4 : (s3.context.quadruples ++
                [(⟨"GOTO", none, none, some (.num s.qlen)⟩ :
                  Quadruple)]).get? sa.context.quadruples.length =
                some ⟨"GOTOF", some (.num cr.address), none, none⟩ := by
              rw [List.get?_append_left _ _ _ (by omega)]
              exact hJ3
            refine ⟨cr, sa, s3, rfl, h2, hbool, hexpr.1, h3,
              ⟨nb, hnb⟩, rfl, ?_, ?_, ?_⟩
            · show (s3.context.quadruples ++ _).length =
                (update_result (s3.context.quadruples ++
                  [(⟨"GOTO", none, none, some (.num s.qlen)⟩ :
                    Quadruple)]) sa.context.quadruples.length _).length
              rw [update_result_length]
            · show (update_result (s3.context.quadruples ++
                  [(⟨"GOTO", none, none, some (.num s.qlen)⟩ :
                    Quadruple)]) sa.context.quadruples.length _).get?
                  sa.context.quadruples.length = _
              rw [update_result_get_self _ _ _ _ hJ4]
              rfl
            · show (update_result (s3.context.quadruples ++
                  [(⟨"GOTO", none, none, some (.num s.qlen)⟩ :
                    Quadruple)]) sa.context.quadruples.length _).get?
                  s3.context.quadruples.length = _
              rw [update_result_get_other _ _ _ _ (by omega)]
              exact List.get?_concat_length _ _

/-- The condition `0 MENOR 1` used by the C6 witness. -/
def c6Cond : Expresion :=
  .rel (.mk (.mk (.prim (.const (.int "0"))) .nil) .nil) "MENOR"
    (.mk (.mk (.prim (.const (.int "1"))) .nil) .nil)

/-- Witness for C6: the empty-body loop `mientras (0 MENOR 1) haz {}`
lowered from the empty generator state. -/
theorem while_lowering_shape_witness :
    ∃ s1, gen_estatuto ({} : FunctionDirectory)
        (.ciclo c6Cond (.mk .nil)) {} = .ok s1 ∧
      ∃ (cr : ExpressionResult) (sa s3 : GenState),
        gen_expresion {} c6Cond {} = .ok (cr, sa) ∧
        ensure_bool cr.result_type "mientras condicion" = .ok () ∧
        cr.result_type = BOOL ∧
        (∃ condQuads, sa.context.quadruples =
          ({} : GenState).context.quadruples ++ condQuads) ∧
        gen_cuerpo {} (.mk .nil)
          { sa with context := { sa.context with
              quadruples := sa.context.quadruples ++
                [⟨"GOTOF", some (.num cr.address), none, none⟩] } } =
          .ok s3 ∧
        (∃ bodyQuads, s3.context.quadruples =
          sa.context.quadruples ++
            [⟨"GOTOF", some (.num cr.address), none, none⟩] ++ bodyQuads) ∧
        s1.context.quadruples =
          update_result
            (s3.context.quadruples ++
              [⟨"GOTO", none, none, some (.num ({} : GenState).qlen)⟩])
            sa.qlen
            (.num ((s3.context.quadruples ++
              [(⟨"GOTO", none, none,
                some (.num ({} : GenState).qlen)⟩ : Quadruple)]).length)) ∧
        (s3.context.quadruples ++
          [(⟨"GOTO", none, none, some (.num ({} : GenState).qlen)⟩ :
            Quadruple)]).length = s1.qlen ∧
        s1.context.quadruples.get? sa.qlen =
          some ⟨"GOTOF", some (.num cr.address), none,
            some (.num ((s3.context.quadruples ++
              [(⟨"GOTO", none, none, some (.num ({} : GenState).qlen)⟩ :
                Quadruple)]).length))⟩ ∧
        s1.context.quadruples.get? s3.qlen =
          some ⟨"GOTO", none, none,
            some (.num ({} : GenState).qlen)⟩ := by
  refine ⟨_, rfl, ?_⟩
  exact while_lowering_shape {} c6Cond (.mk .nil) {} _ rfl
/-! ## C3: the global jump-target invariant -/

/-- Invariant of the generator state between top-level steps: pending
indices are inside the queue, GOSUB-fixup keys name directory functions,
recorded function starts are inside the queue, and every jump quadruple
is patched to a target within the queue or recorded as pending. -/
def StateInv (fd : FunctionDirectory) (s : GenState) : Prop :=
  (∀ fn idxs, dictGet s.pending_return_gotos fn = some idxs →
    ∀ i ∈ idxs, i < s.qlen) ∧
  (∀ fn idxs, dictGet s.pending_gosub_fixups fn = some idxs →
    (∀ i ∈ idxs, i < s.qlen) ∧
    (idxs = [] ∨ ∃ k fi2, dictGet fd.functions k = some fi2 ∧
      fi2.name = fn)) ∧
  FsiOk s ∧
  (∀ i q, s.context.quadruples.get? i = some q → isJumpOp q.operator →
    (∃ n, q.result = some (.num n) ∧ n ≤ s.qlen) ∨
    (q.result = none ∧ pendingIdx s i))

theorem GenStep_preserves_inv {fd : FunctionDirectory} {s s1 : GenState}
    (hinv : StateInv fd s) (hstep : GenStep fd s s1) : StateInv fd s1 := by
  obtain ⟨hret, hgos, hfsi, hjump⟩ := hinv
  refine ⟨?_, ?_, hstep.fsiOk hfsi, ?_⟩
  · intro fn idxs hd i hi
    rcases hstep.2.2.2.1 fn with hu | ⟨hcond, add, ha, hb⟩
    · rw [hu] at hd
      exact Nat.lt_of_lt_of_le (hret fn idxs hd i hi) hstep.qlen_le
    · rw [ha] at hd
      cases hd
      rcases List.mem_append.mp hi with hi | hi
      · cases hbase : dictGet s.pending_return_gotos fn with
        | none =>
            rw [hbase] at hi
            exact absurd hi (List.not_mem_nil i)
        | some idxs0 =>
            rw [hbase] at hi
            exact Nat.lt_of_lt_of_le (hret fn idxs0 hbase i hi)
              hstep.qlen_le
      · exact hb i hi
  · intro fn idxs hd
    rcases hstep.2.2.2.2.1 fn with hu | ⟨hcond, add, ha, hb⟩
    · rw [hu] at hd
      obtain ⟨hbd, hmem⟩ := hgos fn idxs hd
      exact ⟨fun i hi => Nat.lt_of_lt_of_le (hbd i hi) hstep.qlen_le, hmem⟩
    · rw [ha] at hd
      cases hd
      refine ⟨?_, Or.inr hcond⟩
      intro i hi
      rcases List.mem_append.mp hi with hi | hi
      · cases hbase : dictGet s.pending_gosub_fixups fn with
        | none =>
            rw [hbase] at hi
            exact absurd hi (List.not_mem_nil i)
        | some idxs0 =>
            rw [hbase] at hi
            exact Nat.lt_of_lt_of_le ((hgos fn idxs0 hbase).1 i hi)
              hstep.qlen_le
      · exact hb i hi
  · intro i q hget hj
    by_cases hi : i < s.context.quadruples.length
    · obtain ⟨new, hnew⟩ := hstep.1
      have hgs : s.context.quadruples.get? i = some q := by
        rw [hnew, List.get?_append_left _ _ _ hi] at hget
        exact hget
      rcases hjump i q hgs hj with ⟨n, hn, hle⟩ | ⟨hnone, hp⟩
      · exact Or.inl ⟨n, hn, Nat.le_trans hle hstep.qlen_le⟩
      · exact Or.inr ⟨hnone, hstep.pendingIdx_mono i hp⟩
    · exact hstep.2.2.2.2.2 hfsi i q (Nat.le_of_not_lt hi) hget hj

theorem patchAll_length (t : Nat) :
    ∀ (idxs : List Nat) (quads : List Quadruple),
    (patchAll quads idxs t).length = quads.length := by
  intro idxs
  induction idxs with
  | nil => intro quads; rfl
  | cons j rest ih =>
      intro quads
      show (patchAll (update_result quads j (.num t)) rest t).length = _
      rw [ih, update_result_length]

theorem patchAll_get_not_mem (t : Nat) :
    ∀ (idxs : List Nat) (quads : List Quadruple) (i : Nat),
    i ∉ idxs → (patchAll quads idxs t).get? i = quads.get? i := by
  intro idxs
  induction idxs with
  | nil => intro quads i _; rfl
  | cons j rest ih =>
      intro quads i hni
      show (patchAll (update_result quads j (.num t)) rest t).get? i = _
      rw [ih _ i (fun hc => hni (List.mem_cons_of_mem _ hc)),
        update_result_get_other _ _ _ _
          (fun hc => hni (List.mem_cons.mpr (Or.inl hc)))]

theorem patchAll_get_mem (t : Nat) :
    ∀ (idxs : List Nat) (quads : List Quadruple) (i : Nat),
    i ∈ idxs → i < quads.length →
    ∃ q0, (patchAll quads idxs t).get? i = some q0 ∧
      q0.result = some (.num t) := by
  intro idxs
  induction idxs with
  | nil =>
      intro quads i hi _
      exact absurd hi (List.not_mem_nil i)
  | cons j rest ih =>
      intro quads i hi hlen
      show ∃ q0, (patchAll (update_result quads j (.num t)) rest t).get? i =
        some q0 ∧ q0.result = some (.num t)
      by_cases hir : i ∈ rest
      · exact ih _ i hir (by rw [update_result_length]; exact hlen)
      · have hij : i = j := by
          rcases List.mem_cons.mp hi with h | h
          · exact h
          · exact absurd h hir
        subst hij
        have hq0some : quads.get? i = some (quads.get ⟨i, hlen⟩) :=
          List.get?_eq_get hlen
        rw [patchAll_get_not_mem t rest _ i hir,
          update_result_get_self _ _ _ _ hq0some]
        exact ⟨_, rfl, rfl⟩


/-- Entry phase of `_generate_function`: clearing both pending tables at
the function's key, recording its start index one past the appended
BEGINFUNC marker, and patching the recorded forward GOSUBs to that index
preserves the state invariant (at top level, where no function is
current). -/
theorem StateInv_entry (fd : FunctionDirectory) (s : GenState) (fn : String)
    (S2 : GenState) (hcur : s.current_function_name = none)
    (hinv : StateInv fd s)
    (hq : S2.context.quadruples =
      patchAll (s.context.quadruples ++
        [⟨"BEGINFUNC", some (.str fn), none, none⟩])
        ((dictGet s.pending_gosub_fixups fn).getD []) (s.qlen + 1))
    (hc : S2.current_function_name = some fn)
    (hf : S2.function_start_indices =
      dictSet s.function_start_indices fn (s.qlen + 1))
    (hr : S2.pending_return_gotos = dictSet s.pending_return_gotos fn [])
    (hg : S2.pending_gosub_fixups = dictSet s.pending_gosub_fixups fn []) :
    StateInv fd S2 := by
  obtain ⟨hret, hgos, hfsi, hjump⟩ := hinv
  have hlen2 : S2.qlen = s.qlen + 1 := by
    show S2.context.quadruples.length = s.context.quadruples.length + 1
    rw [hq, patchAll_length, List.length_append, List.length_singleton]
  have hgbound : ∀ i ∈ (dictGet s.pending_gosub_fixups fn).getD [],
      i < s.qlen := by
    intro i hi
    cases hd : dictGet s.pending_gosub_fixups fn with
    | none => rw [hd] at hi; exact absurd hi (List.not_mem_nil i)
    | some idxs => rw [hd] at hi; exact (hgos fn idxs hd).1 i hi
  refine ⟨?_, ?_, ?_, ?_⟩
  · intro fn2 idxs hd i hi
    rw [hr] at hd
    by_cases he : fn2 = fn
    · subst he
      rw [dictGet_dictSet_self] at hd
      cases hd
      exact absurd hi (List.not_mem_nil i)
    · rw [dictGet_dictSet_other _ _ _ _ he] at hd
      have := hret fn2 idxs hd i hi
      omega
  · intro fn2 idxs hd
    rw [hg] at hd
    by_cases he : fn2 = fn
    · subst he
      rw [dictGet_dictSet_self] at hd
      cases hd
      exact ⟨fun i hi => absurd hi (List.not_mem_nil i), Or.inl rfl⟩
    · rw [dictGet_dictSet_other _ _ _ _ he] at hd
      obtain ⟨hb, hm⟩ := hgos fn2 idxs hd
      exact ⟨fun i hi => by have := hb i hi; omega, hm⟩
  · intro fn2 idx hd
    rw [hf] at hd
    by_cases he : fn2 = fn
    · subst he
      rw [dictGet_dictSet_self] at hd
      cases hd
      omega
    · rw [dictGet_dictSet_other _ _ _ _ he] at hd
      have := hfsi fn2 idx hd
      omega
  · intro i q hget hj
    rw [hq] at hget
    by_cases hmem : i ∈ (dictGet s.pending_gosub_fixups fn).getD []
    · have hib : i < s.qlen := hgbound i hmem
      have hilt : i < (s.context.quadruples ++
          [(⟨"BEGINFUNC", some (.str fn), none, none⟩ : Quadruple)]).length := by
        have hql : s.qlen = s.context.quadruples.length := rfl
        rw [List.length_append, List.length_singleton]
        omega
      obtain ⟨q0, hq0get, hq0res⟩ :=
        patchAll_get_mem (s.qlen + 1) _ _ i hmem hilt
      rw [hq0get] at hget
      cases hget
      exact Or.inl ⟨s.qlen + 1, hq0res, by omega⟩
    · rw [patchAll_get_not_mem _ _ _ _ hmem] at hget
      by_cases hi : i < s.context.quadruples.length
      · rw [List.get?_append_left _ _ _ hi] at hget
        rcases hjump i q hget hj with ⟨n, hn, hle⟩ | ⟨hnone, hp⟩
        · exact Or.inl ⟨n, hn, by omega⟩
        · refine Or.inr ⟨hnone, ?_⟩
          rcases hp with ⟨g, idxs, hdg, hfs, hig⟩ | ⟨g, idxs, hcg, hdg2, hig2⟩
          · by_cases hgf : g = fn
            · subst hgf
              rw [hdg] at hmem
              exact absurd hig hmem
            · refine Or.inl ⟨g, idxs, ?_, ?_, hig⟩
              · rw [hg, dictGet_dictSet_other _ _ _ _ hgf]
                exact hdg
              · rw [hf, dictGet_dictSet_other _ _ _ _ hgf]
                exact hfs
          · rw [hcur] at hcg
            exact Option.noConfusion hcg
      · rw [List.get?_eq_getElem?,
          List.getElem?_append_right (Nat.le_of_not_lt hi)] at hget
        cases hdiff : i - s.context.quadruples.length with
        | zero =>
            rw [hdiff] at hget
            simp only [List.getElem?_cons_zero] at hget
            cases hget
            exact absurd (show isJumpOp "BEGINFUNC" from hj) (by decide)
        | succ k =>
            rw [hdiff] at hget
            simp only [List.getElem?_cons_succ, List.getElem?_nil] at hget
            exact Option.noConfusion hget

/-- Exit phase of `_generate_function`: appending the ENDFUNC marker and
patching the function's pending return GOTOs to its index preserves the
state invariant. -/
theorem StateInv_exit (fd : FunctionDirectory) (s3 : GenState) (fn : String)
    (out : GenState) (hinv3 : StateInv fd s3)
    (hc3 : s3.current_function_name = some fn)
    (hq : out.context.quadruples =
      patchAll (s3.context.quadruples ++
        [⟨"ENDFUNC", some (.str fn), none, none⟩])
        ((dictGet s3.pending_return_gotos fn).getD []) s3.qlen)
    (hf : out.function_start_indices = s3.function_start_indices)
    (hr : out.pending_return_gotos = s3.pending_return_gotos)
    (hg : out.pending_gosub_fixups = s3.pending_gosub_fixups) :
    StateInv fd out := by
  obtain ⟨hret, hgos, hfsi, hjump⟩ := hinv3
  have hlenO : out.qlen = s3.qlen + 1 := by
    show out.context.quadruples.length = s3.context.quadruples.length + 1
    rw [hq, patchAll_length, List.length_append, List.length_singleton]
  have hrbound : ∀ i ∈ (dictGet s3.pending_return_gotos fn).getD [],
      i < s3.qlen := by
    intro i hi
    cases hd : dictGet s3.pending_return_gotos fn with
    | none => rw [hd] at hi; exact absurd hi (List.not_mem_nil i)
    | some idxs => rw [hd] at hi; exact hret fn idxs hd i hi
  refine ⟨?_, ?_, ?_, ?_⟩
  · intro fn2 idxs hd i hi
    rw [hr] at hd
    have := hret fn2 idxs hd i hi
    omega
  · intro fn2 idxs hd
    rw [hg] at hd
    obtain ⟨hb, hm⟩ := hgos fn2 idxs hd
    exact ⟨fun i hi => by have := hb i hi; omega, hm⟩
  · intro fn2 idx hd
    rw [hf] at hd
    have := hfsi fn2 idx hd
    omega
  · intro i q hget hj
    rw [hq] at hget
    by_cases hmem : i ∈ (dictGet s3.pending_return_gotos fn).getD []
    · have hib : i < s3.qlen := hrbound i hmem
      have hilt : i < (s3.context.quadruples ++
          [(⟨"ENDFUNC", some (.str fn), none, none⟩ : Quadruple)]).length := by
        have hql : s3.qlen = s3.context.quadruples.length := rfl
        rw [List.length_append, List.length_singleton]
        omega
      obtain ⟨q0, hq0get, hq0res⟩ :=
        patchAll_get_mem s3.qlen _ _ i hmem hilt
      rw [hq0get] at hget
      cases hget
      exact Or.inl ⟨s3.qlen, hq0res, by omega⟩
    · rw [patchAll_get_not_mem _ _ _ _ hmem] at hget
      by_cases hi : i < s3.context.quadruples.length
      · rw [List.get?_append_left _ _ _ hi] at hget
        rcases hjump i q hget hj with ⟨n, hn, hle⟩ | ⟨hnone, hp⟩
        · exact Or.inl ⟨n, hn, by omega⟩
        · refine Or.inr ⟨hnone, ?_⟩
          rcases hp with ⟨g, idxs, hdg, hfs, hig⟩ | ⟨g, idxs, hcg, hdg, hig⟩
          · refine Or.inl ⟨g, idxs, ?_, ?_, hig⟩
            · rw [hg]; exact hdg
            · rw [hf]; exact hfs
          · rw [hc3] at hcg
            cases hcg
            rw [hdg] at hmem
            exact absurd hig hmem
      · rw [List.get?_eq_getElem?,
          List.getElem?_append_right (Nat.le_of_not_lt hi)] at hget
        cases hdiff : i - s3.context.quadruples.length with
        | zero =>
            rw [hdiff] at hget
            simp only [List.getElem?_cons_zero] at hget
            cases hget
            exact absurd (show isJumpOp "ENDFUNC" from hj) (by decide)
        | succ k =>
            rw [hdiff] at hget
            simp only [List.getElem?_cons_succ, List.getElem?_nil] at hget
            exact Option.noConfusion hget


/-- `_generate_function` called at top level preserves the state
invariant, restores the absent current function, and records the
function's start index one past the BEGINFUNC marker. -/
theorem gen_function_inv (fd : FunctionDirectory) (func : FuncDecl)
    (s out : GenState) (hcur : s.current_function_name = none)
    (hinv : StateInv fd s) (h : gen_function fd func s = .ok out) :
    StateInv fd out ∧ out.current_function_name = none ∧
    out.function_start_indices =
      dictSet s.function_start_indices func.name (s.qlen + 1) := by
  unfold gen_function at h
  dsimp only at h
  split at h
  · exact Except.noConfusion h
  · rename_i s3 h3
    cases h
    have hstep := gen_estatutos_step fd func.body _ s3 h3
    have hinv3 := GenStep_preserves_inv
      (StateInv_entry fd s func.name _ hcur hinv rfl rfl rfl rfl rfl) hstep
    have hc3 : s3.current_function_name = some func.name := hstep.2.1
    refine ⟨?_, ?_, ?_⟩
    · exact StateInv_exit fd s3 func.name _ hinv3 hc3 rfl rfl rfl rfl
    · exact hcur
    · show s3.function_start_indices = _
      rw [hstep.2.2.1]
      rfl

/-- Every entry of the functions dict carries its key as its `name`
field, and the key is one of the given function names. -/
def NamesFrom (names : List String) (d : FunctionDirectory) : Prop :=
  ∀ k fi2, dictGet d.functions k = some fi2 → fi2.name = k ∧ k ∈ names

/-- `NamesFrom` survives a `dictSet` of an entry named after its key. -/
theorem NamesFrom_dictSet {names : List String} {d : FunctionDirectory}
    (hn : NamesFrom names d) (fn : String) (f2 : FunctionInfo)
    (d2 : FunctionDirectory)
    (hd2 : d2.functions = dictSet d.functions fn f2)
    (hname : f2.name = fn) (hmem : fn ∈ names) : NamesFrom names d2 := by
  intro k fi2 hk
  rw [hd2] at hk
  by_cases he : k = fn
  · subst he
    rw [dictGet_dictSet_self] at hk
    cases hk
    exact ⟨hname, hmem⟩
  · rw [dictGet_dictSet_other _ _ _ _ he] at hk
    exact hn k fi2 hk

/-- `FunctionInfo.add_parameter` never changes the function's name. -/
theorem add_parameter_name (f : FunctionInfo) (pn : String) (pt : TypeName)
    (f2 : FunctionInfo) (h : f.add_parameter pn pt = .ok f2) :
    f2.name = f.name := by
  unfold FunctionInfo.add_parameter at h
  split at h
  · exact Except.noConfusion h
  · dsimp only at h
    cases hv : f.local_variables.add_variable pn pt true
        (some f.parameter_list.length) with
    | error e => rw [hv] at h; dsimp only at h; exact Except.noConfusion h
    | ok locals => rw [hv] at h; dsimp only at h; cases h; rfl

/-- `FunctionInfo.add_local_variable` never changes the function's
name. -/
theorem add_local_variable_name (f : FunctionInfo) (vn : String)
    (vt : TypeName) (f2 : FunctionInfo)
    (h : f.add_local_variable vn vt = .ok f2) : f2.name = f.name := by
  unfold FunctionInfo.add_local_variable at h
  cases hv : f.local_variables.add_variable vn vt false none with
  | error e => rw [hv] at h; dsimp only at h; exact Except.noConfusion h
  | ok locals => rw [hv] at h; dsimp only at h; cases h; rfl

/-- `add_parameter_to_function` preserves `NamesFrom`. -/
theorem add_parameter_to_function_names {names : List String}
    (d : FunctionDirectory) (fn pn : String) (pt : TypeName)
    (d2 : FunctionDirectory)
    (h : d.add_parameter_to_function fn pn pt = .ok d2)
    (hn : NamesFrom names d) : NamesFrom names d2 := by
  unfold FunctionDirectory.add_parameter_to_function at h
  cases hg : d.get_function fn with
  | error e => rw [hg] at h; dsimp only at h; exact Except.noConfusion h
  | ok f =>
      rw [hg] at h
      dsimp only at h
      cases hp2 : f.add_parameter pn pt with
      | error e => rw [hp2] at h; dsimp only at h; exact Except.noConfusion h
      | ok f2 =>
          rw [hp2] at h
          dsimp only at h
          cases h
          obtain ⟨hfn, hmem⟩ := hn fn f (get_function_ok _ _ _ hg)
          exact NamesFrom_dictSet hn fn f2 _ rfl
            ((add_parameter_name f pn pt f2 hp2).trans hfn) hmem

/-- `add_local_variable_to_function` preserves `NamesFrom`. -/
theorem add_local_variable_to_function_names {names : List String}
    (d : FunctionDirectory) (fn vn : String) (vt : TypeName)
    (d2 : FunctionDirectory)
    (h : d.add_local_variable_to_function fn vn vt = .ok d2)
    (hn : NamesFrom names d) : NamesFrom names d2 := by
  unfold FunctionDirectory.add_local_variable_to_function at h
  cases hg : d.get_function fn with
  | error e => rw [hg] at h; dsimp only at h; exact Except.noConfusion h
  | ok f =>
      rw [hg] at h
      dsimp only at h
      cases hp2 : f.add_local_variable vn vt with
      | error e => rw [hp2] at h; dsimp only at h; exact Except.noConfusion h
      | ok f2 =>
          rw [hp2] at h
          dsimp only at h
          cases h
          obtain ⟨hfn, hmem⟩ := hn fn f (get_function_ok _ _ _ hg)
          exact NamesFrom_dictSet hn fn f2 _ rfl
            ((add_local_variable_name f vn vt f2 hp2).trans hfn) hmem

/-- Registering a declared function preserves `NamesFrom`. -/
theorem add_function_spec_names {names : List String} (d : FunctionDirectory)
    (n : String) (rt : TypeName) (d2 : FunctionDirectory)
    (h : d.add_function_spec n rt = .ok d2) (hn : NamesFrom names d)
    (hmem : n ∈ names) : NamesFrom names d2 := by
  unfold FunctionDirectory.add_function_spec at h
  split at h
  · exact Except.noConfusion h
  · cases h
    exact NamesFrom_dictSet hn n _ _ rfl rfl hmem

/-- The parameter-registration loop preserves `NamesFrom`. -/
theorem addParameters_names {names : List String} (fn : String) :
    ∀ (ps : List (String × TypeName)) (d d2 : FunctionDirectory),
    NamesFrom names d → addParameters d fn ps = .ok d2 →
    NamesFrom names d2 := by
  intro ps
  induction ps with
  | nil =>
      intro d d2 hn h
      rw [addParameters] at h
      cases h
      exact hn
  | cons hd tl ih =>
      intro d d2 hn h
      obtain ⟨pn, pt⟩ := hd
      rw [addParameters] at h
      cases hs : d.add_parameter_to_function fn pn pt with
      | error e => rw [hs] at h; dsimp only at h; exact Except.noConfusion h
      | ok dx =>
          rw [hs] at h
          dsimp only at h
          exact ih dx d2 (add_parameter_to_function_names _ _ _ _ _ hs hn) h

/-- The inner local-variable fold preserves `NamesFrom`. -/
theorem foldLocals_names {names : List String} (fn : String) (vt : TypeName) :
    ∀ (ids : List String) (d d2 : FunctionDirectory),
    NamesFrom names d →
    (ids.foldlM
      (fun acc vn => acc.add_local_variable_to_function fn vn vt) d) =
      .ok d2 →
    NamesFrom names d2 := by
  intro ids
  induction ids with
  | nil =>
      intro d d2 hn h
      rw [List.foldlM_nil] at h
      cases h
      exact hn
  | cons hd tl ih =>
      intro d d2 hn h
      rw [List.foldlM_cons] at h
      cases hs : d.add_local_variable_to_function fn hd vt with
      | error e =>
          rw [hs] at h
          exact Except.noConfusion h
      | ok dx =>
          rw [hs] at h
          exact ih dx d2 (add_local_variable_to_function_names _ _ _ _ _ hs hn) h

/-- The local-declaration loop preserves `NamesFrom`. -/
theorem addLocals_names {names : List String} (fn : String) :
    ∀ (ls : List (List String × TypeName)) (d d2 : FunctionDirectory),
    NamesFrom names d → addLocals d fn ls = .ok d2 →
    NamesFrom names d2 := by
  intro ls
  induction ls with
  | nil =>
      intro d d2 hn h
      rw [addLocals] at h
      cases h
      exact hn
  | cons hd tl ih =>
      intro d d2 hn h
      obtain ⟨ids, vt⟩ := hd
      rw [addLocals] at h
      cases hs : (ids.foldlM
          (fun acc vn => acc.add_local_variable_to_function fn vn vt) d) with
      | error e => rw [hs] at h; dsimp only at h; exact Except.noConfusion h
      | ok dx =>
          rw [hs] at h
          dsimp only at h
          exact ih dx d2 (foldLocals_names fn vt ids d dx hn hs) h

/-- `func_decl` preserves `NamesFrom` when the declared name is among
the program's function names. -/
theorem build_func_decl_names {names : List String} (d : FunctionDirectory)
    (func : FuncDecl) (d2 : FunctionDirectory)
    (h : build_func_decl d func = .ok d2) (hn : NamesFrom names d)
    (hmem : func.name ∈ names) : NamesFrom names d2 := by
  unfold build_func_decl at h
  cases h1 : d.add_function_spec func.name func.return_type with
  | error e => rw [h1] at h; dsimp only at h; exact Except.noConfusion h
  | ok d1 =>
      rw [h1] at h
      dsimp only at h
      cases h2 : addParameters d1 func.name func.params with
      | error e => rw [h2] at h; dsimp only at h; exact Except.noConfusion h
      | ok dx =>
          rw [h2] at h
          dsimp only at h
          exact addLocals_names func.name func.locals dx d2
            (addParameters_names func.name func.params d1 dx
              (add_function_spec_names _ _ _ _ h1 hn hmem) h2) h

/-- The fold over every `func_decl` preserves `NamesFrom`. -/
theorem foldFuncs_names {names : List String} :
    ∀ (fs : List FuncDecl) (d d2 : FunctionDirectory),
    (∀ func ∈ fs, func.name ∈ names) → NamesFrom names d →
    fs.foldlM build_func_decl d = .ok d2 → NamesFrom names d2 := by
  intro fs
  induction fs with
  | nil =>
      intro d d2 _ hn h
      rw [List.foldlM_nil] at h
      cases h
      exact hn
  | cons hd tl ih =>
      intro d d2 hmem hn h
      rw [List.foldlM_cons] at h
      cases hs : build_func_decl d hd with
      | error e =>
          rw [hs] at h
          exact Except.noConfusion h
      | ok dx =>
          rw [hs] at h
          exact ih dx d2 (fun func hf => hmem func (List.mem_cons_of_mem _ hf))
            (build_func_decl_names d hd dx hs hn
              (hmem hd (List.mem_cons_self _ _))) h

/-- The directory built by `build_symbol_tables` satisfies `NamesFrom`
for the program's declared function names. -/
theorem build_symbol_tables_names (p : Programa) (d : FunctionDirectory)
    (h : build_symbol_tables p = .ok d) :
    NamesFrom (p.funcs.map FuncDecl.name) d := by
  unfold build_symbol_tables at h
  cases hf : (p.funcs.foldlM build_func_decl ({} : FunctionDirectory)) with
  | error e => rw [hf] at h; dsimp only at h; exact Except.noConfusion h
  | ok fd =>
      rw [hf] at h
      dsimp only at h
      have hn : NamesFrom (p.funcs.map FuncDecl.name) fd :=
        foldFuncs_names p.funcs {} fd
          (fun func hf2 => List.mem_map_of_mem _ hf2)
          (fun k fi2 hk => Option.noConfusion hk) hf
      intro k fi2 hk
      rw [addGlobals_functions p.globals fd d h] at hk
      exact hn k fi2 hk

/-- The per-function address pass keeps every key and every entry's
name. -/
theorem assignFunctionPass_names :
    ∀ (l : List (String × FunctionInfo)) (vm : VirtualMemory)
      (l2 : List (String × FunctionInfo)) (vm2 : VirtualMemory),
    assignFunctionPass l vm = .ok (l2, vm2) →
    ∀ k fi2, dictGet l2 k = some fi2 →
    ∃ fi, dictGet l k = some fi ∧ fi2.name = fi.name := by
  intro l
  induction l with
  | nil =>
      intro vm l2 vm2 h k fi2 hk
      rw [assignFunctionPass] at h
      cases h
      exact Option.noConfusion hk
  | cons hd tl ih =>
      intro vm l2 vm2 h k fi2 hk
      obtain ⟨n, f⟩ := hd
      rw [assignFunctionPass] at h
      cases hloc : assignLocalsPass f.local_variables.variables vm with
      | error e => rw [hloc] at h; dsimp only at h; exact Except.noConfusion h
      | ok lv =>
          obtain ⟨locals2, vmx⟩ := lv
          rw [hloc] at h
          dsimp only at h
          by_cases hrt : f.return_type ≠ VOID
          · rw [if_pos hrt] at h
            cases halloc : vmx.allocate_function_return f.name
                f.return_type with
            | error e =>
                rw [halloc] at h; dsimp only at h; exact Except.noConfusion h
            | ok av =>
                obtain ⟨a, vm4⟩ := av
                rw [halloc] at h
                dsimp only at h
                cases hrest : assignFunctionPass tl vm4 with
                | error e =>
                    rw [hrest] at h; dsimp only at h
                    exact Except.noConfusion h
                | ok rv =>
                    obtain ⟨rest2, vm5⟩ := rv
                    rw [hrest] at h
                    dsimp only at h
                    cases h
                    simp only [dictGet] at hk
                    by_cases hkn : n = k
                    · rw [if_pos hkn] at hk
                      cases hk
                      exact ⟨f, by simp only [dictGet]; rw [if_pos hkn], rfl⟩
                    · rw [if_neg hkn] at hk
                      obtain ⟨fi, hfi, hname⟩ := ih vm4 rest2 vm2 hrest k fi2 hk
                      refine ⟨fi, ?_, hname⟩
                      simp only [dictGet]
                      rw [if_neg hkn]
                      exact hfi
          · rw [if_neg hrt] at h
            dsimp only at h
            cases hrest : assignFunctionPass tl vmx with
            | error e =>
                rw [hrest] at h; dsimp only at h
                exact Except.noConfusion h
            | ok rv =>
                obtain ⟨rest2, vm5⟩ := rv
                rw [hrest] at h
                dsimp only at h
                cases h
                simp only [dictGet] at hk
                by_cases hkn : n = k
                · rw [if_pos hkn] at hk
                  cases hk
                  exact ⟨f, by simp only [dictGet]; rw [if_pos hkn], rfl⟩
                · rw [if_neg hkn] at hk
                  obtain ⟨fi, hfi, hname⟩ := ih vmx rest2 vm2 hrest k fi2 hk
                  refine ⟨fi, ?_, hname⟩
                  simp only [dictGet]
                  rw [if_neg hkn]
                  exact hfi

/-- `assign_variable_addresses` preserves `NamesFrom`. -/
theorem assign_variable_addresses_names (d : FunctionDirectory)
    (vm : VirtualMemory) (d2 : FunctionDirectory) (vm2 : VirtualMemory)
    (names : List String)
    (h : assign_variable_addresses d vm = .ok (d2, vm2))
    (hn : NamesFrom names d) : NamesFrom names d2 := by
  unfold assign_variable_addresses at h
  cases hg : assignGlobalsPass d.global_variables.variables vm with
  | error e => rw [hg] at h; dsimp only at h; exact Except.noConfusion h
  | ok gv =>
      obtain ⟨globals2, vmx⟩ := gv
      rw [hg] at h
      dsimp only at h
      cases hf : assignFunctionPass d.functions vmx with
      | error e => rw [hf] at h; dsimp only at h; exact Except.noConfusion h
      | ok fv =>
          obtain ⟨functions2, vm3⟩ := fv
          rw [hf] at h
          dsimp only at h
          cases h
          intro k fi2 hk
          obtain ⟨fi, hfi, hname⟩ :=
            assignFunctionPass_names d.functions vmx functions2 _ hf k fi2 hk
          obtain ⟨hn1, hn2⟩ := hn k fi hfi
          exact ⟨hname.trans hn1, hn2⟩

/-- The generator's initial state (fresh context, empty tables)
satisfies the state invariant. -/
theorem StateInv_init (fd : FunctionDirectory) (vm : VirtualMemory) :
    StateInv fd ({ virtual_memory := vm } : GenState) := by
  refine ⟨?_, ?_, ?_, ?_⟩
  · intro fn idxs hd
    exact Option.noConfusion hd
  · intro fn idxs hd
    exact Option.noConfusion hd
  · intro fn idx hd
    exact Option.noConfusion hd
  · intro i q hget
    exact Option.noConfusion hget

/-- `_generate_funcs_seccion` at top level preserves the state
invariant, keeps the current function absent, and records a start index
for every generated function. -/
theorem gen_funcs_seccion_inv (fd : FunctionDirectory) :
    ∀ (fs : List FuncDecl) (s out : GenState),
    s.current_function_name = none → StateInv fd s →
    gen_funcs_seccion fd fs s = .ok out →
    StateInv fd out ∧ out.current_function_name = none ∧
    (∀ fn, (dictGet s.function_start_indices fn).isSome →
      (dictGet out.function_start_indices fn).isSome) ∧
    (∀ func ∈ fs, (dictGet out.function_start_indices func.name).isSome) := by
  intro fs
  induction fs with
  | nil =>
      intro s out hcur hinv h
      rw [gen_funcs_seccion] at h
      cases h
      exact ⟨hinv, hcur, fun fn hf => hf,
        fun func hf => absurd hf (List.not_mem_nil func)⟩
  | cons func rest ih =>
      intro s out hcur hinv h
      rw [gen_funcs_seccion] at h
      cases hx : gen_function fd func s with
      | error e => rw [hx] at h; dsimp only at h; exact Except.noConfusion h
      | ok s1 =>
          rw [hx] at h
          dsimp only at h
          obtain ⟨hinv1, hcur1, hfsi1⟩ :=
            gen_function_inv fd func s s1 hcur hinv hx
          obtain ⟨hinvO, hcurO, hmono, hall⟩ := ih s1 out hcur1 hinv1 h
          refine ⟨hinvO, hcurO, ?_, ?_⟩
          · intro fn hf
            refine hmono fn ?_
            rw [hfsi1]
            by_cases he : fn = func.name
            · subst he
              rw [dictGet_dictSet_self]
              rfl
            · rw [dictGet_dictSet_other _ _ _ _ he]
              exact hf
          · intro f2 hf2
            rcases List.mem_cons.mp hf2 with he | he
            · subst he
              refine hmono f2.name ?_
              rw [hfsi1, dictGet_dictSet_self]
              rfl
            · exact hall f2 he

/-- C3 (amended): in a successfully compiled program every jump
quadruple - GOTO, GOTOF or GOSUB, forward GOSUBs to later functions
included - carries an already patched numeric target `n` with
`n ≤ len(quadruples)`: the closed range `[0, len]`, not the half-open
`[0, len)` of the claim, because a jump patched to the end of the queue
(where the VM's fetch loop halts) is emitted for ordinary programs. -/
theorem jump_targets_within_closed_range (p : Programa)
    (c : CompiledProgram) (h : compile_program p = .ok c) :
    ∀ i q, c.quadruples.get? i = some q → isJumpOp q.operator →
    ∃ n, q.result = some (.num n) ∧ n ≤ c.quadruples.length := by
  unfold compile_program at h
  cases hb : build_symbol_tables p with
  | error e => rw [hb] at h; dsimp only at h; exact Except.noConfusion h
  | ok fd0 =>
      rw [hb] at h
      dsimp only at h
      cases ha : assign_variable_addresses fd0 {} with
      | error e => rw [ha] at h; dsimp only at h; exact Except.noConfusion h
      | ok av =>
          obtain ⟨fd, vm0⟩ := av
          rw [ha] at h
          dsimp only at h
          cases hg : generate_program fd p { virtual_memory := vm0 } with
          | error e => rw [hg] at h; dsimp only at h; exact Except.noConfusion h
          | ok sF =>
              rw [hg] at h
              dsimp only at h
              cases h
              unfold generate_program at hg
              cases hfs : gen_funcs_seccion fd p.funcs
                  { virtual_memory := vm0 } with
              | error e =>
                  rw [hfs] at hg; dsimp only at hg
                  exact Except.noConfusion hg
              | ok s1 =>
                  rw [hfs] at hg
                  dsimp only at hg
                  obtain ⟨hinv1, hcur1, hmono, hall⟩ :=
                    gen_funcs_seccion_inv fd p.funcs _ s1 rfl
                      (StateInv_init fd vm0) hfs
                  have hinv1x :
                      StateInv fd { s1 with current_function_name := none } := by
                    obtain ⟨h1, h2, h3, h4⟩ := hinv1
                    refine ⟨h1, h2, h3, ?_⟩
                    intro i q hget hj
                    rcases h4 i q hget hj with hl | ⟨hnone, hp⟩
                    · exact Or.inl hl
                    · refine Or.inr ⟨hnone, ?_⟩
                      rcases hp with ⟨fn, idxs, ha2, hb2, hc2⟩ |
                        ⟨fn, idxs, hc2, hd2, he2⟩
                      · exact Or.inl ⟨fn, idxs, ha2, hb2, hc2⟩
                      · rw [hcur1] at hc2
                        exact Option.noConfusion hc2
                  have hstep := gen_estatutos_step fd p.main _ sF hg
                  have hinvF := GenStep_preserves_inv hinv1x hstep
                  intro i q hget hj
                  rcases hinvF.2.2.2 i q hget hj with ⟨n, hn, hle⟩ |
                    ⟨hnone, hp⟩
                  · exact ⟨n, hn, hle⟩
                  · exfalso
                    rcases hp with ⟨fn, idxs, hdg, hfs2, hig⟩ |
                      ⟨fn, idxs, hcg, hd2, he2⟩
                    · obtain ⟨hbnd, hm⟩ := hinvF.2.1 fn idxs hdg
                      rcases hm with hnil | ⟨k, fi2, hkfi, hkname⟩
                      · subst hnil
                        exact absurd hig (List.not_mem_nil i)
                      · have hnames :=
                          assign_variable_addresses_names fd0 {} fd _ _ ha
                            (build_symbol_tables_names p fd0 hb)
                        obtain ⟨hk1, hk2⟩ := hnames k fi2 hkfi
                        have hfk : fn = k := by rw [← hkname, hk1]
                        obtain ⟨func, hfmem, hfname⟩ := List.mem_map.mp hk2
                        have hs1 : (dictGet s1.function_start_indices
                            fn).isSome := by
                          rw [hfk, ← hfname]
                          exact hall func hfmem
                        have hfsieq : sF.function_start_indices =
                            s1.function_start_indices := hstep.2.2.1
                        rw [hfsieq] at hfs2
                        rw [hfs2] at hs1
                        exact Bool.noConfusion hs1
                    · have hcurF : sF.current_function_name =
                          (none : Option String) := hstep.2.1
                      rw [hcurF] at hcg
                      exact Option.noConfusion hcg

/-- The refuting program: `main { while (0 < 1) { } }` - a program
whose only statement is a trailing while loop. -/
def c3Prog : Programa :=
  { globals := [], funcs := [],
    main := .cons (.ciclo
      (.rel (.mk (.mk (.prim (.const (.int "0"))) .nil) .nil) "MENOR"
        (.mk (.mk (.prim (.const (.int "1"))) .nil) .nil))
      (.mk .nil)) .nil }

/-- C3 counterexample: compiling `main { while (0 < 1) { } }` yields
three quadruples whose GOTOF (index 1) is patched to target 3 =
len(quadruples), which is not a valid quadruple index in `[0, len)`;
the VM treats it as the halt position one past the last quadruple. -/
theorem goto_target_out_of_halfopen_range :
    ∃ c q, compile_program c3Prog = .ok c ∧
      c.quadruples.get? 1 = some q ∧ isJumpOp q.operator ∧
      q.result = some (.num 3) ∧ ¬ (3 < c.quadruples.length) := by
  refine ⟨_, _, rfl, rfl, by decide, rfl, by decide⟩

/-- Witness for C3 (amended): on the refuting program itself the
amended bound holds - the GOTOF at index 1 targets 3 ≤ 3. -/
theorem jump_targets_within_closed_range_witness :
    ∃ c, compile_program c3Prog = .ok c ∧
      ∃ q, c.quadruples.get? 1 = some q ∧ isJumpOp q.operator ∧
      ∃ n, q.result = some (.num n) ∧ n ≤ c.quadruples.length := by
  refine ⟨_, rfl, _, rfl, by decide, ?_⟩
  exact jump_targets_within_closed_range c3Prog _ rfl 1 _ rfl (by decide)

end Patito
